import Mathlib

/-!
# knative-gcp: validation, scheduler jobs and reconcilers of the event sources

A shallow embedding of `pkg/apis/events/v1beta1/cloudbuildsource_validation.go`
and of `pkg/operations/scheduler/job.go`, together with the parts of the
libraries they call, a model of the reconcilers whose table tests are among the
sources, and the properties the specification states about them.

Go pointers are `Option`s (`nil` is `none`), Go strings are `String`s and are
compared the way Go compares them (by their characters, in order).
-/

set_option autoImplicit false

namespace KnativeGcp

/-! ## Strings -/

/-- Go's `a < b` on strings: lexicographic order of the characters. -/
def charsLt : List Char → List Char → Bool
  | _, [] => false
  | [], _ :: _ => true
  | a :: as, b :: bs => a.toNat < b.toNat || (a.toNat == b.toNat && charsLt as bs)

/-- Go's `a < b` on strings. -/
def strLt (a b : String) : Bool := charsLt a.data b.data

/-- The negation of `b < a` on strings, that is `a <= b`. -/
def strLe (a b : String) : Prop := strLt b a = false

instance strLeDecidable : DecidableRel strLe := fun a b =>
  inferInstanceAs (Decidable (strLt b a = false))

/-- The pieces of `strings.Split(s, ".")`: never an empty list, `""` gives `[""]`. -/
def splitDot : List Char → List (List Char)
  | [] => [[]]
  | c :: cs =>
    if c = '.' then [] :: splitDot cs
    else
      match splitDot cs with
      | [] => [[c]]
      | w :: ws => (c :: w) :: ws

/-- The call `strings.Join(parts, ".")`. -/
def joinDot : List (List Char) → List Char
  | [] => []
  | [p] => p
  | p :: q :: rest => p ++ '.' :: joinDot (q :: rest)

/-! ## knative.dev/pkg/apis: FieldError -/

/-- The struct `apis.FieldError`: a message, the paths it is about, details, and
the errors collected under it. A `*FieldError` is an `Option FieldError`. -/
inductive FieldError where
  | mk (Message : String) (Paths : List String) (Details : String)
      (errors : List FieldError)

namespace FieldError

/-- Field `Message`. -/
def Message : FieldError → String
  | mk m _ _ _ => m

/-- Field `Paths`. -/
def Paths : FieldError → List String
  | mk _ p _ _ => p

/-- Field `Details`. -/
def Details : FieldError → String
  | mk _ _ d _ => d

/-- Field `errors`. -/
def errors : FieldError → List FieldError
  | mk _ _ _ es => es

/-- A leaf error as `normalized` builds it: message, paths and details only. -/
structure Entry where
  Message : String
  Paths : List String
  Details : String
deriving DecidableEq, Repr

/-- The method `isEmpty` on a non-nil receiver. -/
def isEmptyStruct : FieldError → Bool
  | mk m p d es => m == "" && d == "" && es.isEmpty && p.isEmpty

end FieldError

/-- The method `(*FieldError).isEmpty`: nil, or nothing set. -/
def isEmpty : Option FieldError → Bool
  | none => true
  | some e => e.isEmptyStruct

/-- The zero `FieldError`. -/
def emptyFieldError : FieldError := .mk "" [] "" []

/-- Appends one error to the field `errors`. -/
def appendError : FieldError → FieldError → FieldError
  | .mk m p d es, e => .mk m p d (es ++ [e])

/-- The loop of `Also` over the errors passed in: the non-empty ones are appended. -/
def collect : FieldError → List (Option FieldError) → FieldError
  | acc, [] => acc
  | acc, none :: rest => collect acc rest
  | acc, some e :: rest =>
    if e.isEmptyStruct then collect acc rest else collect (appendError acc e) rest

/-- The method `(*FieldError).Also(errs...)`: a copy of the receiver (a fresh
error when the receiver is empty) with the non-empty `errs` appended to its
`errors`; nil when the result is empty. -/
def Also (fe : Option FieldError) (errs : List (Option FieldError)) : Option FieldError :=
  let start : FieldError :=
    match fe with
    | none => emptyFieldError
    | some e => if e.isEmptyStruct then emptyFieldError else e
  let newErr := collect start errs
  if newErr.isEmptyStruct then none else some newErr

/-- The helper `isIndex`: the part starts with `[` and ends with `]`. -/
def isIndex (part : List Char) : Bool :=
  part.head? == some '[' && part.getLast? == some ']'

/-- The inner loop of `flatten` over the dot-separated pieces of one part. -/
def flattenPieces : List (List Char) → List (List Char) → List (List Char)
  | newPath, [] => newPath
  | newPath, p :: ps =>
    if p = [] then flattenPieces newPath ps
    else if 0 < newPath.length && isIndex p then
      flattenPieces (newPath.dropLast ++ [newPath.getLast?.getD [] ++ p]) ps
    else flattenPieces (newPath ++ [p]) ps

/-- The outer loop of `flatten` over the parts of the path. -/
def flattenParts : List (List Char) → List String → List (List Char)
  | newPath, [] => newPath
  | newPath, part :: rest => flattenParts (flattenPieces newPath (splitDot part.data)) rest

/-- The helper `flatten(path)`: the parts joined with dots, empty pieces
(`CurrentField`) dropped and index pieces glued to the piece before them. -/
def flatten (path : List String) : String :=
  String.mk (joinDot (flattenParts [] path))

mutual
/-- The method `ViaField(prefix...)` on a non-nil receiver: every path gets the
prefix, and the collected errors come along through `Also`. -/
def FieldError.ViaFieldStruct (pfx : List String) : FieldError → Option FieldError
  | .mk m p d es =>
    ViaFieldErrors pfx es (some (.mk m (p.map fun oldPath => flatten (pfx ++ [oldPath])) d []))
/-- The loop of `ViaField` over the collected errors. -/
def ViaFieldErrors (pfx : List String) : List FieldError → Option FieldError → Option FieldError
  | [], newErr => newErr
  | e :: es, newErr => ViaFieldErrors pfx es (Also newErr [e.ViaFieldStruct pfx])
end

/-- The method `(*FieldError).ViaField(prefix...)`; nil stays nil. -/
def ViaField (fe : Option FieldError) (pfx : List String) : Option FieldError :=
  match fe with
  | none => none
  | some e => e.ViaFieldStruct pfx

mutual
/-- The method `normalized` on a non-nil receiver: the leaf of this error, when
it has a message, then the leaves of the collected errors, in order. -/
def FieldError.normalizedStruct : FieldError → List FieldError.Entry
  | .mk m p d es => (if m ≠ "" then [⟨m, p, d⟩] else []) ++ normalizedErrors es
/-- The loop of `normalized` over the collected errors. -/
def normalizedErrors : List FieldError → List FieldError.Entry
  | [] => []
  | e :: es => e.normalizedStruct ++ normalizedErrors es
end

/-- The method `(*FieldError).normalized`: the flat list of leaves. -/
def normalized : Option FieldError → List FieldError.Entry
  | none => []
  | some e => e.normalizedStruct

/-- The helper `key(err)`: message, a dash, details. -/
def key (e : FieldError.Entry) : String := e.Message ++ "-" ++ e.Details

/-- The helper `mergePaths(a, b)`: `a`, then the paths of `b` that `a` lacks. -/
def mergePaths (a b : List String) : List String :=
  a ++ b.filter fun bi => !a.contains bi

/-- The first loop of `merge`: one entry a key, in the order the keys first
appear; a later error with a key already there adds its paths to that entry. -/
def mergeInto : List FieldError.Entry → FieldError.Entry → List FieldError.Entry
  | [], e => [e]
  | v :: vs, e =>
    if key v = key e then { v with Paths := mergePaths v.Paths e.Paths } :: vs
    else v :: mergeInto vs e

/-- The order `merge` sorts the entries by: message, then details. -/
def entryLt (a b : FieldError.Entry) : Bool :=
  if a.Message = b.Message then strLt a.Details b.Details else strLt a.Message b.Message

/-- The relation a stable sort by `entryLt` keeps between neighbours. -/
def entryLe (a b : FieldError.Entry) : Prop := entryLt b a = false

instance entryLeDecidable : DecidableRel entryLe := fun a b =>
  inferInstanceAs (Decidable (entryLt b a = false))

/-- The helper `merge(errs)`: the errors grouped by key, the paths of each group
sorted, the groups sorted by message and details. -/
def merge (errs : List FieldError.Entry) : List FieldError.Entry :=
  let m := errs.foldl mergeInto []
  let newErrs := m.map fun v => { v with Paths := v.Paths.insertionSort strLe }
  newErrs.insertionSort entryLe

/-- What `Error()` prints, before it is formatted: the merged leaves. -/
def report (fe : Option FieldError) : List FieldError.Entry := merge (normalized fe)

/-- The helper `apis.ErrMissingField(fieldPaths...)`. -/
def ErrMissingField (fieldPaths : List String) : FieldError :=
  .mk "missing field(s)" fieldPaths "" []

/-- The helper `apis.ErrGeneric(diagnostic, fieldPaths...)`. -/
def ErrGeneric (diagnostic : String) (fieldPaths : List String) : FieldError :=
  .mk diagnostic fieldPaths "" []

/-- The helper `apis.ErrInvalidValue(value, fieldPath)`. -/
def ErrInvalidValue (value : String) (fieldPath : String) : FieldError :=
  .mk ("invalid value: " ++ value) [fieldPath] "" []

/-! ## The types of the sources -/

/-- The struct `duckv1.KReference`. -/
structure KReference where
  Kind : String
  Namespace : String
  Name : String
  APIVersion : String
deriving DecidableEq, Repr

/-- The struct `apis.URL`, the fields the validation reads. -/
structure URL where
  Scheme : String
  Host : String
  Path : String
deriving DecidableEq, Repr

/-- The struct `duckv1.Destination`. -/
structure Destination where
  Ref : Option KReference
  URI : Option URL
deriving DecidableEq, Repr

/-- The struct `corev1.SecretKeySelector`. -/
structure SecretKeySelector where
  Name : String
  Key : String
  Optional : Option Bool
deriving DecidableEq, Repr

/-- The struct `duckv1.CloudEventOverrides`. -/
structure CloudEventOverrides where
  Extensions : List (String × String)
deriving DecidableEq, Repr

/-- The struct `CloudBuildSourceSpec`: the fields of the embedded `PubSubSpec`
(`SourceSpec`, `IdentitySpec`, `Secret`, `Project`), promoted. -/
structure CloudBuildSourceSpec where
  Sink : Destination
  CloudEventOverrides : Option CloudEventOverrides
  ServiceAccountName : String
  Secret : Option SecretKeySelector
  Project : String
deriving DecidableEq, Repr

/-- The struct `CloudSchedulerSourceSpec`: the promoted `PubSubSpec` fields and
the three fields of the scheduler. -/
structure CloudSchedulerSourceSpec where
  Sink : Destination
  CloudEventOverrides : Option CloudEventOverrides
  ServiceAccountName : String
  Secret : Option SecretKeySelector
  Project : String
  Location : String
  Schedule : String
  Data : String
deriving DecidableEq, Repr

/-- The struct `metav1.ObjectMeta`, the fields the checks read. -/
structure ObjectMeta where
  Name : String
  Namespace : String
  Annotations : List (String × String)
deriving DecidableEq, Repr

/-- The struct `CloudBuildSource`. -/
structure CloudBuildSource where
  ObjectMeta : ObjectMeta
  Spec : CloudBuildSourceSpec
deriving DecidableEq, Repr

/-- The struct `CloudSchedulerSource`. -/
structure CloudSchedulerSource where
  ObjectMeta : ObjectMeta
  Spec : CloudSchedulerSourceSpec
deriving DecidableEq, Repr

/-- A lookup `m[k]` in a Go map, with the `ok` flag as the option. -/
def mapLookup (k : String) : List (String × String) → Option String
  | [] => none
  | (k1, v) :: rest => if k1 = k then some v else mapLookup k rest

/-! ## knative.dev/pkg/apis/duck/v1: validation of a destination -/

/-- The method `KReference.Validate`: name, apiVersion and kind are required. -/
def KReference.Validate (kr : KReference) : Option FieldError :=
  let errs : Option FieldError := none
  let errs := if kr.Name = "" then Also errs [some (ErrMissingField ["name"])] else errs
  let errs := if kr.APIVersion = "" then Also errs [some (ErrMissingField ["apiVersion"])] else errs
  let errs := if kr.Kind = "" then Also errs [some (ErrMissingField ["kind"])] else errs
  errs

/-- The method `URL.IsAbs`: the scheme is not empty. -/
def URL.IsAbs (u : URL) : Bool := u.Scheme != ""

/-- The function `ValidateDestination`. -/
def ValidateDestination (dest : Destination) : Option FieldError :=
  match dest.Ref, dest.URI with
  | none, none => some (ErrGeneric "expected at least one, got none" ["ref", "uri"])
  | some _, some uri =>
    if uri.IsAbs then
      some (ErrGeneric
        "Absolute URI is not allowed when Ref or [apiVersion, kind, name] is present"
        ["[apiVersion, kind, name]", "uri"])
    else none
  | none, some uri =>
    if !uri.IsAbs || uri.Host = "" then
      some (ErrInvalidValue
        "Relative URI is not allowed when Ref and [apiVersion, kind, name] is absent" "uri")
    else none
  | some ref, none => ViaField ref.Validate ["ref"]

/-- The method `Destination.Validate`. -/
def Destination.Validate (dest : Destination) : Option FieldError :=
  ViaField (ValidateDestination dest) [""]

/-! ## pkg/apis/duck/v1beta1: credentials and annotations -/

/-- Character class `[A-Za-z0-9]`. -/
def isAlnum (c : Char) : Bool :=
  (65 ≤ c.toNat && c.toNat ≤ 90) || (97 ≤ c.toNat && c.toNat ≤ 122) ||
    (48 ≤ c.toNat && c.toNat ≤ 57)

/-- Character class `[A-Za-z0-9\-]`. -/
def isAlnumDash (c : Char) : Bool := isAlnum c || c.toNat == 45

/-- Matching `[A-Za-z0-9\-]{0,61}[A-Za-z0-9]$` from the left: `budget` is the
number of characters the bounded repetition may still take. The last character
of the text is the one the final class takes, every character before it is
taken by the repetition. -/
def matchGroup : Nat → List Char → Bool
  | _, [] => false
  | _, [c] => isAlnum c
  | 0, _ :: _ :: _ => false
  | budget + 1, c :: d :: rest => isAlnumDash c && matchGroup budget (d :: rest)

/-- Modelled from the spec: the regular expression `validation_regexp_k8s` of
`pkg/apis/duck/v1beta1`, which is not among the sources; it is
`^[A-Za-z0-9](?:[A-Za-z0-9\-]{0,61}[A-Za-z0-9])?$`, as the expected message of
the validation test quotes it. The result is whether the text matches. -/
def validation_regexp_k8s (s : String) : Bool :=
  match s.data with
  | [] => false
  | c :: rest => isAlnum c && (rest.isEmpty || matchGroup 61 rest)

/-- Modelled from the spec: `validateSecret` of `pkg/apis/duck/v1beta1`, which
is not among the sources; a secret needs a name and a key, reported as
`secret.name` and `secret.key`. -/
def validateSecret (secret : SecretKeySelector) : Option FieldError :=
  let errs : Option FieldError := none
  let errs := if secret.Name = "" then Also errs [some (ErrMissingField ["secret.name"])] else errs
  let errs := if secret.Key = "" then Also errs [some (ErrMissingField ["secret.key"])] else errs
  errs

/-- The format the message of `validateK8sServiceAccount` quotes. -/
def k8sServiceAccountFormat : String :=
  "^[A-Za-z0-9](?:[A-Za-z0-9\\-]\x7b0,61\x7d[A-Za-z0-9])?$"

/-- Modelled from the spec: `validateK8sServiceAccount` of
`pkg/apis/duck/v1beta1`, which is not among the sources; a name that does not
match the format is an invalid value on path `serviceAccountName`. -/
def validateK8sServiceAccount (kServiceAccountName : String) : Option FieldError :=
  if validation_regexp_k8s kServiceAccountName then none
  else
    some (.mk
      ("invalid value: " ++ kServiceAccountName ++
        ", serviceAccountName should have format: " ++ k8sServiceAccountFormat)
      ["serviceAccountName"] "" [])

/-- A secret is set: the pointer is not nil and the selector is not the zero selector. -/
def secretIsSet (secret : Option SecretKeySelector) : Bool :=
  match secret with
  | none => false
  | some s => s != ⟨"", "", none⟩

/-- Modelled from the spec: `ValidateCredential` of `pkg/apis/duck/v1beta1`,
which is not among the sources; at most one of secret and service account may
be set, a secret alone is checked for name and key, a service account name
alone for its format. -/
def ValidateCredential (secret : Option SecretKeySelector) (kServiceAccountName : String) :
    Option FieldError :=
  match secret with
  | some s =>
    if secretIsSet (some s) && kServiceAccountName != "" then
      some (.mk "Can't have spec.serviceAccountName and spec.secret at the same time" [""] "" [])
    else if secretIsSet (some s) then validateSecret s
    else if kServiceAccountName != "" then validateK8sServiceAccount kServiceAccountName
    else none
  | none =>
    if kServiceAccountName != "" then validateK8sServiceAccount kServiceAccountName
    else none

/-! ## github.com/google/go-cmp: the report of a comparison -/

/-- One difference of a report: the path of the field, the value before (the
`-` line) and the value after (the `+` line). -/
structure Change where
  path : String
  before : String
  after : String
deriving DecidableEq, Repr

/-- A string value as a report prints it. -/
def quote (s : String) : String := "\"" ++ s ++ "\""

/-- The difference of two strings at a path: none when they are equal. -/
def diffString (path : String) (x y : String) : List Change :=
  if x = y then [] else [⟨path, quote x, quote y⟩]

/-- A `*bool` as a report prints it. -/
def showBoolPtr : Option Bool → String
  | none => "nil"
  | some true => "&true"
  | some false => "&false"

/-- The difference of two `*bool` at a path. -/
def diffBoolPtr (path : String) (x y : Option Bool) : List Change :=
  if x = y then [] else [⟨path, showBoolPtr x, showBoolPtr y⟩]

/-- A `*SecretKeySelector` as a report prints it. -/
def showSecret : Option SecretKeySelector → String
  | none => "nil"
  | some s =>
    "&\x7bName: " ++ quote s.Name ++ ", Key: " ++ quote s.Key ++ ", Optional: " ++
      showBoolPtr s.Optional ++ "\x7d"

/-- The difference of two `*SecretKeySelector`: field by field when both are
set, the whole pointer when one is nil. -/
def diffSecret (x y : Option SecretKeySelector) : List Change :=
  match x, y with
  | none, none => []
  | some a, some b =>
    diffString "PubSubSpec.Secret.Name" a.Name b.Name ++
      diffString "PubSubSpec.Secret.Key" a.Key b.Key ++
      diffBoolPtr "PubSubSpec.Secret.Optional" a.Optional b.Optional
  | none, some b => [⟨"PubSubSpec.Secret", "nil", showSecret (some b)⟩]
  | some a, none => [⟨"PubSubSpec.Secret", showSecret (some a), "nil"⟩]

/-- The lines of one difference in a text that stands in for a report: the
path with the value before on a `-` line, the path with the value after on a
`+` line. The library does not fix the text of its reports; of this text only
whether it is empty is taken to be the library's. -/
def renderChange (c : Change) : String :=
  "- " ++ c.path ++ ": " ++ c.before ++ "\n+ " ++ c.path ++ ": " ++ c.after ++ "\n"

/-- The text that stands in for a report: the lines of every difference, the
empty string when there is none (`cmp.Diff` returns the empty string exactly
when the values are equal under the options). -/
def renderChanges : List Change → String
  | [] => ""
  | c :: cs => renderChange c ++ renderChanges cs

/-- The differences `cmp.Diff(x, y, cmpopts.IgnoreFields(CloudBuildSourceSpec{},
"Sink", "CloudEventOverrides"))` finds: every field but the two ignored ones. -/
def buildSpecChanges (x y : CloudBuildSourceSpec) : List Change :=
  diffString "PubSubSpec.IdentitySpec.ServiceAccountName" x.ServiceAccountName
      y.ServiceAccountName ++
    diffSecret x.Secret y.Secret ++
    diffString "PubSubSpec.Project" x.Project y.Project

/-- The call `strings.Contains(s, substr)`. -/
def Contains (s substr : String) : Bool :=
  s.data.tails.any fun t => substr.data.isPrefixOf t

/-- How a report prints the values of the fields it shows: left to the library. -/
structure ValuePrinter where
  ofString : String → String
  ofBoolPtr : Option Bool → String
  ofSecret : Option SecretKeySelector → String

/-- The fields in which two build specs differ, of those the comparison looks
at (every field but `Sink` and `CloudEventOverrides`): the name of the field,
its value in `x` and its value in `y`, printed by `p`. Two secrets that are
both set differ in their fields `Name`, `Key` and `Optional`. -/
def changedFields (p : ValuePrinter) (x y : CloudBuildSourceSpec) : List Change :=
  (if x.ServiceAccountName = y.ServiceAccountName then []
    else [⟨"ServiceAccountName", p.ofString x.ServiceAccountName,
      p.ofString y.ServiceAccountName⟩]) ++
    (match x.Secret, y.Secret with
      | none, none => []
      | some a, some b =>
        (if a.Name = b.Name then [] else [⟨"Name", p.ofString a.Name, p.ofString b.Name⟩]) ++
          (if a.Key = b.Key then [] else [⟨"Key", p.ofString a.Key, p.ofString b.Key⟩]) ++
          (if a.Optional = b.Optional then []
            else [⟨"Optional", p.ofBoolPtr a.Optional, p.ofBoolPtr b.Optional⟩])
      | a, b => [⟨"Secret", p.ofSecret a, p.ofSecret b⟩]) ++
    (if x.Project = y.Project then []
      else [⟨"Project", p.ofString x.Project, p.ofString y.Project⟩])

/-- What the documentation of `cmp.Diff` says of a report, for a comparison of
two build specs: a field in which `x` and `y` differ is in the report with its
name, with its value in `x` (a line with `-`) and with its value in `y` (a
line with `+`). -/
def ReportNames (p : ValuePrinter) (report : String) (x y : CloudBuildSourceSpec) : Prop :=
  ∀ c ∈ changedFields p x y,
    Contains report c.path = true ∧ Contains report c.before = true ∧
      Contains report c.after = true

instance reportNamesDecidable (p : ValuePrinter) (report : String)
    (x y : CloudBuildSourceSpec) : Decidable (ReportNames p report x y) :=
  inferInstanceAs (Decidable (∀ c ∈ changedFields p x y,
    Contains report c.path = true ∧ Contains report c.before = true ∧
      Contains report c.after = true))

/-- The differences `cmp.Diff(x, y, cmpopts.IgnoreFields(CloudSchedulerSourceSpec{},
"Sink", "CloudEventOverrides"))` finds. -/
def schedulerSpecChanges (x y : CloudSchedulerSourceSpec) : List Change :=
  diffString "PubSubSpec.IdentitySpec.ServiceAccountName" x.ServiceAccountName
      y.ServiceAccountName ++
    diffSecret x.Secret y.Secret ++
    diffString "PubSubSpec.Project" x.Project y.Project ++
    diffString "Location" x.Location y.Location ++
    diffString "Schedule" x.Schedule y.Schedule ++
    diffString "Data" x.Data y.Data

/-- Modelled from the spec: `CheckImmutableClusterNameAnnotation` of
`pkg/apis/duck/v1beta1`, which is not among the sources; following the comment
at its call site, a cluster name annotation the original carries may not be
modified, and the errors found so far are passed through. The annotation key
`clusterNameKey` stands for the constant `ClusterNameAnnotation`. -/
def CheckImmutableClusterNameAnnotation (clusterNameKey : String)
    (current original : ObjectMeta) (errs : Option FieldError) : Option FieldError :=
  match mapLookup clusterNameKey original.Annotations with
  | some old =>
    let diff := renderChanges (diffString "" old
      ((mapLookup clusterNameKey current.Annotations).getD ""))
    if diff ≠ "" then
      Also errs [some (.mk "Immutable fields changed (-old +new)"
        ["metadata.annotations[" ++ clusterNameKey ++ "]"] diff [])]
    else errs
  | none => errs

/-! ## pkg/apis/events/v1beta1: CloudBuildSource -/

/-- The method `CloudBuildSourceSpec.Validate`, with the validation of the sink
it calls (`current.Sink.Validate`) as `sinkValidate`. -/
def CloudBuildSourceSpec.ValidateWith (sinkValidate : Destination → Option FieldError)
    (current : CloudBuildSourceSpec) : Option FieldError :=
  let errs : Option FieldError := none
  -- Sink [required]
  let errs :=
    if current.Sink = ⟨none, none⟩ then Also errs [some (ErrMissingField ["sink"])]
    else
      match sinkValidate current.Sink with
      | some err => Also errs [ViaField (some err) ["sink"]]
      | none => errs
  let errs :=
    match ValidateCredential current.Secret current.ServiceAccountName with
    | some err => Also errs [some err]
    | none => errs
  errs

/-- The method `CloudBuildSourceSpec.Validate`. -/
def CloudBuildSourceSpec.Validate (current : CloudBuildSourceSpec) : Option FieldError :=
  current.ValidateWith Destination.Validate

/-- The method `CloudBuildSource.Validate`; `validateAutoscaling` stands for
`duckv1beta1.ValidateAutoscalingAnnotations`, which is not among the sources. -/
def CloudBuildSource.Validate
    (validateAutoscaling : List (String × String) → Option FieldError → Option FieldError)
    (current : CloudBuildSource) : Option FieldError :=
  let errs := ViaField current.Spec.Validate ["spec"]
  validateAutoscaling current.ObjectMeta.Annotations errs

/-- The method `CloudBuildSource.CheckImmutableFields`, with the call
`cmp.Diff(x, y, cmpopts.IgnoreFields(CloudBuildSourceSpec{}, "Sink",
"CloudEventOverrides"))` it makes as `cmpDiff`. -/
def CloudBuildSource.CheckImmutableFieldsWith
    (cmpDiff : CloudBuildSourceSpec → CloudBuildSourceSpec → String) (clusterNameKey : String)
    (current : CloudBuildSource) (original : Option CloudBuildSource) : Option FieldError :=
  match original with
  | none => none
  | some original =>
    let errs : Option FieldError := none
    -- Modification of Topic, Secret and Project are not allowed. Everything else is mutable.
    let diff := cmpDiff original.Spec current.Spec
    let errs :=
      if diff ≠ "" then
        Also errs [some (.mk "Immutable fields changed (-old +new)" ["spec"] diff [])]
      else errs
    -- Modification of non-empty cluster name annotation is not allowed.
    CheckImmutableClusterNameAnnotation clusterNameKey current.ObjectMeta original.ObjectMeta errs

/-- The method `CloudBuildSource.CheckImmutableFields`, with the report of the
comparison that is empty exactly when no compared field differs. -/
def CloudBuildSource.CheckImmutableFields (clusterNameKey : String)
    (current : CloudBuildSource) (original : Option CloudBuildSource) : Option FieldError :=
  current.CheckImmutableFieldsWith (fun x y => renderChanges (buildSpecChanges x y))
    clusterNameKey original

/-! ## pkg/apis/events/v1beta1: CloudSchedulerSource -/

/-- Modelled from the spec: `CloudSchedulerSourceSpec.Validate`, which is not
among the sources (its test is); sink, location, schedule and data are
required, an empty one is a missing field, a sink that is set is validated
under `sink`, and the credential is checked as for every source. -/
def CloudSchedulerSourceSpec.Validate (current : CloudSchedulerSourceSpec) :
    Option FieldError :=
  let errs : Option FieldError := none
  let errs :=
    if current.Sink = ⟨none, none⟩ then Also errs [some (ErrMissingField ["sink"])]
    else
      match current.Sink.Validate with
      | some err => Also errs [ViaField (some err) ["sink"]]
      | none => errs
  let errs := if current.Location = "" then Also errs [some (ErrMissingField ["location"])] else errs
  let errs := if current.Schedule = "" then Also errs [some (ErrMissingField ["schedule"])] else errs
  let errs := if current.Data = "" then Also errs [some (ErrMissingField ["data"])] else errs
  let errs :=
    match ValidateCredential current.Secret current.ServiceAccountName with
    | some err => Also errs [some err]
    | none => errs
  errs

/-- Modelled from the spec: `CloudSchedulerSource.Validate`, which is not among
the sources (its test is); the errors of the spec under `spec`, then the
validation of the autoscaling annotations, as for `CloudBuildSource`. -/
def CloudSchedulerSource.Validate
    (validateAutoscaling : List (String × String) → Option FieldError → Option FieldError)
    (current : CloudSchedulerSource) : Option FieldError :=
  let errs := ViaField current.Spec.Validate ["spec"]
  validateAutoscaling current.ObjectMeta.Annotations errs

/-- Modelled from the spec: `CloudSchedulerSource.CheckImmutableFields`, which
is not among the sources (its test is); a structural diff of the specs that
ignores the sink and the event overrides, rejected when it is not empty, as for
`CloudBuildSource`. -/
def CloudSchedulerSource.CheckImmutableFields (clusterNameKey : String)
    (current : CloudSchedulerSource) (original : Option CloudSchedulerSource) :
    Option FieldError :=
  match original with
  | none => none
  | some original =>
    let errs : Option FieldError := none
    let diff := renderChanges (schedulerSpecChanges original.Spec current.Spec)
    let errs :=
      if diff ≠ "" then
        Also errs [some (.mk "Immutable fields changed (-old +new)" ["spec"] diff [])]
      else errs
    CheckImmutableClusterNameAnnotation clusterNameKey current.ObjectMeta original.ObjectMeta errs

/-- The paths of the leaves of an error that say a field is missing. -/
def missingFields (fe : Option FieldError) : List String :=
  ((report fe).filter fun e => e.Message = "missing field(s)").flatMap fun e => e.Paths

/-! ## Definitions the statements use -/

/-- The errors `Also` keeps of the ones passed in: the non-empty ones, in order. -/
def keptErrors : List (Option FieldError) → List FieldError
  | [] => []
  | none :: rest => keptErrors rest
  | some e :: rest => if e.isEmptyStruct then keptErrors rest else e :: keptErrors rest

/-- The required fields of a scheduler spec that are empty, in sorted order:
what the specification says validation yields. -/
def requiredEmpty (s : CloudSchedulerSourceSpec) : List String :=
  (if s.Data = "" then ["data"] else []) ++
    (if s.Location = "" then ["location"] else []) ++
    (if s.Schedule = "" then ["schedule"] else []) ++
    (if s.Sink = ⟨none, none⟩ then ["sink"] else [])

/-- The errors a spec's `Validate` has collected after its first step, the
check of the sink. -/
def sinkErrs (sinkValidate : Destination → Option FieldError) (sink : Destination) :
    Option FieldError :=
  if sink = ⟨none, none⟩ then Also none [some (ErrMissingField ["sink"])]
  else
    match sinkValidate sink with
    | some err => Also none [ViaField (some err) ["sink"]]
    | none => none

/-- Every path the check of the sink can report. -/
def sinkPaths : List String :=
  ["sink", "sink.ref.name", "sink.ref.apiVersion", "sink.ref.kind", "sink.uri",
    "sink[apiVersion, kind, name]"]

/-- An annotation validator that finds nothing: the errors pass through. -/
def noAutoscalingErrors (_ : List (String × String)) (errs : Option FieldError) :
    Option FieldError := errs

/-- The empty scheduler spec, `CloudSchedulerSourceSpec{}`. -/
def emptySchedulerSpec : CloudSchedulerSourceSpec :=
  ⟨⟨none, none⟩, none, "", none, "", "", "", ""⟩

/-- A build spec with the zero sink and no credential. -/
def zeroSinkBuildSpec : CloudBuildSourceSpec := ⟨⟨none, none⟩, none, "", none, ""⟩

/-- The error `CheckImmutableFields` builds for a comparison that found something. -/
def immutableFieldsError (diff : String) : FieldError :=
  .mk "Immutable fields changed (-old +new)" ["spec"] diff []

/-- A build source with a secret and a sink, on which the examples are made. -/
def sampleBuildSource : CloudBuildSource :=
  ⟨⟨"build", "ns", []⟩,
    ⟨⟨some ⟨"bar", "baz", "qux", "foo"⟩, none⟩, none, "", some ⟨"secret-name", "secret-key", none⟩,
      "project"⟩⟩

/-- The sample build source with another sink and event overrides. -/
def sampleBuildSourceNewSink : CloudBuildSource :=
  { sampleBuildSource with
    Spec := { sampleBuildSource.Spec with
      Sink := ⟨none, some ⟨"http", "example.com", ""⟩⟩
      CloudEventOverrides := some ⟨[("k", "v")]⟩ } }

/-- The sample build source with another project. -/
def sampleBuildSourceNewProject : CloudBuildSource :=
  { sampleBuildSource with Spec := { sampleBuildSource.Spec with Project := "other-project" } }

/-- The sample build source with a service account name set: it agrees with the
sample on metadata, secret and project. -/
def sampleBuildSourceNewServiceAccount : CloudBuildSource :=
  { sampleBuildSource with
    Spec := { sampleBuildSource.Spec with ServiceAccountName := "new-service-account" } }

/-- The scheduler source of the validation test, with a secret. -/
def schedulerWithSecret : CloudSchedulerSource :=
  ⟨⟨"scheduler", "ns", []⟩,
    ⟨⟨some ⟨"bar", "baz", "qux", "foo"⟩, none⟩, none, "", some ⟨"secret-name", "secret-key", none⟩,
      "", "mylocation", "* * * * *", "mydata"⟩⟩

/-- The scheduler source of the validation test with another location. -/
def schedulerLocationChanged : CloudSchedulerSource :=
  { schedulerWithSecret with
    Spec := { schedulerWithSecret.Spec with Location := "some-other-location" } }

/-- The sample build spec with a secret and a service account name both set. -/
def bothCredentialsSpec : CloudBuildSourceSpec :=
  { sampleBuildSource.Spec with ServiceAccountName := "test" }

/-- A build spec with no secret and the service account name `@test` of the
validation test. -/
def invalidServiceAccountSpec : CloudBuildSourceSpec :=
  { sampleBuildSource.Spec with Secret := none, ServiceAccountName := "@test" }

/-! ## pkg/operations/scheduler/job.go -/

/-- One item of the regular expressions used here: a literal text, or `.*`. -/
inductive PatternItem where
  | literal (text : List Char)
  | anyStar
deriving DecidableEq, Repr

/-- The rest of `s` after the prefix `p`, when `s` starts with `p`. -/
def stripPrefix : List Char → List Char → Option (List Char)
  | [], s => some s
  | _ :: _, [] => none
  | p :: ps, c :: cs => if p = c then stripPrefix ps cs else none

/-- Matching `.*` and then the rest of the pattern, given as `k`: `.` is any
character but a newline, and `.*` may take none of them. -/
def matchAnyStar (k : List Char → Bool) : List Char → Bool
  | [] => k []
  | c :: cs => k (c :: cs) || (c != '\n' && matchAnyStar k cs)

/-- The pattern matches a prefix of the text. -/
def matchHere : List PatternItem → List Char → Bool
  | [], _ => true
  | .literal l :: ps, s =>
    match stripPrefix l s with
    | some rest => matchHere ps rest
    | none => false
  | .anyStar :: ps, s => matchAnyStar (matchHere ps) s

/-- The pattern matches somewhere in the text: what `regexp.Match` reports for a
pattern without anchors. -/
def matchAnywhere (p : List PatternItem) : List Char → Bool
  | [] => matchHere p []
  | c :: cs => matchHere p (c :: cs) || matchAnywhere p cs

/-- The constant `jobNameFormat`, `projects/.*/locations/.*/jobs/.*`. -/
def jobNameFormat : List PatternItem :=
  [.literal "projects/".data, .anyStar, .literal "/locations/".data, .anyStar,
    .literal "/jobs/".data, .anyStar]

/-- The call `regexp.Match(pattern, []byte(s))`; the pattern compiles, so there
is no error. -/
def regexpMatch (pattern : List PatternItem) (s : String) : Bool :=
  matchAnywhere pattern s.data

/-- The index of the last instance of `sep` in the text, counted from its start. -/
def lastIndexChars (sep : List Char) : List Char → Option Nat
  | [] => if sep = [] then some 0 else none
  | c :: cs =>
    match lastIndexChars sep cs with
    | some i => some (i + 1)
    | none => if sep.isPrefixOf (c :: cs) then some 0 else none

/-- The call `strings.LastIndex(s, sep)`: -1 when `sep` is not in `s`. -/
def LastIndex (s sep : String) : Int :=
  match lastIndexChars sep.data s.data with
  | some i => i
  | none => -1

/-- Modelled from the spec: the constant `operations.ActionCreate` of
`pkg/operations`, which is not among the sources; the options of an action are
exists, create and delete. -/
def ActionCreate : String := "create"

/-- Modelled from the spec: the constant `operations.ActionExists`, which is
not among the sources. -/
def ActionExists : String := "exists"

/-- Modelled from the spec: the constant `operations.ActionDelete`, which is
not among the sources. -/
def ActionDelete : String := "delete"

/-- The struct `corev1.EnvVar`. -/
structure EnvVar where
  Name : String
  Value : String
deriving DecidableEq, Repr

/-- The struct `metav1.OwnerReference`. -/
structure OwnerReference where
  APIVersion : String
  Kind : String
  Name : String
  UID : String
  Controller : Option Bool
  BlockOwnerDeletion : Option Bool
deriving DecidableEq, Repr

/-- An owner, `kmeta.OwnerRefable`: its object meta and its group, version and kind. -/
structure Owner where
  Namespace : String
  Name : String
  UID : String
  APIVersion : String
  Kind : String
deriving DecidableEq, Repr

/-- The function `kmeta.NewControllerRef`: the reference to the owner, marked
as the controller and as blocking the owner's deletion. -/
def NewControllerRef (owner : Owner) : OwnerReference :=
  ⟨owner.APIVersion, owner.Kind, owner.Name, owner.UID, some true, some true⟩

/-- The struct `JobArgs`. -/
structure JobArgs where
  UID : String
  Image : String
  Action : String
  TopicID : String
  JobName : String
  Schedule : String
  Data : String
  Secret : SecretKeySelector
  Owner : Option Owner
deriving DecidableEq, Repr

/-- The functions `NewJobOps` calls that are not among the sources:
`SchedulerJobName`, `SchedulerJobLabels` and `operations.MakePodTemplate`, with
`τ` for the pod template it builds. -/
structure JobHelpers (τ : Type) where
  SchedulerJobName : Owner → String → String
  SchedulerJobLabels : Owner → String → List (String × String)
  MakePodTemplate : String → String → String → SecretKeySelector → List EnvVar → τ

/-- The struct `batchv1.Job`, the fields `NewJobOps` sets. -/
structure Job (τ : Type) where
  Name : String
  Namespace : String
  Labels : List (String × String)
  OwnerReferences : List OwnerReference
  BackoffLimit : Option Int
  Parallelism : Option Int
  Template : τ

/-- What a call of `NewJobOps` does: it returns a job, or an error, or panics
on a slice bound out of range. -/
inductive NewJobOpsResult (τ : Type) where
  | job (j : Job τ)
  | error (err : String)
  | panics

/-- The function `validateArgs`: the error of the first check that fails, nil
(`none`) when none does. -/
def validateArgs (arg : JobArgs) : Option String :=
  if arg.UID = "" then some "missing UID"
  else if arg.Image = "" then some "missing Image"
  else if arg.Action = "" then some "missing Action"
  else if arg.JobName = "" then some "missing JobName"
  else if !regexpMatch jobNameFormat arg.JobName then some "JobName format is wrong"
  else if arg.Secret.Name = "" || arg.Secret.Key = "" then
    some "invalid secret missing name or key"
  else if arg.Owner = none then some "missing owner"
  else if arg.Action = ActionCreate then
    if arg.TopicID = "" then some "missing TopicID"
    else if arg.Schedule = "" then some "missing Schedule"
    else if arg.Data = "" then some "missing Data"
    else none
  else none

/-- The environment `NewJobOps` builds: `ACTION` and `JOB_NAME`, and for the
action create the four variables of the job to create. `none` when the slice
`jobName[0:strings.LastIndex(jobName, "/jobs/")]` is out of range. -/
def jobEnv (arg : JobArgs) : Option (List EnvVar) :=
  let env : List EnvVar := [⟨"ACTION", arg.Action⟩, ⟨"JOB_NAME", arg.JobName⟩]
  if arg.Action = ActionCreate then
    let jobName := arg.JobName
    let index := LastIndex jobName "/jobs/"
    if index < 0 then none
    else
      let parent := String.mk (jobName.data.take index.toNat)
      some (env ++ [⟨"JOB_PARENT", parent⟩, ⟨"PUBSUB_TOPIC_ID", arg.TopicID⟩,
        ⟨"SCHEDULE", arg.Schedule⟩, ⟨"DATA", arg.Data⟩])
  else some env

/-- The function `NewJobOps`. -/
def NewJobOps {τ : Type} (helpers : JobHelpers τ) (arg : JobArgs) : NewJobOpsResult τ :=
  match validateArgs arg with
  | some err => .error err
  | none =>
    match jobEnv arg, arg.Owner with
    | none, _ => .panics
    | some _, none => .panics
    | some env, some owner =>
      let podTemplate := helpers.MakePodTemplate arg.Image arg.UID arg.Action arg.Secret env
      let backoffLimit : Int := 3
      let parallelism : Int := 1
      .job
        { Name := helpers.SchedulerJobName owner arg.Action
          Namespace := owner.Namespace
          Labels := helpers.SchedulerJobLabels owner arg.Action
          OwnerReferences := [NewControllerRef owner]
          BackoffLimit := some backoffLimit
          Parallelism := some parallelism
          Template := podTemplate }

/-- The struct `schedulerpb.CreateJobRequest`, flattened: the parent, and the
name, topic, data and schedule of the job. -/
structure CreateJobRequest where
  Parent : String
  Name : String
  TopicName : String
  Data : String
  Schedule : String
deriving DecidableEq, Repr

/-- A call the scheduler client can make to the provider. -/
inductive ProviderCall where
  | createJob (req : CreateJobRequest)
  | getJob (name : String)
  | deleteJob (name : String)
deriving DecidableEq, Repr

/-- The scheduler client and the provider behind it: the names of the jobs that
exist there, and the error `CreateJob` answers a request with, if any. -/
structure SchedulerClient where
  Jobs : List String
  CreateJob : CreateJobRequest → Option String

/-- The struct `JobOps`, with the fields `client` and `Project` of the embedded
`SchedulerOps`. -/
structure JobOps where
  client : Option SchedulerClient
  Project : String
  Action : String
  Topic : String
  Schedule : String
  JobName : String
  Parent : String
  Data : String

/-- What a call of `Run` did: the error it returned and the calls it made to
the provider, in order. -/
structure RunResult where
  Err : Option String
  Calls : List ProviderCall
deriving DecidableEq, Repr

/-- The method `JobOps.Run`. -/
def JobOps.Run (n : JobOps) : RunResult :=
  match n.client with
  | none => ⟨some "pub/sub client is nil", []⟩
  | some client =>
    if n.Action = ActionExists then
      -- If notification doesn't exist, that is an error.
      ⟨none, []⟩
    else if n.Action = ActionCreate then
      let req : CreateJobRequest :=
        { Parent := n.Parent
          Name := n.JobName
          TopicName := "projects/" ++ n.Project ++ "/topics/" ++ n.Topic
          Data := n.Data
          Schedule := n.Schedule }
      match client.CreateJob req with
      | some err => ⟨some err, [.createJob req]⟩
      | none => ⟨none, [.createJob req]⟩
    else if n.Action = ActionDelete then
      ⟨none, []⟩
    else ⟨some ("unknown action value " ++ n.Action), []⟩

/-- An owner for the examples: a scheduler source. -/
def sampleOwner : Owner :=
  ⟨"ns", "scheduler", "uid-1", "events.cloud.google.com/v1beta1", "CloudSchedulerSource"⟩

/-- Arguments that pass every check of `validateArgs` although the job name
does not start with `projects/`. -/
def badJobNameArgs : JobArgs :=
  { UID := "uid", Image := "image", Action := "delete", TopicID := "",
    JobName := "xprojects/p/locations/l/jobs/j", Schedule := "", Data := "",
    Secret := ⟨"google-cloud-key", "key.json", none⟩, Owner := some sampleOwner }

/-- Arguments for the creation of the job `projects/p/locations/l/jobs/j`. -/
def createJobArgs : JobArgs :=
  { UID := "uid", Image := "image", Action := "create", TopicID := "topic",
    JobName := "projects/p/locations/l/jobs/j", Schedule := "* * * * *", Data := "data",
    Secret := ⟨"google-cloud-key", "key.json", none⟩, Owner := some sampleOwner }

/-- Helpers for the examples: the pod template is the environment it is given. -/
def sampleHelpers : JobHelpers (List EnvVar) :=
  { SchedulerJobName := fun owner action => "scheduler-" ++ owner.Name ++ "-" ++ action
    SchedulerJobLabels := fun owner action => [("owner", owner.Name), ("action", action)]
    MakePodTemplate := fun _ _ _ _ env => env }

/-- A provider that has the job `projects/p/locations/l/jobs/j` and creates
every job it is asked for. -/
def providerWithJob : SchedulerClient :=
  { Jobs := ["projects/p/locations/l/jobs/j"], CreateJob := fun _ => none }

/-- A provider without any job. -/
def providerWithoutJobs : SchedulerClient :=
  { Jobs := [], CreateJob := fun _ => none }

/-- The operation that is to delete the job `projects/p/locations/l/jobs/j`,
which exists at the provider. -/
def deleteJobOps : JobOps :=
  { client := some providerWithJob, Project := "p", Action := "delete", Topic := "",
    Schedule := "", JobName := "projects/p/locations/l/jobs/j", Parent := "", Data := "" }

/-- The operation that is to check that the job `projects/p/locations/l/jobs/j`
exists, at a provider that has no job. -/
def existsJobOps : JobOps :=
  { client := some providerWithoutJobs, Project := "p", Action := "exists", Topic := "",
    Schedule := "", JobName := "projects/p/locations/l/jobs/j", Parent := "", Data := "" }

/-- The operation that is to delete a job the provider does not have. -/
def deleteMissingJobOps : JobOps :=
  { client := some providerWithoutJobs, Project := "p", Action := "delete", Topic := "",
    Schedule := "", JobName := "projects/p/locations/l/jobs/j", Parent := "", Data := "" }

/-! ## The reconcilers: conditions (knative.dev/pkg/apis) -/

/-- The type `corev1.ConditionStatus`. -/
inductive ConditionStatus where
  | ConditionTrue
  | ConditionFalse
  | ConditionUnknown
deriving DecidableEq, Repr

/-- The struct `apis.Condition`, without its times and severity. -/
structure Condition where
  ConditionType : String
  Status : ConditionStatus
  Reason : String
  Message : String
deriving DecidableEq, Repr

/-- The order conditions are kept in: by type. -/
def conditionLe (a b : Condition) : Prop := strLe a.ConditionType b.ConditionType

instance conditionLeDecidable : DecidableRel conditionLe := fun a b =>
  inferInstanceAs (Decidable (strLe a.ConditionType b.ConditionType))

/-- The method `GetCondition(t)`: the condition of that type, if there is one. -/
def GetCondition (t : String) (conditions : List Condition) : Option Condition :=
  conditions.find? fun c => c.ConditionType = t

/-- The method `SetCondition(cond)`: the conditions of other types are kept,
the new one is added, and the list is sorted by type. -/
def SetCondition (cond : Condition) (conditions : List Condition) : List Condition :=
  ((conditions.filter fun c => c.ConditionType ≠ cond.ConditionType) ++ [cond]).insertionSort
    conditionLe

/-- A condition set, `apis.NewLivingConditionSet(dependents...)`: the happy
condition and the conditions it depends on. -/
structure ConditionSet where
  Happy : String
  Dependents : List String
deriving DecidableEq, Repr

/-- The helper `initializeTerminalCondition`: a condition that is there stays. -/
def initializeTerminalCondition (t : String) (status : ConditionStatus)
    (conditions : List Condition) : List Condition :=
  match GetCondition t conditions with
  | some _ => conditions
  | none => SetCondition ⟨t, status, "", ""⟩ conditions

/-- The method `InitializeConditions`: an unset happy condition becomes
Unknown, and unset dependents become True when the happy condition is True,
Unknown otherwise. -/
def InitializeConditions (cs : ConditionSet) (conditions : List Condition) : List Condition :=
  let conditions :=
    match GetCondition cs.Happy conditions with
    | some _ => conditions
    | none => SetCondition ⟨cs.Happy, .ConditionUnknown, "", ""⟩ conditions
  let status :=
    match GetCondition cs.Happy conditions with
    | some ⟨_, .ConditionTrue, _, _⟩ => ConditionStatus.ConditionTrue
    | _ => ConditionStatus.ConditionUnknown
  cs.Dependents.foldl (fun acc t => initializeTerminalCondition t status acc) conditions

/-- The method `MarkTrue(t)`: the condition is set to True, and the happy
condition too once every dependent is True. -/
def MarkTrue (cs : ConditionSet) (t : String) (conditions : List Condition) : List Condition :=
  let conditions := SetCondition ⟨t, .ConditionTrue, "", ""⟩ conditions
  if cs.Dependents.all fun d =>
      match GetCondition d conditions with
      | some c => c.Status = .ConditionTrue
      | none => false
  then SetCondition ⟨cs.Happy, .ConditionTrue, "", ""⟩ conditions
  else conditions

/-- The method `MarkFalse(t, reason, message)`: the condition is set to False,
and the happy condition with it when `t` is a dependent. -/
def MarkFalse (cs : ConditionSet) (t reason message : String) (conditions : List Condition) :
    List Condition :=
  let conditions := SetCondition ⟨t, .ConditionFalse, reason, message⟩ conditions
  if t ∈ cs.Dependents then SetCondition ⟨cs.Happy, .ConditionFalse, reason, message⟩ conditions
  else conditions

/-- The method `MarkUnknown(t, reason, message)`: the condition is set to
Unknown; a dependent that is False keeps the happy condition False, otherwise
the happy condition becomes Unknown when `t` is a dependent. -/
def MarkUnknown (cs : ConditionSet) (t reason message : String) (conditions : List Condition) :
    List Condition :=
  let conditions := SetCondition ⟨t, .ConditionUnknown, reason, message⟩ conditions
  if cs.Dependents.any fun d =>
      match GetCondition d conditions with
      | some c => c.Status = .ConditionFalse
      | none => false
  then
    match GetCondition cs.Happy conditions with
    | some ⟨_, .ConditionFalse, _, _⟩ => conditions
    | _ => SetCondition ⟨cs.Happy, .ConditionFalse, reason, message⟩ conditions
  else if t ∈ cs.Dependents then
    SetCondition ⟨cs.Happy, .ConditionUnknown, reason, message⟩ conditions
  else conditions

/-! ## The reconcilers: resources and the cluster -/

/-- The status of a source or of a PullSubscription: observed generation,
conditions, resolved sink, provider resource id and project id. -/
structure ResourceStatus where
  ObservedGeneration : Nat
  Conditions : List Condition
  SinkURI : Option String
  SubscriptionID : String
  ProjectID : String
deriving DecidableEq, Repr

/-- A source, or a PullSubscription: the metadata a reconciler reads, the spec
fields a PullSubscription is made from, and the status. `Deleted` says that the
deletion timestamp is set. -/
structure Resource where
  Namespace : String
  Name : String
  UID : String
  Generation : Nat
  Deleted : Bool
  Finalizers : List String
  OwnerReferences : List OwnerReference
  Topic : String
  Sink : Destination
  Secret : Option SecretKeySelector
  Project : String
  AdapterType : String
  Status : ResourceStatus
deriving DecidableEq, Repr

/-- An event a reconciler records: type (Normal or Warning), reason, message. -/
structure ReconcilerEvent where
  EventType : String
  Reason : String
  Message : String
deriving DecidableEq, Repr

/-- A patch of the finalizers of an object: the list the object gets. -/
structure FinalizerPatch where
  Namespace : String
  Name : String
  Finalizers : List String
deriving DecidableEq, Repr

/-- What one pass did, as the table tests look at it: the status updates sent,
the objects created and updated, the patches, the events recorded and the
deletions asked of the provider. -/
structure Effects where
  StatusUpdates : List Resource
  Creates : List Resource
  Updates : List Resource
  Patches : List FinalizerPatch
  Events : List ReconcilerEvent
  ProviderDeletes : List String
deriving DecidableEq, Repr

/-- Nothing done. -/
def noEffects : Effects := ⟨[], [], [], [], [], []⟩

/-- What `Reconcile` gives back: its error (nil is `none`) and what it did. -/
structure Outcome where
  Err : Option String
  Effects : Effects
deriving DecidableEq, Repr

/-- What a reconciler sees of the cluster: the objects of its kind and the
PullSubscriptions the listers hold, and how many of the next status updates the
API server rejects with a conflict. -/
structure Cluster where
  Objects : List Resource
  PullSubscriptions : List Resource
  UpdateConflicts : Nat
deriving DecidableEq, Repr

/-- The pieces of `strings.Split(s, "/")`. -/
def splitSlash : List Char → List (List Char)
  | [] => [[]]
  | c :: cs =>
    if c = '/' then [] :: splitSlash cs
    else
      match splitSlash cs with
      | [] => [[c]]
      | w :: ws => (c :: w) :: ws

/-- The function `cache.SplitMetaNamespaceKey`: a name, or a namespace and a
name; any other number of parts is an error (`none`). -/
def SplitMetaNamespaceKey (key : String) : Option (String × String) :=
  match splitSlash key.data with
  | [name] => some ("", String.mk name)
  | [ns, name] => some (String.mk ns, String.mk name)
  | _ => none

/-- A lister's `Get`: the object with that namespace and name, if there is one. -/
def getResource (objects : List Resource) (ns name : String) : Option Resource :=
  objects.find? fun o => o.Namespace = ns ∧ o.Name = name

/-- The condition type of the aggregate condition. -/
def ConditionReady : String := "Ready"

/-- The condition type a source reflects its PullSubscription in. -/
def PullSubscriptionReady : String := "PullSubscriptionReady"

/-- The condition set of a source: Ready depends on PullSubscriptionReady. -/
def sourceCondSet : ConditionSet := ⟨ConditionReady, [PullSubscriptionReady]⟩

/-- The event type `corev1.EventTypeNormal`. -/
def EventTypeNormal : String := "Normal"

/-- The event type `corev1.EventTypeWarning`. -/
def EventTypeWarning : String := "Warning"

/-! ## The reconcilers: one pass -/

/-- What `ReconcileKind` gives back: the copy of the object with its status
set, the objects it created and updated, and its event. -/
structure KindResult where
  Object : Resource
  Creates : List Resource
  Updates : List Resource
  Event : Option ReconcilerEvent
deriving DecidableEq, Repr

/-- What `FinalizeKind` gives back: its event (nil when the cleanup went
through) and the deletions it asked of the provider. -/
structure FinalizeResult where
  Event : Option ReconcilerEvent
  ProviderDeletes : List String
deriving DecidableEq, Repr

/-- The parts of a reconciler that depend on the kind: the name of the kind,
the finalizer string, the number of attempts of a status write, and the two
methods of the kind. -/
structure KindReconciler where
  Kind : String
  FinalizerName : String
  MaxUpdateAttempts : Nat
  ReconcileKind : Cluster → Resource → KindResult
  FinalizeKind : Resource → FinalizeResult

/-- Modelled from the spec: `updateFinalizersFiltered` of the generated
reconciler, which is not among the sources; the finalizer list of the object
is brought to what `desired` says about this reconciler's finalizer, by a
patch and a `FinalizerUpdate` event when there is something to change. The
result has the object as the server returned it. -/
def updateFinalizersFiltered (finalizerName : String) (existing desired : Resource) :
    Resource × List FinalizerPatch × List ReconcilerEvent :=
  let patched (finalizers : List String) : Resource × List FinalizerPatch × List ReconcilerEvent :=
    ({ existing with Finalizers := finalizers },
      [⟨existing.Namespace, existing.Name, finalizers⟩],
      [⟨EventTypeNormal, "FinalizerUpdate", "Updated " ++ quote existing.Name ++ " finalizers"⟩])
  if finalizerName ∈ desired.Finalizers then
    if finalizerName ∈ existing.Finalizers then (desired, [], [])
    else patched (existing.Finalizers ++ [finalizerName])
  else
    if finalizerName ∈ existing.Finalizers then
      patched (existing.Finalizers.filter fun f => f ≠ finalizerName)
    else (desired, [], [])

/-- Modelled from the spec: `setFinalizerIfFinalizer` of the generated
reconciler, which is not among the sources; step 3 of the reconcile pass, the
finalizer is ensured before any external state is created. -/
def setFinalizer (finalizerName : String) (original : Resource) :
    Resource × List FinalizerPatch × List ReconcilerEvent :=
  let desired :=
    if finalizerName ∈ original.Finalizers then original
    else { original with Finalizers := original.Finalizers ++ [finalizerName] }
  updateFinalizersFiltered finalizerName original desired

/-- Modelled from the spec: `clearFinalizer` of the generated reconciler, which
is not among the sources; the finalizer is removed once the cleanup went
through (no event, or a Normal one) and kept when it failed. -/
def clearFinalizer (finalizerName : String) (original : Resource)
    (event : Option ReconcilerEvent) : Resource × List FinalizerPatch × List ReconcilerEvent :=
  let remove : Bool :=
    match event with
    | none => true
    | some e => e.EventType = EventTypeNormal
  let desired :=
    if remove then
      { original with Finalizers := original.Finalizers.filter fun f => f ≠ finalizerName }
    else original
  updateFinalizersFiltered finalizerName original desired

/-- Modelled from the spec: `updateStatus` of the generated reconciler, which
is not among the sources; the optimistic-concurrency status write. The first
attempt writes to the copy the lister gave, each later attempt to the object
fetched again from the server; an attempt the server rejects with a conflict
is followed by the next one, up to `fuel` attempts. The result is the updates
sent, in order, and whether the last one went through. -/
def updateStatus : (fuel attempts conflicts : Nat) → (listerCopy serverCopy : Resource) →
    (desired : ResourceStatus) → List Resource × Bool
  | 0, _, _, _, _, _ => ([], false)
  | fuel + 1, attempts, conflicts, listerCopy, serverCopy, desired =>
    let existing := if attempts = 0 then listerCopy else serverCopy
    if existing.Status = desired then ([], true)
    else
      let update := { existing with Status := desired }
      match conflicts with
      | 0 => ([update], true)
      | conflicts + 1 =>
        let rest := updateStatus fuel (attempts + 1) conflicts listerCopy serverCopy desired
        (update :: rest.1, rest.2)

/-- Modelled from the spec: the synchronization of the status in `Reconcile` of
the generated reconciler, which is not among the sources; nothing is written
when the pass left the status as it was, otherwise `updateStatus` writes it. -/
def writeStatus (maxUpdateAttempts conflicts : Nat) (original serverCopy : Resource)
    (desired : ResourceStatus) : List Resource × Bool :=
  if original.Status = desired then ([], true)
  else updateStatus maxUpdateAttempts 0 conflicts original serverCopy desired

/-- Modelled from the spec: `Reconcile` of the generated reconciler, which is
not among the sources (the table tests of the reconcilers call it). A key that
is malformed or names no object is a no-op; an object that is not being
deleted gets the finalizer, then `ReconcileKind`, then the status write when
the status changed, then the event; an object that is being deleted gets
`FinalizeKind` and loses the finalizer when that went through, and its status
is not written. A status write that runs out of attempts is the error of the
pass; an event, also a Warning, is recorded and is not an error. -/
def Reconcile (r : KindReconciler) (cluster : Cluster) (key : String) : Outcome :=
  match SplitMetaNamespaceKey key with
  | none => ⟨none, noEffects⟩
  | some (ns, name) =>
    match getResource cluster.Objects ns name with
    | none => ⟨none, noEffects⟩
    | some original =>
      if original.Deleted = false then
        let fin := setFinalizer r.FinalizerName original
        let result := r.ReconcileKind cluster fin.1
        let written :=
          writeStatus r.MaxUpdateAttempts cluster.UpdateConflicts original fin.1
            result.Object.Status
        if written.2 then
          ⟨none,
            { StatusUpdates := written.1
              Creates := result.Creates
              Updates := result.Updates
              Patches := fin.2.1
              Events := fin.2.2 ++ result.Event.toList
              ProviderDeletes := [] }⟩
        else
          ⟨some "conflict",
            { StatusUpdates := written.1
              Creates := result.Creates
              Updates := result.Updates
              Patches := fin.2.1
              Events := fin.2.2
              ProviderDeletes := [] }⟩
      else
        let result := r.FinalizeKind original
        let fin := clearFinalizer r.FinalizerName original result.Event
        ⟨none,
          { StatusUpdates := []
            Creates := []
            Updates := []
            Patches := fin.2.1
            Events := fin.2.2 ++ result.Event.toList
            ProviderDeletes := result.ProviderDeletes }⟩

/-! ## The reconcilers: sources and their PullSubscription -/

/-- What differs between the source kinds: the kind, the API version, the
finalizer string and the adapter type of the PullSubscription. -/
structure SourceKind where
  Kind : String
  APIVersion : String
  FinalizerName : String
  AdapterType : String
deriving DecidableEq, Repr

/-- Modelled from the spec: `resources.MakePullSubscription`, which is not
among the sources; the owned-resource synthesizer. The child has the name and
namespace of its parent, the owner reference to it, and topic, sink, secret
and project from the parent's spec. -/
def MakePullSubscription (kind : SourceKind) (source : Resource) : Resource :=
  { Namespace := source.Namespace
    Name := source.Name
    UID := ""
    Generation := 0
    Deleted := false
    Finalizers := []
    OwnerReferences :=
      [NewControllerRef ⟨source.Namespace, source.Name, source.UID, kind.APIVersion, kind.Kind⟩]
    Topic := source.Topic
    Sink := source.Sink
    Secret := source.Secret
    Project := source.Project
    AdapterType := kind.AdapterType
    Status := ⟨0, [], none, "", ""⟩ }

/-- Modelled from the spec: `propagatePullSubscriptionStatus` of
`pkg/reconciler/intevents`, which is not among the sources; the status
aggregator. The Ready condition of the PullSubscription becomes the
PullSubscriptionReady condition of the source, with its reason and message;
anything but True is the error of the propagation. -/
def propagatePullSubscriptionStatus (ps : Resource) (status : ResourceStatus) :
    ResourceStatus × Option String :=
  match GetCondition ConditionReady ps.Status.Conditions with
  | none =>
    ({ status with
        Conditions := MarkUnknown sourceCondSet PullSubscriptionReady
          "PullSubscriptionNotConfigured" "PullSubscription has not yet been reconciled"
          status.Conditions },
      some ("PullSubscription " ++ quote ps.Name ++ " has not yet been reconciled"))
  | some pc =>
    match pc.Status with
    | .ConditionUnknown =>
      ({ status with
          Conditions := MarkUnknown sourceCondSet PullSubscriptionReady pc.Reason pc.Message
            status.Conditions },
        some ("the status of PullSubscription " ++ quote ps.Name ++ " is Unknown"))
    | .ConditionTrue =>
      ({ status with
          Conditions := MarkTrue sourceCondSet PullSubscriptionReady status.Conditions }, none)
    | .ConditionFalse =>
      ({ status with
          Conditions := MarkFalse sourceCondSet PullSubscriptionReady pc.Reason pc.Message
            status.Conditions },
        some ("the status of PullSubscription " ++ quote ps.Name ++ " is False"))

/-- The owned PullSubscription a pass works with, and what it created or
updated to get it: the one the lister has, created when there is none and
updated in the fields synthesis controls when it drifted. -/
def ensurePullSubscription (kind : SourceKind) (cluster : Cluster) (source : Resource) :
    Resource × List Resource × List Resource :=
  let desired := MakePullSubscription kind source
  match getResource cluster.PullSubscriptions source.Namespace source.Name with
  | none => (desired, [desired], [])
  | some existing =>
    if existing.Topic = desired.Topic ∧ existing.Sink = desired.Sink ∧
        existing.Secret = desired.Secret ∧ existing.Project = desired.Project ∧
        existing.AdapterType = desired.AdapterType then (existing, [], [])
    else
      let updated :=
        { existing with
          Topic := desired.Topic
          Sink := desired.Sink
          Secret := desired.Secret
          Project := desired.Project
          AdapterType := desired.AdapterType }
      (updated, [], [updated])

/-- Modelled from the spec: `ReconcileKind` of a source reconciler with
`PubSubBase.ReconcilePullSubscription`, which are not among the sources (their
table tests are). The conditions are initialized and the generation observed,
the owned PullSubscription is ensured, and its status is propagated: a failed
propagation is the Warning event of the pass, otherwise the sink URI and the
subscription id are taken over and the event is the success event of the kind. -/
def sourceReconcileKind (kind : SourceKind) (cluster : Cluster) (source : Resource) :
    KindResult :=
  let status : ResourceStatus :=
    { source.Status with
      Conditions := InitializeConditions sourceCondSet source.Status.Conditions
      ObservedGeneration := source.Generation }
  let child := ensurePullSubscription kind cluster source
  let ps := child.1
  let propagated := propagatePullSubscriptionStatus ps status
  match propagated.2 with
  | some err =>
    { Object := { source with Status := propagated.1 }
      Creates := child.2.1
      Updates := child.2.2
      Event := some ⟨EventTypeWarning, "PullSubscriptionStatusPropagateFailed",
        "Failed to propagate PullSubscription status: " ++ err⟩ }
  | none =>
    { Object :=
        { source with
          Status :=
            { propagated.1 with
              SinkURI := ps.Status.SinkURI
              SubscriptionID := ps.Status.SubscriptionID } }
      Creates := child.2.1
      Updates := child.2.2
      Event := some ⟨EventTypeNormal, kind.Kind ++ "Reconciled",
        kind.Kind ++ " reconciled: " ++ quote (source.Namespace ++ "/" ++ source.Name)⟩ }

/-- The reconciler of a source kind; finalizing a source asks nothing of the
provider here. -/
def sourceReconciler (kind : SourceKind) (maxUpdateAttempts : Nat) : KindReconciler :=
  { Kind := kind.Kind
    FinalizerName := kind.FinalizerName
    MaxUpdateAttempts := maxUpdateAttempts
    ReconcileKind := sourceReconcileKind kind
    FinalizeKind := fun _ => ⟨none, []⟩ }

/-- The kind CloudBuildSource, as its table test has it. -/
def cloudBuildSourceKind : SourceKind :=
  ⟨"CloudBuildSource", "events.cloud.google.com/v1beta1",
    "cloudbuildsources.events.cloud.google.com", "google.build"⟩

/-! ## The reconcilers: deletion of a PullSubscription -/

/-- What the provider answers a delete with: done, not found, or an error. -/
inductive DeleteResult where
  | deleted
  | notFound
  | failed (err : String)
deriving DecidableEq, Repr

/-- Modelled from the spec: `FinalizeKind` of the PullSubscription reconciler,
which is not among the sources (its table test is); the provider is asked to
delete the subscription whose id the status holds, not found counts as done,
and any other error is the Warning event `SubscriptionDeleteFailed` with the
text of the error. -/
def pullSubscriptionFinalizeKind (deleteSubscription : String → DeleteResult) (ps : Resource) :
    FinalizeResult :=
  match deleteSubscription ps.Status.SubscriptionID with
  | .deleted => ⟨none, [ps.Status.SubscriptionID]⟩
  | .notFound => ⟨none, [ps.Status.SubscriptionID]⟩
  | .failed err =>
    ⟨some ⟨EventTypeWarning, "SubscriptionDeleteFailed",
      "Failed to delete Pub/Sub subscription: " ++ err⟩, [ps.Status.SubscriptionID]⟩

/-- The reconciler of PullSubscriptions: `reconcileKind` is the pass over a
PullSubscription that is not being deleted. -/
def pullSubscriptionReconciler (finalizerName : String) (maxUpdateAttempts : Nat)
    (reconcileKind : Cluster → Resource → KindResult)
    (deleteSubscription : String → DeleteResult) : KindReconciler :=
  { Kind := "PullSubscription"
    FinalizerName := finalizerName
    MaxUpdateAttempts := maxUpdateAttempts
    ReconcileKind := reconcileKind
    FinalizeKind := pullSubscriptionFinalizeKind deleteSubscription }

/-- The status a pass computes for a source whose PullSubscription `ps` is
ready: conditions initialized and PullSubscriptionReady marked True, the
generation observed, sink URI and subscription id taken from `ps`. -/
def sourceReadyStatus (source ps : Resource) : ResourceStatus :=
  { source.Status with
    Conditions := MarkTrue sourceCondSet PullSubscriptionReady
      (InitializeConditions sourceCondSet source.Status.Conditions)
    ObservedGeneration := source.Generation
    SinkURI := ps.Status.SinkURI
    SubscriptionID := ps.Status.SubscriptionID }

/-- The CloudBuildSource of the table test: generation 1, nothing reconciled yet. -/
def testBuildSource : Resource :=
  { Namespace := "testnamespace", Name := "my-test-build", UID := "test-build-uid",
    Generation := 1, Deleted := false, Finalizers := [], OwnerReferences := [],
    Topic := "cloud-builds",
    Sink := ⟨some ⟨"Sink", "testnamespace", "sink", "testing.cloud.google.com/v1beta1"⟩, none⟩,
    Secret := some ⟨"google-cloud-key", "key.json", none⟩, Project := "", AdapterType := "",
    Status := ⟨0, [], none, "", ""⟩ }

/-- The PullSubscription of the test source, with the status given. -/
def testPullSubscription (status : ResourceStatus) : Resource :=
  { MakePullSubscription cloudBuildSourceKind testBuildSource with Status := status }

/-- The cluster of the test `pullsubscription exists and the status is false`. -/
def clusterStatusFalse : Cluster :=
  ⟨[testBuildSource],
    [testPullSubscription
      ⟨0, [⟨"Ready", .ConditionFalse, "PullSubscriptionFalse", "status false test message"⟩],
        none, "", ""⟩], 0⟩

/-- The cluster of the test `pullsubscription exists and ready, with retry`:
the first status update meets a conflict. -/
def clusterReadyWithConflict : Cluster :=
  ⟨[testBuildSource],
    [testPullSubscription
      ⟨0, [⟨"Ready", .ConditionTrue, "", ""⟩], some "http://sink.mynamespace.svc.cluster.local",
        "subID", ""⟩], 1⟩

/-- A PullSubscription that is being deleted and holds the finalizer. -/
def deletedPullSubscription : Resource :=
  { Namespace := "testnamespace", Name := "source", UID := "source-abc-123",
    Generation := 1, Deleted := true,
    Finalizers := ["pullsubscriptions.internal.events.cloud.google.com"],
    OwnerReferences := [], Topic := "source-abc-123-TOPIC",
    Sink := ⟨some ⟨"Sink", "testnamespace", "sink", "testing.cloud.google.com/v1beta1"⟩, none⟩,
    Secret := some ⟨"testing-secret", "testing-key", none⟩, Project := "test-project-id",
    AdapterType := "",
    Status := ⟨1, [], some "http://sink.mynamespace.svc.cluster.local",
      "cre-ps_testnamespace_source_source-abc-123", "test-project-id"⟩ }

/-- A provider whose delete fails with the error of the table test. -/
def failingDelete (_ : String) : DeleteResult := .failed "subscription-delete-induced-error"

/-! ## Further definitions the statements use -/

/-- The pattern `projects/.*/locations/.*`, the format of the parent of a job. -/
def parentFormat : List PatternItem :=
  [.literal "projects/".data, .anyStar, .literal "/locations/".data, .anyStar]

/-- Arguments for the creation of a job whose name has `/jobs/` twice. -/
def nestedJobArgs : JobArgs :=
  { UID := "uid", Image := "image", Action := "create", TopicID := "topic",
    JobName := "projects/p/locations/l/jobs/a/jobs/b", Schedule := "* * * * *", Data := "data",
    Secret := ⟨"google-cloud-key", "key.json", none⟩, Owner := some sampleOwner }

/-- Arguments for the deletion of the job `projects/p/locations/l/jobs/j`. -/
def deleteJobArgs : JobArgs :=
  { UID := "uid", Image := "image", Action := "delete", TopicID := "",
    JobName := "projects/p/locations/l/jobs/j", Schedule := "", Data := "",
    Secret := ⟨"google-cloud-key", "key.json", none⟩, Owner := some sampleOwner }

/-- A leaf with the prefix put before each of its paths, as `ViaField` does. -/
def viaFieldEntry (pfx : List String) (leaf : FieldError.Entry) : FieldError.Entry :=
  { leaf with Paths := leaf.Paths.map fun oldPath => flatten (pfx ++ [oldPath]) }

/-- A build spec whose sink is a reference without kind, and no credential. -/
def missingKindBuildSpec : CloudBuildSourceSpec :=
  ⟨⟨some ⟨"", "", "qux", "foo"⟩, none⟩, none, "", none, ""⟩

/-! ## The reconcilers: one pass over a PullSubscription -/

/-- The condition type of the sink of a PullSubscription, in the vocabulary of
the specification. -/
def SinkResolved : String := "SinkResolved"

/-- The condition type of the provider subscription of a PullSubscription. -/
def SubscriptionReady : String := "SubscriptionReady"

/-- The condition type of the receive adapter of a PullSubscription. -/
def Deployed : String := "Deployed"

/-- The condition set of a PullSubscription: Ready depends on the sink, the
provider subscription and the receive adapter. -/
def pullSubscriptionCondSet : ConditionSet :=
  ⟨ConditionReady, [SinkResolved, SubscriptionReady, Deployed]⟩

/-- What the resolver answers for a sink: its URI, or an error. -/
inductive ResolveResult where
  | resolved (uri : String)
  | failed (err : String)
deriving DecidableEq, Repr

/-- What the provider answers to `Exists`: there, not there, or an error. -/
inductive ExistsResult where
  | found
  | missing
  | failed (err : String)
deriving DecidableEq, Repr

/-- A call the PullSubscription reconciler makes to the provider. -/
inductive PubSubCall where
  | createClient (project : String)
  | subscriptionExists (id : String)
  | topicExists (topic : String)
  | createSubscription (id topic : String)
deriving DecidableEq, Repr

/-- A child object of a PullSubscription on the cluster, named by its owner. -/
inductive DataPlaneObject where
  | scaledObject (ns owner : String)
  | receiveAdapter (ns owner : String)
deriving DecidableEq, Repr

/-- What a pass over a PullSubscription finds around it, as the table test sets
it up: the answer of the resolver, the answers of the provider, and whether
the children are there. -/
structure PullSubscriptionEnv where
  ResolveSink : Destination → ResolveResult
  CreateClientErr : Option String
  SubscriptionExists : ExistsResult
  TopicExists : ExistsResult
  CreateSubscriptionErr : Option String
  ScaledObjectExists : Bool
  ReceiveAdapterExists : Bool
  ReceiveAdapterAvailable : Bool

/-- The id of the provider subscription of a PullSubscription, as the table
test has it: `cre-ps_<namespace>_<name>_<uid>`. -/
def GenerateSubscriptionName (ps : Resource) : String :=
  "cre-ps_" ++ ps.Namespace ++ "_" ++ ps.Name ++ "_" ++ ps.UID

/-- Modelled from the spec: `reconcileSubscription` of the PullSubscription
reconciler, which is not among the sources (its table test is); the provider
client is created, subscription and topic are looked up, and the subscription
is created when it is not there. The result is the error, if any, and the
calls made. -/
def reconcileSubscription (env : PullSubscriptionEnv) (ps : Resource) (projectID : String) :
    Option String × List PubSubCall :=
  let subID := GenerateSubscriptionName ps
  match env.CreateClientErr with
  | some err => (some err, [.createClient projectID])
  | none =>
    match env.SubscriptionExists with
    | .failed err => (some err, [.createClient projectID, .subscriptionExists subID])
    | subExists =>
      let calls : List PubSubCall :=
        [.createClient projectID, .subscriptionExists subID, .topicExists ps.Topic]
      match env.TopicExists with
      | .failed err => (some err, calls)
      | .missing => (some ("Topic " ++ quote ps.Topic ++ " does not exist"), calls)
      | .found =>
        if subExists = .found then (none, calls)
        else
          match env.CreateSubscriptionErr with
          | some err => (some err, calls ++ [.createSubscription subID ps.Topic])
          | none => (none, calls ++ [.createSubscription subID ps.Topic])

/-- What one pass over a PullSubscription did: what `ReconcileKind` gives back,
the calls it made to the provider and the children it created. -/
structure PullSubscriptionPass where
  Result : KindResult
  ProviderCalls : List PubSubCall
  DataPlaneCreates : List DataPlaneObject
deriving DecidableEq, Repr

/-- Modelled from the spec: `ReconcileKind` of the PullSubscription reconciler,
which is not among the sources (its table test is). The conditions are
initialized and the generation observed; a sink that cannot be resolved is the
condition SinkResolved Unknown and the Warning event `InvalidSink`, and the
pass stops; a failure of the provider is the condition SubscriptionReady False
and the Warning event `SubscriptionReconcileFailed`, and the pass stops;
otherwise the subscription id is recorded, the children that are missing are
created, and the event is the success event. -/
def pullSubscriptionPass (env : PullSubscriptionEnv) (ps : Resource) : PullSubscriptionPass :=
  let status : ResourceStatus :=
    { ps.Status with
      Conditions := InitializeConditions pullSubscriptionCondSet ps.Status.Conditions
      ObservedGeneration := ps.Generation }
  match env.ResolveSink ps.Sink with
  | .failed err =>
    { Result :=
        { Object :=
            { ps with
              Status :=
                { status with
                  Conditions := MarkUnknown pullSubscriptionCondSet SinkResolved "InvalidSink"
                    err status.Conditions } }
          Creates := []
          Updates := []
          Event := some ⟨EventTypeWarning, "InvalidSink", "InvalidSink: " ++ err⟩ }
      ProviderCalls := []
      DataPlaneCreates := [] }
  | .resolved uri =>
    let status : ResourceStatus :=
      { status with
        SinkURI := some uri
        Conditions :=
          if uri = "" then
            MarkUnknown pullSubscriptionCondSet SinkResolved "SinkEmpty"
              "Sink has resolved to empty." status.Conditions
          else MarkTrue pullSubscriptionCondSet SinkResolved status.Conditions
        ProjectID := if status.ProjectID = "" then ps.Project else status.ProjectID }
    let sub := reconcileSubscription env ps status.ProjectID
    match sub.1 with
    | some err =>
      { Result :=
          { Object :=
              { ps with
                Status :=
                  { status with
                    Conditions := MarkFalse pullSubscriptionCondSet SubscriptionReady
                      "SubscriptionReconcileFailed"
                      ("Failed to reconcile Pub/Sub subscription: " ++ err) status.Conditions } }
            Creates := []
            Updates := []
            Event := some ⟨EventTypeWarning, "SubscriptionReconcileFailed",
              "Failed to reconcile Pub/Sub subscription: " ++ err⟩ }
        ProviderCalls := sub.2
        DataPlaneCreates := [] }
    | none =>
      let subscribed := MarkTrue pullSubscriptionCondSet SubscriptionReady status.Conditions
      { Result :=
          { Object :=
              { ps with
                Status :=
                  { status with
                    SubscriptionID := GenerateSubscriptionName ps
                    Conditions :=
                      if env.ReceiveAdapterExists && env.ReceiveAdapterAvailable then
                        MarkTrue pullSubscriptionCondSet Deployed subscribed
                      else
                        MarkUnknown pullSubscriptionCondSet Deployed "DeploymentUnavailable"
                          "The receive adapter is unavailable." subscribed } }
            Creates := []
            Updates := []
            Event := some ⟨EventTypeNormal, "PullSubscriptionReconciled",
              "PullSubscription reconciled: " ++ quote (ps.Namespace ++ "/" ++ ps.Name)⟩ }
        ProviderCalls := sub.2
        DataPlaneCreates :=
          (if env.ScaledObjectExists then [] else [.scaledObject ps.Namespace ps.Name]) ++
            (if env.ReceiveAdapterExists then [] else [.receiveAdapter ps.Namespace ps.Name]) }

/-- The method `ReconcileKind` of the PullSubscription reconciler, as the
generated reconciler calls it. -/
def pullSubscriptionReconcileKind (env : PullSubscriptionEnv) (_ : Cluster) (ps : Resource) :
    KindResult :=
  (pullSubscriptionPass env ps).Result

/-- The finalizer of the PullSubscription reconciler, `resourceGroup` of the
table test. -/
def pullSubscriptionFinalizerName : String := "pullsubscriptions.internal.events.cloud.google.com"

/-- The PullSubscription of the table test: generation 1, nothing reconciled. -/
def testSourcePullSubscription : Resource :=
  { Namespace := "testnamespace", Name := "source", UID := "source-abc-123",
    Generation := 1, Deleted := false, Finalizers := [], OwnerReferences := [],
    Topic := "source-abc-123-TOPIC",
    Sink := ⟨some ⟨"Sink", "testnamespace", "sink", "testing.cloud.google.com/v1beta1"⟩, none⟩,
    Secret := some ⟨"testing-secret", "testing-key", none⟩, Project := "test-project-id",
    AdapterType := "",
    Status := ⟨0, [], none, "", ""⟩ }

/-- The cluster of the failing tests: the PullSubscription, no conflict. -/
def clusterPullSubscription : Cluster := ⟨[testSourcePullSubscription], [], 0⟩

/-- The error of the resolver in the test `cannot get sink`. -/
def sinkNotFoundError : String :=
  "failed to get ref &ObjectReference\x7bKind:Sink,Namespace:testnamespace,Name:sink,UID:," ++
    "APIVersion:testing.cloud.google.com/v1beta1,ResourceVersion:,FieldPath:,\x7d: " ++
    "sinks.testing.cloud.google.com \"sink\" not found"

/-- The surroundings of the test `cannot get sink`. -/
def sinkNotFoundEnv : PullSubscriptionEnv :=
  { ResolveSink := fun _ => .failed sinkNotFoundError, CreateClientErr := none,
    SubscriptionExists := .missing, TopicExists := .found, CreateSubscriptionErr := none,
    ScaledObjectExists := false, ReceiveAdapterExists := false,
    ReceiveAdapterAvailable := false }

/-- The surroundings of the test `create client fails`. -/
def createClientFailsEnv : PullSubscriptionEnv :=
  { ResolveSink := fun _ => .resolved "http://sink.mynamespace.svc.cluster.local",
    CreateClientErr := some "client-create-induced-error",
    SubscriptionExists := .missing, TopicExists := .found, CreateSubscriptionErr := none,
    ScaledObjectExists := false, ReceiveAdapterExists := false,
    ReceiveAdapterAvailable := false }

/-- A printer of values for the examples: strings in quotes. -/
def samplePrinter : ValuePrinter := ⟨quote, showBoolPtr, showSecret⟩

/-- What a call could read besides its arguments: the clock and a source of
random numbers. -/
structure Ambient where
  Now : Nat
  Seed : Nat
deriving DecidableEq, Repr

/-! ## Properties of the error library -/

theorem collect_mk (m : String) (p : List String) (d : String) (es : List FieldError)
    (errs : List (Option FieldError)) :
    collect (.mk m p d es) errs = .mk m p d (es ++ keptErrors errs) := by
  induction errs generalizing es with
  | nil => simp [collect, keptErrors]
  | cons o rest ih =>
    cases o with
    | none => simpa [collect, keptErrors] using ih es
    | some e =>
      by_cases he : e.isEmptyStruct = true
      · simpa [collect, keptErrors, he] using ih es
      · simp [collect, keptErrors, he, appendError, ih]

theorem Also_none (errs : List (Option FieldError)) :
    Also none errs =
      if (keptErrors errs).isEmpty then none
      else some (FieldError.mk "" [] "" (keptErrors errs)) := by
  unfold Also
  simp only [emptyFieldError, collect_mk, List.nil_append]
  cases h : keptErrors errs with
  | nil => simp [FieldError.isEmptyStruct]
  | cons e es => simp [FieldError.isEmptyStruct]

theorem Also_some (m : String) (p : List String) (d : String) (es : List FieldError)
    (errs : List (Option FieldError))
    (h : (FieldError.mk m p d es).isEmptyStruct = false) :
    Also (some (.mk m p d es)) errs = some (.mk m p d (es ++ keptErrors errs)) := by
  have : (FieldError.mk m p d (es ++ keptErrors errs)).isEmptyStruct = false := by
    simp only [FieldError.isEmptyStruct] at h ⊢
    cases es with
    | nil => simp_all
    | cons e es => simp
  simp [Also, h, collect_mk, this]

theorem normalizedErrors_append (xs ys : List FieldError) :
    normalizedErrors (xs ++ ys) = normalizedErrors xs ++ normalizedErrors ys := by
  induction xs with
  | nil => simp [normalizedErrors]
  | cons x xs ih => simp [normalizedErrors, ih]

theorem normalizedStruct_of_isEmpty (e : FieldError) (h : e.isEmptyStruct = true) :
    e.normalizedStruct = [] := by
  cases e with
  | mk m p d es =>
    simp only [FieldError.isEmptyStruct, Bool.and_eq_true, beq_iff_eq, List.isEmpty_iff] at h
    obtain ⟨⟨⟨hm, _⟩, hes⟩, _⟩ := h
    subst hm hes
    simp [FieldError.normalizedStruct, normalizedErrors]

theorem normalizedErrors_keptErrors (errs : List (Option FieldError)) :
    normalizedErrors (keptErrors errs) = errs.flatMap normalized := by
  induction errs with
  | nil => simp [keptErrors, normalizedErrors]
  | cons o rest ih =>
    cases o with
    | none => simp [keptErrors, normalized, ih]
    | some e =>
      by_cases he : e.isEmptyStruct = true
      · simp [keptErrors, he, normalized, ih, normalizedStruct_of_isEmpty e he]
      · simp [keptErrors, he, normalized, ih, normalizedErrors]

/-- The leaves of `fe.Also(errs...)` are the leaves of `fe`, then those of `errs`. -/
theorem normalized_Also (fe : Option FieldError) (errs : List (Option FieldError)) :
    normalized (Also fe errs) = normalized fe ++ errs.flatMap normalized := by
  rw [← normalizedErrors_keptErrors]
  cases fe with
  | none =>
    rw [Also_none]
    cases h : keptErrors errs with
    | nil => simp [normalized, normalizedErrors]
    | cons e es => simp [normalized, FieldError.normalizedStruct]
  | some e =>
    cases e with
    | mk m p d es =>
      by_cases h : (FieldError.mk m p d es).isEmptyStruct = true
      · have h0 := normalizedStruct_of_isEmpty _ h
        have : Also (some (.mk m p d es)) errs = Also none errs := by
          unfold Also; simp [h]
        rw [this, Also_none]
        simp only [normalized, h0, List.nil_append]
        cases h : keptErrors errs with
        | nil => simp [normalizedErrors]
        | cons e es => simp [FieldError.normalizedStruct]
      · simp only [Bool.not_eq_true] at h
        rw [Also_some _ _ _ _ _ h]
        simp [normalized, FieldError.normalizedStruct, normalizedErrors_append]

/-! ## CloudSchedulerSource: missing required fields -/

/-- The cases of a scheduler spec without credentials: whatever the sink and
the three fields are, the missing fields reported among the four required ones
are the empty ones, the list is sorted, it is the list of the empty ones when
the sink is empty or valid, and under `spec` every path gets that prefix. -/
theorem scheduler_missing_cases (sink : Destination) (ov : Option CloudEventOverrides)
    (proj loc sch dat : String) :
    (∀ f ∈ ["data", "location", "schedule", "sink"],
      f ∈ missingFields (CloudSchedulerSourceSpec.Validate ⟨sink, ov, "", none, proj, loc, sch, dat⟩)
        ↔ f ∈ requiredEmpty ⟨sink, ov, "", none, proj, loc, sch, dat⟩) ∧
    (missingFields (CloudSchedulerSourceSpec.Validate
      ⟨sink, ov, "", none, proj, loc, sch, dat⟩)).Pairwise (fun a b => strLt a b = true) ∧
    missingFields (ViaField (CloudSchedulerSourceSpec.Validate
        ⟨sink, ov, "", none, proj, loc, sch, dat⟩) ["spec"]) =
      (missingFields (CloudSchedulerSourceSpec.Validate
        ⟨sink, ov, "", none, proj, loc, sch, dat⟩)).map (fun p => "spec." ++ p) ∧
    ((decide (sink = ⟨none, none⟩) || (Destination.Validate sink).isNone) = true →
      report (CloudSchedulerSourceSpec.Validate ⟨sink, ov, "", none, proj, loc, sch, dat⟩) =
        if (requiredEmpty ⟨sink, ov, "", none, proj, loc, sch, dat⟩).isEmpty then []
        else [⟨"missing field(s)", requiredEmpty ⟨sink, ov, "", none, proj, loc, sch, dat⟩, ""⟩]) := by
  generalize hv : CloudSchedulerSourceSpec.Validate _ = v
  generalize he : requiredEmpty _ = e
  generalize hb : (decide (sink = ⟨none, none⟩) || (Destination.Validate sink).isNone) = b
  rcases sink with ⟨_ | ⟨k, ns, n, av⟩, _ | ⟨sc, h, p⟩⟩
  · by_cases hl : loc = "" <;> by_cases hs : sch = "" <;> by_cases hd : dat = "" <;>
      simp [CloudSchedulerSourceSpec.Validate, requiredEmpty, ValidateCredential,
        hl, hs, hd] at hv he hb <;>
      subst hv he hb <;> decide
  · by_cases hl : loc = "" <;> by_cases hs : sch = "" <;> by_cases hd : dat = "" <;>
      by_cases h1 : sc = "" <;> by_cases h2 : h = "" <;>
      simp [CloudSchedulerSourceSpec.Validate, requiredEmpty, ValidateCredential,
        Destination.Validate, ValidateDestination, URL.IsAbs, hl, hs, hd, h1, h2] at hv he hb <;>
      subst hv he hb <;> decide
  · by_cases hl : loc = "" <;> by_cases hs : sch = "" <;> by_cases hd : dat = "" <;>
      by_cases h1 : n = "" <;> by_cases h2 : av = "" <;> by_cases h3 : k = "" <;>
      simp [CloudSchedulerSourceSpec.Validate, requiredEmpty, ValidateCredential,
        Destination.Validate, ValidateDestination, KReference.Validate,
        hl, hs, hd, h1, h2, h3] at hv he hb <;>
      subst hv he hb <;> decide
  · by_cases hl : loc = "" <;> by_cases hs : sch = "" <;> by_cases hd : dat = "" <;>
      by_cases h1 : sc = "" <;>
      simp [CloudSchedulerSourceSpec.Validate, requiredEmpty, ValidateCredential,
        Destination.Validate, ValidateDestination, URL.IsAbs, hl, hs, hd, h1] at hv he hb <;>
      subst hv he hb <;> decide

/-- C1: for every CloudSchedulerSourceSpec with no secret and no service
account, `Validate` reports as missing exactly those of data, location,
schedule and sink that are empty, in sorted order; the empty spec gives
exactly data, location, schedule, sink; and `CloudSchedulerSource.Validate`
reports the same paths prefixed with `spec.`. -/
theorem scheduler_validate_missing_fields (s : CloudSchedulerSourceSpec)
    (hsecret : s.Secret = none) (hsa : s.ServiceAccountName = "") :
    ("data" ∈ missingFields s.Validate ↔ s.Data = "") ∧
    ("location" ∈ missingFields s.Validate ↔ s.Location = "") ∧
    ("schedule" ∈ missingFields s.Validate ↔ s.Schedule = "") ∧
    ("sink" ∈ missingFields s.Validate ↔ s.Sink = ⟨none, none⟩) ∧
    (missingFields s.Validate).Pairwise (fun a b => strLt a b = true) ∧
    (s.Sink = ⟨none, none⟩ ∨ s.Sink.Validate = none →
      missingFields s.Validate = requiredEmpty s) ∧
    (s.Data = "" → s.Location = "" → s.Schedule = "" → s.Sink = ⟨none, none⟩ →
      report s.Validate =
        [⟨"missing field(s)", ["data", "location", "schedule", "sink"], ""⟩]) ∧
    (∀ (validateAutoscaling : List (String × String) → Option FieldError → Option FieldError)
      (src : CloudSchedulerSource), src.Spec = s →
      (∀ errs, validateAutoscaling src.ObjectMeta.Annotations errs = errs) →
      missingFields (src.Validate validateAutoscaling) =
        (missingFields s.Validate).map fun p => "spec." ++ p) := by
  obtain ⟨sink, ov, sa, sec, proj, loc, sch, dat⟩ := s
  simp only at hsecret hsa
  subst hsecret hsa
  obtain ⟨h1, h2, h3, h4⟩ := scheduler_missing_cases sink ov proj loc sch dat
  have hexact : (sink = ⟨none, none⟩ ∨ Destination.Validate sink = none) →
      missingFields (CloudSchedulerSourceSpec.Validate ⟨sink, ov, "", none, proj, loc, sch, dat⟩)
        = requiredEmpty ⟨sink, ov, "", none, proj, loc, sch, dat⟩ := by
    intro hok
    have hb : (decide (sink = ⟨none, none⟩) || (Destination.Validate sink).isNone) = true := by
      rcases hok with hz | hn
      · simp [hz]
      · simp [hn]
    have hr := h4 hb
    unfold missingFields
    rw [hr]
    cases hne : requiredEmpty ⟨sink, ov, "", none, proj, loc, sch, dat⟩ with
    | nil => simp
    | cons a l => simp
  refine ⟨?_, ?_, ?_, ?_, h2, hexact, ?_, ?_⟩
  · rw [h1 "data" (by simp)]
    simp only [requiredEmpty]
    by_cases a : dat = "" <;> by_cases b : loc = "" <;> by_cases c : sch = "" <;>
      by_cases d : sink = ⟨none, none⟩ <;> simp [a, b, c, d]
  · rw [h1 "location" (by simp)]
    simp only [requiredEmpty]
    by_cases a : dat = "" <;> by_cases b : loc = "" <;> by_cases c : sch = "" <;>
      by_cases d : sink = ⟨none, none⟩ <;> simp [a, b, c, d]
  · rw [h1 "schedule" (by simp)]
    simp only [requiredEmpty]
    by_cases a : dat = "" <;> by_cases b : loc = "" <;> by_cases c : sch = "" <;>
      by_cases d : sink = ⟨none, none⟩ <;> simp [a, b, c, d]
  · rw [h1 "sink" (by simp)]
    simp only [requiredEmpty]
    by_cases a : dat = "" <;> by_cases b : loc = "" <;> by_cases c : sch = "" <;>
      by_cases d : sink = ⟨none, none⟩ <;> simp [a, b, c, d]
  · intro hd hl hs hz
    simp only at hd hl hs hz
    subst hd hl hs hz
    have hr := h4 (by simp)
    rw [hr]
    simp [requiredEmpty]
  · intro validateAutoscaling src hsrc hV
    unfold CloudSchedulerSource.Validate
    simp only [hV, hsrc]
    exact h3

/-- C1, at the empty spec: the hypotheses hold and the report is the four fields. -/
theorem scheduler_validate_missing_fields_witness :
    emptySchedulerSpec.Secret = none ∧ emptySchedulerSpec.ServiceAccountName = "" ∧
    report emptySchedulerSpec.Validate =
      [⟨"missing field(s)", ["data", "location", "schedule", "sink"], ""⟩] ∧
    missingFields (CloudSchedulerSource.Validate noAutoscalingErrors
        ⟨⟨"", "", []⟩, emptySchedulerSpec⟩) =
      (missingFields emptySchedulerSpec.Validate).map fun p => "spec." ++ p :=
  ⟨rfl, rfl,
    (scheduler_validate_missing_fields emptySchedulerSpec rfl rfl).2.2.2.2.2.2.1 rfl rfl rfl rfl,
    (scheduler_validate_missing_fields emptySchedulerSpec rfl rfl).2.2.2.2.2.2.2
      noAutoscalingErrors ⟨⟨"", "", []⟩, emptySchedulerSpec⟩ rfl (fun _ => rfl)⟩

/-! ## CloudBuildSource: validation -/

theorem Also_cons_errors (x : FieldError) (l : List FieldError)
    (errs : List (Option FieldError)) :
    Also (some (.mk "" [] "" (x :: l))) errs = some (.mk "" [] "" (x :: (l ++ keptErrors errs))) := by
  rw [Also_some _ _ _ _ _ (by simp [FieldError.isEmptyStruct])]
  simp

theorem ViaFieldErrors_cons_errors (pfx : List String) (rest : List FieldError)
    (x : FieldError) (l : List FieldError) :
    ∃ l2, ViaFieldErrors pfx rest (some (.mk "" [] "" (x :: l))) =
      some (.mk "" [] "" (x :: l2)) := by
  induction rest generalizing l with
  | nil => exact ⟨l, by simp [ViaFieldErrors]⟩
  | cons e es ih =>
    simp only [ViaFieldErrors, Also_cons_errors]
    exact ih _

/-- What `Validate` gives for a spec with a zero sink: the missing field `sink`
first, then what the check of the credential adds. -/
theorem build_validateWith_zero_sink (sinkValidate : Destination → Option FieldError)
    (current : CloudBuildSourceSpec) (h : current.Sink = ⟨none, none⟩) :
    current.ValidateWith sinkValidate =
      some (.mk "" [] "" (ErrMissingField ["sink"] ::
        keptErrors [ValidateCredential current.Secret current.ServiceAccountName])) := by
  have h0 : Also none [some (ErrMissingField ["sink"])] =
      some (.mk "" [] "" [ErrMissingField ["sink"]]) := rfl
  unfold CloudBuildSourceSpec.ValidateWith
  simp only [h, if_true, h0]
  cases hc : ValidateCredential current.Secret current.ServiceAccountName with
  | none => simp [keptErrors]
  | some err => simp [Also_cons_errors]

/-- C2: for every CloudBuildSourceSpec whose Sink is the zero Destination,
`Validate` returns an error that contains the missing-field error for path
`sink`, whatever the sink's own validation would say (it is not run), and
`CloudBuildSource.Validate` reports that path as `spec.sink`. -/
theorem build_validate_zero_sink (current : CloudBuildSourceSpec)
    (h : current.Sink = ⟨none, none⟩) :
    (∃ rest, current.Validate = some (.mk "" [] "" (ErrMissingField ["sink"] :: rest))) ∧
    (∀ sinkValidate : Destination → Option FieldError,
      current.ValidateWith sinkValidate = current.Validate) ∧
    (∀ (validateAutoscaling : List (String × String) → Option FieldError → Option FieldError)
      (src : CloudBuildSource), src.Spec = current →
      (∀ ann errs, ∃ extra, validateAutoscaling ann errs = Also errs extra) →
      ∃ rest, src.Validate validateAutoscaling =
        some (.mk "" [] "" (ErrMissingField ["spec.sink"] :: rest))) := by
  have hv := build_validateWith_zero_sink Destination.Validate current h
  refine ⟨⟨_, hv⟩, ?_, ?_⟩
  · intro sinkValidate
    rw [CloudBuildSourceSpec.Validate, build_validateWith_zero_sink _ current h,
      build_validateWith_zero_sink _ current h]
  · intro validateAutoscaling src hsrc hV
    unfold CloudBuildSource.Validate
    rw [hsrc]
    obtain ⟨extra, hextra⟩ := hV src.ObjectMeta.Annotations (ViaField current.Validate ["spec"])
    rw [hextra]
    have hs : CloudBuildSourceSpec.Validate current = current.ValidateWith Destination.Validate := rfl
    rw [hs, hv]
    have hflat : flatten ["spec", "sink"] = "spec.sink" := by decide
    have h1 : (ErrMissingField ["sink"]).ViaFieldStruct ["spec"] =
        some (ErrMissingField ["spec.sink"]) := by
      simp [ErrMissingField, FieldError.ViaFieldStruct, ViaFieldErrors, hflat]
    obtain ⟨l2, hl2⟩ := ViaFieldErrors_cons_errors ["spec"]
      (keptErrors [ValidateCredential current.Secret current.ServiceAccountName])
      (ErrMissingField ["spec.sink"]) []
    have h2 : Also (some (FieldError.mk "" [] "" [])) [some (ErrMissingField ["spec.sink"])] =
        some (.mk "" [] "" [ErrMissingField ["spec.sink"]]) := rfl
    have h3 : ViaField (some (FieldError.mk "" [] "" (ErrMissingField ["sink"] ::
        keptErrors [ValidateCredential current.Secret current.ServiceAccountName]))) ["spec"] =
        some (.mk "" [] "" (ErrMissingField ["spec.sink"] :: l2)) := by
      rw [← hl2, ← h2, ← h1]
      simp [ViaField, FieldError.ViaFieldStruct, ViaFieldErrors]
    rw [h3, Also_cons_errors]
    exact ⟨_, rfl⟩

/-- C2, at the spec with nothing set. -/
theorem build_validate_zero_sink_witness :
    zeroSinkBuildSpec.Sink = ⟨none, none⟩ ∧
    (∃ rest, zeroSinkBuildSpec.Validate =
      some (.mk "" [] "" (ErrMissingField ["sink"] :: rest))) :=
  ⟨rfl, (build_validate_zero_sink zeroSinkBuildSpec rfl).1⟩

/-! ## The report of a comparison -/

theorem renderChange_ne_empty (c : Change) (rest : String) : renderChange c ++ rest ≠ "" := by
  intro h
  have := congrArg String.data h
  simp [renderChange, String.data_append] at this

theorem renderChanges_eq_empty (cs : List Change) : renderChanges cs = "" ↔ cs = [] := by
  cases cs with
  | nil => simp [renderChanges]
  | cons c cs => simpa [renderChanges] using renderChange_ne_empty c (renderChanges cs)

/-- Every difference of a report has its lines in the text of the report. -/
theorem renderChanges_mem (cs : List Change) (c : Change) (h : c ∈ cs) :
    ∃ pre post, renderChanges cs = pre ++ renderChange c ++ post := by
  induction cs with
  | nil => cases h
  | cons d ds ih =>
    rcases List.mem_cons.mp h with rfl | hmem
    · exact ⟨"", renderChanges ds, by simp [renderChanges]⟩
    · obtain ⟨pre, post, hpp⟩ := ih hmem
      exact ⟨renderChange d ++ pre, post, by simp [renderChanges, hpp, String.append_assoc]⟩

theorem diffString_eq_nil (path x y : String) : diffString path x y = [] ↔ x = y := by
  unfold diffString
  by_cases h : x = y <;> simp [h]

theorem diffBoolPtr_eq_nil (path : String) (x y : Option Bool) :
    diffBoolPtr path x y = [] ↔ x = y := by
  unfold diffBoolPtr
  by_cases h : x = y <;> simp [h]

theorem diffSecret_eq_nil (x y : Option SecretKeySelector) : diffSecret x y = [] ↔ x = y := by
  cases x with
  | none => cases y <;> simp [diffSecret]
  | some a =>
    cases y with
    | none => simp [diffSecret]
    | some b =>
      obtain ⟨an, ak, ao⟩ := a
      obtain ⟨bn, bk, bo⟩ := b
      simp [diffSecret, diffString_eq_nil, diffBoolPtr_eq_nil, and_assoc]

/-- The comparison of two build specs finds nothing exactly when they agree on
every field but `Sink` and `CloudEventOverrides`. -/
theorem buildSpecChanges_eq_nil (x y : CloudBuildSourceSpec) :
    buildSpecChanges x y = [] ↔
      x.ServiceAccountName = y.ServiceAccountName ∧ x.Secret = y.Secret ∧
        x.Project = y.Project := by
  simp [buildSpecChanges, diffString_eq_nil, diffSecret_eq_nil, and_assoc]

/-- The check of the cluster name annotation passes the errors through when the
metadata is unchanged. -/
theorem checkClusterName_same (clusterNameKey : String) (m : ObjectMeta)
    (errs : Option FieldError) :
    CheckImmutableClusterNameAnnotation clusterNameKey m m errs = errs := by
  unfold CheckImmutableClusterNameAnnotation
  cases h : mapLookup clusterNameKey m.Annotations with
  | none => rfl
  | some old => simp [diffString, renderChanges]

/-- The check of the cluster name annotation keeps the errors found before it. -/
theorem checkClusterName_keeps (clusterNameKey : String) (current original : ObjectMeta)
    (x : FieldError) :
    ∃ rest, CheckImmutableClusterNameAnnotation clusterNameKey current original
      (some (.mk "" [] "" [x])) = some (.mk "" [] "" (x :: rest)) := by
  unfold CheckImmutableClusterNameAnnotation
  cases h : mapLookup clusterNameKey original.Annotations with
  | none => exact ⟨[], rfl⟩
  | some old =>
    simp only []
    split
    · rw [Also_cons_errors]
      exact ⟨_, rfl⟩
    · exact ⟨[], rfl⟩

/-- When the report of the comparison of the specs is not empty,
`CheckImmutableFields` returns an error whose first collected error is the one
of the spec, with the report as its details. -/
theorem build_checkImmutableWith_changed
    (cmpDiff : CloudBuildSourceSpec → CloudBuildSourceSpec → String) (clusterNameKey : String)
    (current original : CloudBuildSource) (hd : cmpDiff original.Spec current.Spec ≠ "") :
    ∃ rest, current.CheckImmutableFieldsWith cmpDiff clusterNameKey (some original) =
      some (.mk "" [] "" (immutableFieldsError (cmpDiff original.Spec current.Spec) :: rest)) := by
  have ha : Also none [some (immutableFieldsError (cmpDiff original.Spec current.Spec))] =
      some (.mk "" [] "" [immutableFieldsError (cmpDiff original.Spec current.Spec)]) := by
    rw [Also_none]
    simp [keptErrors, immutableFieldsError, FieldError.isEmptyStruct]
  unfold CloudBuildSource.CheckImmutableFieldsWith
  simp only [hd, ne_eq, not_false_eq_true, if_true]
  rw [← immutableFieldsError, ha]
  exact checkClusterName_keeps _ _ _ _

/-- When the comparison of the specs finds a difference, `CheckImmutableFields`
returns an error whose first collected error is the one of the spec, with the
report of the comparison as its details. -/
theorem build_checkImmutable_changed (clusterNameKey : String)
    (current original : CloudBuildSource)
    (h : buildSpecChanges original.Spec current.Spec ≠ []) :
    ∃ rest, current.CheckImmutableFields clusterNameKey (some original) =
      some (.mk "" [] "" (immutableFieldsError
        (renderChanges (buildSpecChanges original.Spec current.Spec)) :: rest)) := by
  have hd : renderChanges (buildSpecChanges original.Spec current.Spec) ≠ "" := by
    rw [Ne, renderChanges_eq_empty]; exact h
  exact build_checkImmutableWith_changed _ clusterNameKey current original hd

/-- When the specs agree on every field the comparison looks at and the
metadata is unchanged, `CheckImmutableFields` returns nil. -/
theorem build_checkImmutable_unchanged (clusterNameKey : String)
    (current original : CloudBuildSource) (hm : current.ObjectMeta = original.ObjectMeta)
    (h : buildSpecChanges original.Spec current.Spec = []) :
    current.CheckImmutableFields clusterNameKey (some original) = none := by
  unfold CloudBuildSource.CheckImmutableFields CloudBuildSource.CheckImmutableFieldsWith
  simp only [h, renderChanges, ne_eq, not_true_eq_false, if_false, hm, checkClusterName_same]

/-! ## CloudBuildSource: immutable fields -/

/-- C3: for every CloudBuildSource original and every current with the same
metadata whose spec differs from the original's only in Sink and
CloudEventOverrides, `current.CheckImmutableFields(original)` returns nil. -/
theorem build_checkImmutable_sink_and_overrides_mutable (clusterNameKey : String)
    (original : CloudBuildSource) (sink : Destination)
    (overrides : Option CloudEventOverrides) :
    CloudBuildSource.CheckImmutableFields clusterNameKey
      { original with
        Spec := { original.Spec with Sink := sink, CloudEventOverrides := overrides } }
      (some original) = none := by
  apply build_checkImmutable_unchanged
  · rfl
  · rw [buildSpecChanges_eq_nil]
    exact ⟨rfl, rfl, rfl⟩

/-- C4: for every CloudBuildSource original and current whose specs differ in
Secret, Project or ServiceAccountName, `current.CheckImmutableFields(original)`
returns a non-nil error, whatever the Sink and CloudEventOverrides of the two
specs and whatever the metadata. -/
theorem build_checkImmutable_rejects_change (clusterNameKey : String)
    (current original : CloudBuildSource)
    (h : original.Spec.Secret ≠ current.Spec.Secret ∨
      original.Spec.Project ≠ current.Spec.Project ∨
      original.Spec.ServiceAccountName ≠ current.Spec.ServiceAccountName) :
    current.CheckImmutableFields clusterNameKey (some original) ≠ none := by
  have hne : buildSpecChanges original.Spec current.Spec ≠ [] := by
    rw [Ne, buildSpecChanges_eq_nil]
    rintro ⟨h1, h2, h3⟩
    rcases h with h | h | h
    · exact h h2
    · exact h h3
    · exact h h1
  obtain ⟨rest, hrest⟩ := build_checkImmutable_changed clusterNameKey current original hne
  rw [hrest]
  simp

/-- C4, at the sample source and its copy with another project. -/
theorem build_checkImmutable_rejects_change_witness :
    sampleBuildSource.Spec.Project ≠ sampleBuildSourceNewProject.Spec.Project ∧
    sampleBuildSourceNewProject.CheckImmutableFields "cluster-name" (some sampleBuildSource)
      ≠ none :=
  ⟨by decide,
    build_checkImmutable_rejects_change "cluster-name" sampleBuildSourceNewProject
      sampleBuildSource (Or.inr (Or.inl (by decide)))⟩

/-- C6: for every current object, `CheckImmutableFields` with a nil original
returns nil, whatever the spec and the annotations of current are. -/
theorem build_checkImmutable_nil_original (clusterNameKey : String)
    (current : CloudBuildSource) :
    current.CheckImmutableFields clusterNameKey none = none := rfl

/-- C7: whenever `CloudBuildSource.CheckImmutableFields` rejects a spec change,
that is whenever the report `cmp.Diff` gives of the original spec against the
current one is not empty, the error it returns carries the field error with
the message `Immutable fields changed (-old +new)` on the path `spec` whose
details are that report, unchanged, whatever the check of the cluster name
adds; so the details name every field that changed and carry its value before
and its value after, as the report of the library does. -/
theorem build_checkImmutable_error_names_changes
    (cmpDiff : CloudBuildSourceSpec → CloudBuildSourceSpec → String) (p : ValuePrinter)
    (clusterNameKey : String) (current original : CloudBuildSource)
    (hrejects : cmpDiff original.Spec current.Spec ≠ "")
    (hreport : ReportNames p (cmpDiff original.Spec current.Spec) original.Spec current.Spec) :
    ∃ (details : String) (rest : List FieldError),
      current.CheckImmutableFieldsWith cmpDiff clusterNameKey (some original) =
        some (.mk "" [] ""
          (.mk "Immutable fields changed (-old +new)" ["spec"] details [] :: rest)) ∧
      details = cmpDiff original.Spec current.Spec ∧
      ∀ c ∈ changedFields p original.Spec current.Spec,
        Contains details c.path = true ∧ Contains details c.before = true ∧
          Contains details c.after = true := by
  obtain ⟨rest, hrest⟩ :=
    build_checkImmutableWith_changed cmpDiff clusterNameKey current original hrejects
  exact ⟨cmpDiff original.Spec current.Spec, rest, hrest, rfl, hreport⟩

/-- C7, at the sample source and its copy with another project, for a report
with one `-` and one `+` line a field. -/
theorem build_checkImmutable_error_names_changes_witness :
    renderChanges (buildSpecChanges sampleBuildSource.Spec sampleBuildSourceNewProject.Spec)
      ≠ "" ∧
    ReportNames samplePrinter
      (renderChanges (buildSpecChanges sampleBuildSource.Spec sampleBuildSourceNewProject.Spec))
      sampleBuildSource.Spec sampleBuildSourceNewProject.Spec ∧
    changedFields samplePrinter sampleBuildSource.Spec sampleBuildSourceNewProject.Spec =
      [⟨"Project", "\"project\"", "\"other-project\""⟩] ∧
    ∃ (details : String) (rest : List FieldError),
      sampleBuildSourceNewProject.CheckImmutableFields "cluster-name" (some sampleBuildSource) =
        some (.mk "" [] ""
          (.mk "Immutable fields changed (-old +new)" ["spec"] details [] :: rest)) ∧
      details = renderChanges
        (buildSpecChanges sampleBuildSource.Spec sampleBuildSourceNewProject.Spec) ∧
      ∀ c ∈ changedFields samplePrinter sampleBuildSource.Spec
          sampleBuildSourceNewProject.Spec,
        Contains details c.path = true ∧ Contains details c.before = true ∧
          Contains details c.after = true :=
  ⟨by decide, by decide, by decide,
    build_checkImmutable_error_names_changes
      (fun x y => renderChanges (buildSpecChanges x y)) samplePrinter "cluster-name"
      sampleBuildSourceNewProject sampleBuildSource (by decide) (by decide)⟩

/-- C8, at its failing input: the sample source and its copy with a service
account name set have the same metadata and agree on secret and project (a
build spec has no topic), and `CheckImmutableFields` returns an error, with
the leaf `Immutable fields changed (-old +new)` on the path `spec`. -/
theorem build_checkImmutable_rejects_serviceAccount_change :
    sampleBuildSourceNewServiceAccount.ObjectMeta = sampleBuildSource.ObjectMeta ∧
    sampleBuildSourceNewServiceAccount.Spec.Secret = sampleBuildSource.Spec.Secret ∧
    sampleBuildSourceNewServiceAccount.Spec.Project = sampleBuildSource.Spec.Project ∧
    sampleBuildSourceNewServiceAccount.Spec.ServiceAccountName ≠
      sampleBuildSource.Spec.ServiceAccountName ∧
    (sampleBuildSourceNewServiceAccount.CheckImmutableFields "cluster-name"
      (some sampleBuildSource)).isSome = true ∧
    ((normalized (sampleBuildSourceNewServiceAccount.CheckImmutableFields "cluster-name"
      (some sampleBuildSource))).map fun leaf => (leaf.Message, leaf.Paths)) =
      [("Immutable fields changed (-old +new)", ["spec"])] := by
  decide

/-! ## CloudSchedulerSource: immutable fields -/

/-- The comparison of two scheduler specs finds nothing exactly when they agree
on every field but `Sink` and `CloudEventOverrides`. -/
theorem schedulerSpecChanges_eq_nil (x y : CloudSchedulerSourceSpec) :
    schedulerSpecChanges x y = [] ↔
      x.ServiceAccountName = y.ServiceAccountName ∧ x.Secret = y.Secret ∧
        x.Project = y.Project ∧ x.Location = y.Location ∧ x.Schedule = y.Schedule ∧
        x.Data = y.Data := by
  simp [schedulerSpecChanges, diffString_eq_nil, diffSecret_eq_nil, and_assoc]

/-- C5: for every CloudSchedulerSource original and current whose specs differ
in Location, Schedule, Data, Secret (its name included), Project or
ServiceAccountName, `current.CheckImmutableFields(original)` returns a non-nil
error. -/
theorem scheduler_checkImmutable_rejects_change (clusterNameKey : String)
    (current original : CloudSchedulerSource)
    (h : original.Spec.Location ≠ current.Spec.Location ∨
      original.Spec.Schedule ≠ current.Spec.Schedule ∨
      original.Spec.Data ≠ current.Spec.Data ∨
      original.Spec.Secret ≠ current.Spec.Secret ∨
      original.Spec.Project ≠ current.Spec.Project ∨
      original.Spec.ServiceAccountName ≠ current.Spec.ServiceAccountName) :
    current.CheckImmutableFields clusterNameKey (some original) ≠ none := by
  have hne : schedulerSpecChanges original.Spec current.Spec ≠ [] := by
    rw [Ne, schedulerSpecChanges_eq_nil]
    rintro ⟨h1, h2, h3, h4, h5, h6⟩
    rcases h with h | h | h | h | h | h
    · exact h h4
    · exact h h5
    · exact h h6
    · exact h h2
    · exact h h3
    · exact h h1
  have hd : renderChanges (schedulerSpecChanges original.Spec current.Spec) ≠ "" := by
    rw [Ne, renderChanges_eq_empty]; exact hne
  have ha : Also none [some (immutableFieldsError
      (renderChanges (schedulerSpecChanges original.Spec current.Spec)))] =
      some (.mk "" [] "" [immutableFieldsError
        (renderChanges (schedulerSpecChanges original.Spec current.Spec))]) := by
    rw [Also_none]
    simp [keptErrors, immutableFieldsError, FieldError.isEmptyStruct]
  unfold CloudSchedulerSource.CheckImmutableFields
  simp only [hd, ne_eq, not_false_eq_true, if_true]
  rw [← immutableFieldsError, ha]
  obtain ⟨rest, hrest⟩ := checkClusterName_keeps clusterNameKey current.ObjectMeta
    original.ObjectMeta (immutableFieldsError
      (renderChanges (schedulerSpecChanges original.Spec current.Spec)))
  rw [hrest]
  simp

/-- C5, at the source of the validation test and its copy with another location. -/
theorem scheduler_checkImmutable_rejects_change_witness :
    schedulerWithSecret.Spec.Location ≠ schedulerLocationChanged.Spec.Location ∧
    schedulerLocationChanged.CheckImmutableFields "cluster-name" (some schedulerWithSecret)
      ≠ none :=
  ⟨by decide,
    scheduler_checkImmutable_rejects_change "cluster-name" schedulerLocationChanged
      schedulerWithSecret (Or.inl (by decide))⟩

/-! ## Credentials -/

/-- The leaves of what `CloudBuildSourceSpec.Validate` returns: those of the
check of the sink, then those of the check of the credential. -/
theorem build_validate_normalized (sinkValidate : Destination → Option FieldError)
    (current : CloudBuildSourceSpec) :
    normalized (current.ValidateWith sinkValidate) =
      normalized (sinkErrs sinkValidate current.Sink) ++
        normalized (ValidateCredential current.Secret current.ServiceAccountName) := by
  have h : current.ValidateWith sinkValidate =
      match ValidateCredential current.Secret current.ServiceAccountName with
      | some err => Also (sinkErrs sinkValidate current.Sink) [some err]
      | none => sinkErrs sinkValidate current.Sink := rfl
  have hnone : normalized (none : Option FieldError) = [] := rfl
  rw [h]
  cases ValidateCredential current.Secret current.ServiceAccountName with
  | none => simp [hnone]
  | some err => simp [normalized_Also]

/-- The leaves of what the scheduler's `Validate` returns: those of the check
of the sink, one for each empty required field, those of the credential. -/
theorem scheduler_validate_normalized (current : CloudSchedulerSourceSpec) :
    normalized current.Validate =
      normalized (sinkErrs Destination.Validate current.Sink) ++
        (if current.Location = "" then [⟨"missing field(s)", ["location"], ""⟩] else []) ++
        (if current.Schedule = "" then [⟨"missing field(s)", ["schedule"], ""⟩] else []) ++
        (if current.Data = "" then [⟨"missing field(s)", ["data"], ""⟩] else []) ++
        normalized (ValidateCredential current.Secret current.ServiceAccountName) := by
  have hleaf : ∀ p : String, normalized (some (ErrMissingField [p])) =
      [⟨"missing field(s)", [p], ""⟩] := by
    intro p
    simp [normalized, ErrMissingField, FieldError.normalizedStruct, normalizedErrors]
  have h : current.Validate =
      (let e1 := sinkErrs Destination.Validate current.Sink
       let e2 := if current.Location = "" then Also e1 [some (ErrMissingField ["location"])] else e1
       let e3 := if current.Schedule = "" then Also e2 [some (ErrMissingField ["schedule"])] else e2
       let e4 := if current.Data = "" then Also e3 [some (ErrMissingField ["data"])] else e3
       match ValidateCredential current.Secret current.ServiceAccountName with
       | some err => Also e4 [some err]
       | none => e4) := rfl
  have hnone : normalized (none : Option FieldError) = [] := rfl
  rw [h]
  simp only []
  cases ValidateCredential current.Secret current.ServiceAccountName with
  | none =>
    by_cases hl : current.Location = "" <;> by_cases hs : current.Schedule = "" <;>
      by_cases hd : current.Data = "" <;>
      simp [hl, hs, hd, normalized_Also, hleaf, hnone]
  | some err =>
    by_cases hl : current.Location = "" <;> by_cases hs : current.Schedule = "" <;>
      by_cases hd : current.Data = "" <;>
      simp [hl, hs, hd, normalized_Also, hleaf]

/-- Every path the check of the sink reports is one of `sinkPaths`. -/
theorem sinkErrs_paths (sink : Destination) :
    ∀ e ∈ normalized (sinkErrs Destination.Validate sink), ∀ p ∈ e.Paths, p ∈ sinkPaths := by
  generalize hv : sinkErrs Destination.Validate sink = v
  rcases sink with ⟨_ | ⟨k, ns, n, av⟩, _ | ⟨sc, h, p⟩⟩
  · simp [sinkErrs] at hv
    subst hv; decide
  · by_cases h1 : sc = "" <;> by_cases h2 : h = "" <;>
      simp [sinkErrs, Destination.Validate, ValidateDestination, URL.IsAbs, h1, h2] at hv <;>
      subst hv <;> decide
  · by_cases h1 : n = "" <;> by_cases h2 : av = "" <;> by_cases h3 : k = "" <;>
      simp [sinkErrs, Destination.Validate, ValidateDestination, KReference.Validate,
        h1, h2, h3] at hv <;>
      subst hv <;> decide
  · by_cases h1 : sc = "" <;>
      simp [sinkErrs, Destination.Validate, ValidateDestination, URL.IsAbs, h1] at hv <;>
      subst hv <;> decide

theorem isAlnumDash_of_isAlnum (c : Char) (h : isAlnum c = true) : isAlnumDash c = true := by
  simp [isAlnumDash, h]

theorem matchGroup_iff : ∀ (n : Nat) (l : List Char),
    matchGroup n l = true ↔
      l ≠ [] ∧ l.length ≤ n + 1 ∧ (∀ c ∈ l.dropLast, isAlnumDash c = true) ∧
        (∀ c, l.getLast? = some c → isAlnum c = true)
  | _, [] => by simp [matchGroup]
  | n, [c] => by simp [matchGroup]
  | 0, c :: d :: rest => by simp [matchGroup]
  | n + 1, c :: d :: rest => by
    have ih := matchGroup_iff n (d :: rest)
    simp only [matchGroup, Bool.and_eq_true, ih, List.dropLast_cons₂, List.getLast?_cons_cons,
      List.length_cons, List.mem_cons, ne_eq, reduceCtorEq, not_false_eq_true, true_and]
    constructor
    · rintro ⟨hc, hlen, hmid, hlast⟩
      refine ⟨by omega, ?_, hlast⟩
      rintro x (rfl | hx)
      · exact hc
      · exact hmid x hx
    · rintro ⟨hlen, hmid, hlast⟩
      exact ⟨hmid c (Or.inl rfl), by omega, fun x hx => hmid x (Or.inr hx), hlast⟩

/-- The names the format accepts. -/
theorem validation_regexp_k8s_iff (s : String) (hs : s ≠ "") :
    validation_regexp_k8s s = true ↔
      s.length ≤ 63 ∧ (∀ c, s.data.head? = some c → isAlnum c = true) ∧
        (∀ c, s.data.getLast? = some c → isAlnum c = true) ∧
        (∀ c ∈ s.data, isAlnumDash c = true) := by
  obtain ⟨l⟩ := s
  have hl : l ≠ [] := by
    intro h; apply hs; rw [h]
  cases l with
  | nil => exact absurd rfl hl
  | cons c rest =>
    cases rest with
    | nil =>
      simp only [validation_regexp_k8s, List.isEmpty_nil, Bool.true_or, Bool.and_true,
        String.length, List.length_singleton, List.head?_cons, Option.some.injEq,
        List.getLast?_singleton, List.mem_singleton]
      constructor
      · intro h
        refine ⟨by omega, ?_, ?_, ?_⟩
        · rintro x rfl; exact h
        · rintro x rfl; exact h
        · rintro x rfl; exact isAlnumDash_of_isAlnum _ h
      · rintro ⟨_, h, _, _⟩
        exact h c rfl
    | cons d rest =>
      simp only [validation_regexp_k8s, List.isEmpty_cons, Bool.false_or, Bool.and_eq_true,
        matchGroup_iff, String.length, List.length_cons, List.head?_cons, Option.some.injEq,
        List.getLast?_cons_cons, ne_eq, reduceCtorEq, not_false_eq_true, true_and]
      constructor
      · rintro ⟨hc, hlen, hmid, hlast⟩
        refine ⟨by omega, ?_, hlast, ?_⟩
        · rintro x rfl; exact hc
        · intro x hx
          rcases List.mem_cons.mp hx with rfl | hx
          · exact isAlnumDash_of_isAlnum _ hc
          · rcases List.eq_nil_or_concat (d :: rest) with h | ⟨init, last, h⟩
            · cases h
            · rw [List.concat_eq_append] at h
              have hlast2 : (d :: rest).getLast? = some last := by
                rw [h]; simp
              have hinit : (d :: rest).dropLast = init := by
                rw [h]; simp
              rw [h] at hx
              rcases List.mem_append.mp hx with hx | hx
              · exact hmid x (hinit ▸ hx)
              · simp at hx
                subst hx
                exact isAlnumDash_of_isAlnum _ (hlast _ hlast2)
      · rintro ⟨hlen, hhead, hlast, hall⟩
        refine ⟨hhead c rfl, by omega, ?_, hlast⟩
        intro x hx
        exact hall x (List.mem_cons_of_mem _ (List.mem_of_mem_dropLast hx))

theorem validate_ne_none_of_leaf (v : Option FieldError) (e : FieldError.Entry)
    (h : e ∈ normalized v) : v ≠ none := by
  rintro rfl
  simp [normalized] at h

/-- C9: for every source spec in which both serviceAccountName and secret are
set, `Validate` returns an error with the message that the two can not be had
at the same time, the credential contributes no other error (none about the
name or the key of the secret), and the spec is not accepted. -/
theorem validate_rejects_both_credentials (secret : Option SecretKeySelector) (sa : String)
    (hsecret : secretIsSet secret = true) (hsa : sa ≠ "") :
    ValidateCredential secret sa =
      some (.mk "Can't have spec.serviceAccountName and spec.secret at the same time"
        [""] "" []) ∧
    (∀ current : CloudBuildSourceSpec, current.Secret = secret →
      current.ServiceAccountName = sa →
      normalized current.Validate =
        normalized (sinkErrs Destination.Validate current.Sink) ++
          [⟨"Can't have spec.serviceAccountName and spec.secret at the same time", [""], ""⟩] ∧
      (∀ e ∈ normalized current.Validate, "secret.name" ∉ e.Paths ∧ "secret.key" ∉ e.Paths) ∧
      current.Validate ≠ none) ∧
    (∀ current : CloudSchedulerSourceSpec, current.Secret = secret →
      current.ServiceAccountName = sa →
      (⟨"Can't have spec.serviceAccountName and spec.secret at the same time", [""], ""⟩ :
        FieldError.Entry) ∈ normalized current.Validate ∧
      (∀ e ∈ normalized current.Validate, "secret.name" ∉ e.Paths ∧ "secret.key" ∉ e.Paths) ∧
      current.Validate ≠ none) := by
  have hcred : ValidateCredential secret sa =
      some (.mk "Can't have spec.serviceAccountName and spec.secret at the same time"
        [""] "" []) := by
    cases secret with
    | none => simp [secretIsSet] at hsecret
    | some s => simp [ValidateCredential, hsecret, hsa]
  have hleaf : normalized (some (FieldError.mk
      "Can't have spec.serviceAccountName and spec.secret at the same time" [""] "" [])) =
      [⟨"Can't have spec.serviceAccountName and spec.secret at the same time", [""], ""⟩] := by
    decide
  have hsink : ∀ sink : Destination, ∀ e ∈ normalized (sinkErrs Destination.Validate sink),
      "secret.name" ∉ e.Paths ∧ "secret.key" ∉ e.Paths := by
    intro sink e he
    constructor
    · intro hp
      exact absurd (sinkErrs_paths sink e he _ hp) (by decide)
    · intro hp
      exact absurd (sinkErrs_paths sink e he _ hp) (by decide)
  refine ⟨hcred, ?_, ?_⟩
  · intro current h1 h2
    have hn : normalized current.Validate =
        normalized (sinkErrs Destination.Validate current.Sink) ++
          [⟨"Can't have spec.serviceAccountName and spec.secret at the same time", [""], ""⟩] := by
      rw [CloudBuildSourceSpec.Validate, build_validate_normalized, h1, h2, hcred, hleaf]
    refine ⟨hn, ?_, ?_⟩
    · intro e he
      rw [hn] at he
      rcases List.mem_append.mp he with he | he
      · exact hsink _ e he
      · simp only [List.mem_singleton] at he
        subst he
        decide
    · apply validate_ne_none_of_leaf _
        ⟨"Can't have spec.serviceAccountName and spec.secret at the same time", [""], ""⟩
      rw [hn]
      simp
  · intro current h1 h2
    have hn := scheduler_validate_normalized current
    rw [h1, h2, hcred, hleaf] at hn
    have hmem : (⟨"Can't have spec.serviceAccountName and spec.secret at the same time", [""],
        ""⟩ : FieldError.Entry) ∈ normalized current.Validate := by
      rw [hn]; simp
    refine ⟨hmem, ?_, validate_ne_none_of_leaf _ _ hmem⟩
    intro e he
    rw [hn] at he
    simp only [List.mem_append, List.mem_singleton] at he
    rcases he with (((he | he) | he) | he) | he
    · exact hsink _ e he
    · by_cases hl : current.Location = "" <;> simp [hl] at he
      subst he; decide
    · by_cases hl : current.Schedule = "" <;> simp [hl] at he
      subst he; decide
    · by_cases hl : current.Data = "" <;> simp [hl] at he
      subst he; decide
    · subst he; decide

/-- C9, at the sample build spec with a service account name next to its secret. -/
theorem validate_rejects_both_credentials_witness :
    secretIsSet bothCredentialsSpec.Secret = true ∧
    bothCredentialsSpec.ServiceAccountName ≠ "" ∧
    bothCredentialsSpec.Validate ≠ none :=
  ⟨by decide, by decide,
    ((validate_rejects_both_credentials bothCredentialsSpec.Secret
      bothCredentialsSpec.ServiceAccountName (by decide) (by decide)).2.1
        bothCredentialsSpec rfl rfl).2.2⟩

/-- C10: for every source spec with no secret and a non-empty
serviceAccountName, `Validate` rejects the spec on path `serviceAccountName`
exactly when the name does not match the format, that is exactly when it is
longer than 63 characters, or does not start and end with an ASCII letter or
digit, or contains a character other than ASCII letters, digits and `-`; the
message quotes the value and the format. -/
theorem validate_serviceAccountName_format (sa : String) (hsa : sa ≠ "") :
    (validation_regexp_k8s sa = false ↔
      63 < sa.length ∨
        ¬((∀ c, sa.data.head? = some c → isAlnum c = true) ∧
          (∀ c, sa.data.getLast? = some c → isAlnum c = true)) ∨
        ∃ c ∈ sa.data, isAlnumDash c = false) ∧
    ValidateCredential none sa =
      (if validation_regexp_k8s sa = true then none
       else some (.mk ("invalid value: " ++ sa ++
          ", serviceAccountName should have format: " ++ k8sServiceAccountFormat)
          ["serviceAccountName"] "" [])) ∧
    (∀ current : CloudBuildSourceSpec, current.Secret = none →
      current.ServiceAccountName = sa →
      ((∃ e ∈ normalized current.Validate, "serviceAccountName" ∈ e.Paths) ↔
        validation_regexp_k8s sa = false) ∧
      (validation_regexp_k8s sa = false →
        normalized current.Validate =
          normalized (sinkErrs Destination.Validate current.Sink) ++
            [⟨"invalid value: " ++ sa ++ ", serviceAccountName should have format: " ++
              k8sServiceAccountFormat, ["serviceAccountName"], ""⟩])) ∧
    (∀ current : CloudSchedulerSourceSpec, current.Secret = none →
      current.ServiceAccountName = sa →
      ((∃ e ∈ normalized current.Validate, "serviceAccountName" ∈ e.Paths) ↔
        validation_regexp_k8s sa = false)) := by
  have hfmt : validation_regexp_k8s sa = false ↔
      63 < sa.length ∨
        ¬((∀ c, sa.data.head? = some c → isAlnum c = true) ∧
          (∀ c, sa.data.getLast? = some c → isAlnum c = true)) ∨
        ∃ c ∈ sa.data, isAlnumDash c = false := by
    rw [← Bool.not_eq_true, validation_regexp_k8s_iff sa hsa]
    constructor
    · intro h
      by_contra hc
      push_neg at hc
      apply h
      refine ⟨by omega, hc.2.1.1, hc.2.1.2, ?_⟩
      intro c hmem
      have := hc.2.2 c hmem
      simpa using this
    · rintro (h | h | ⟨c, hmem, hcf⟩) ⟨h1, h2, h3, h4⟩
      · omega
      · exact h ⟨h2, h3⟩
      · rw [h4 c hmem] at hcf
        cases hcf
  have hcred : ValidateCredential none sa =
      (if validation_regexp_k8s sa = true then none
       else some (.mk ("invalid value: " ++ sa ++
          ", serviceAccountName should have format: " ++ k8sServiceAccountFormat)
          ["serviceAccountName"] "" [])) := by
    simp [ValidateCredential, validateK8sServiceAccount, hsa]
  have hleaves : normalized (ValidateCredential none sa) =
      if validation_regexp_k8s sa = true then []
      else [⟨"invalid value: " ++ sa ++ ", serviceAccountName should have format: " ++
        k8sServiceAccountFormat, ["serviceAccountName"], ""⟩] := by
    rw [hcred]
    by_cases hm : validation_regexp_k8s sa = true
    · simp [hm, normalized]
    · have hne : "invalid value: " ++ sa ++ ", serviceAccountName should have format: " ++
          k8sServiceAccountFormat ≠ "" := by
        intro h
        have := congrArg String.data h
        simp [String.data_append] at this
      simp [hm, normalized, FieldError.normalizedStruct, normalizedErrors, hne]
  have hsink : ∀ sink : Destination, ∀ e ∈ normalized (sinkErrs Destination.Validate sink),
      "serviceAccountName" ∉ e.Paths := by
    intro sink e he hp
    exact absurd (sinkErrs_paths sink e he _ hp) (by decide)
  refine ⟨hfmt, hcred, ?_, ?_⟩
  · intro current h1 h2
    have hn : normalized current.Validate =
        normalized (sinkErrs Destination.Validate current.Sink) ++
          normalized (ValidateCredential none sa) := by
      rw [CloudBuildSourceSpec.Validate, build_validate_normalized, h1, h2]
    constructor
    · rw [hn, hleaves]
      by_cases hm : validation_regexp_k8s sa = true
      · simp only [hm, if_true, List.append_nil]
        constructor
        · rintro ⟨e, he, hp⟩
          exact absurd hp (hsink _ e he)
        · intro h; cases h
      · simp only [hm, if_false]
        constructor
        · intro _; trivial
        · intro _
          exact ⟨_, List.mem_append_right _ (List.mem_singleton.mpr rfl), by simp⟩
    · intro hm
      rw [hn, hleaves]
      simp [hm]
  · intro current h1 h2
    have hn := scheduler_validate_normalized current
    rw [h1, h2, hleaves] at hn
    rw [hn]
    by_cases hm : validation_regexp_k8s sa = true
    · simp only [hm, if_true, List.append_nil]
      constructor
      · rintro ⟨e, he, hp⟩
        exfalso
        simp only [List.mem_append] at he
        rcases he with ((he | he) | he) | he
        · exact hsink _ e he hp
        · by_cases hl : current.Location = "" <;> simp [hl] at he
          subst he; revert hp; decide
        · by_cases hl : current.Schedule = "" <;> simp [hl] at he
          subst he; revert hp; decide
        · by_cases hl : current.Data = "" <;> simp [hl] at he
          subst he; revert hp; decide
      · intro h; cases h
    · simp only [hm, if_false]
      constructor
      · intro _; trivial
      · intro _
        exact ⟨_, List.mem_append_right _ (List.mem_singleton.mpr rfl), by simp⟩

/-- C10, at the build spec with the service account name `@test`: it is not
empty, there is no secret, and the spec is rejected on `serviceAccountName`. -/
theorem validate_serviceAccountName_format_witness :
    invalidServiceAccountSpec.ServiceAccountName ≠ "" ∧
    invalidServiceAccountSpec.Secret = none ∧
    validation_regexp_k8s "@test" = false ∧
    ∃ e ∈ normalized invalidServiceAccountSpec.Validate, "serviceAccountName" ∈ e.Paths :=
  ⟨by decide, rfl, by decide,
    (((validate_serviceAccountName_format "@test" (by decide)).2.2.1
      invalidServiceAccountSpec rfl rfl).1).mpr (by decide)⟩

/-! ## Scheduler jobs -/

theorem lastIndexChars_append_left (sep pre rest : List Char) (i : Nat)
    (h : lastIndexChars sep rest = some i) :
    lastIndexChars sep (pre ++ rest) = some (pre.length + i) := by
  induction pre with
  | nil => simpa using h
  | cons c cs ih =>
    show lastIndexChars sep (c :: (cs ++ rest)) = some ((c :: cs).length + i)
    rw [lastIndexChars, ih]
    simp only [List.length_cons, Option.some.injEq]
    omega

theorem lastIndexChars_cons_none (sep : List Char) (c : Char) (cs : List Char)
    (h : lastIndexChars sep cs = none) (hp : sep.isPrefixOf (c :: cs) = false) :
    lastIndexChars sep (c :: cs) = none := by
  simp [lastIndexChars, h, hp]

theorem lastIndexChars_cons_here (sep : List Char) (c : Char) (cs : List Char)
    (h : lastIndexChars sep cs = none) (hp : sep.isPrefixOf (c :: cs) = true) :
    lastIndexChars sep (c :: cs) = some 0 := by
  simp [lastIndexChars, h, hp]

theorem lastIndexChars_jobs_none (t : List Char) (h : '/' ∉ t) :
    lastIndexChars "/jobs/".data t = none := by
  induction t with
  | nil => simp [lastIndexChars]
  | cons c cs ih =>
    have hc : c ≠ '/' := fun hc => h (by simp [hc])
    have hcs : '/' ∉ cs := fun hm => h (List.mem_cons_of_mem _ hm)
    apply lastIndexChars_cons_none _ _ _ (ih hcs)
    simp [List.isPrefixOf, Ne.symm hc]

theorem lastIndexChars_jobs_here (t : List Char) (h : '/' ∉ t) :
    lastIndexChars "/jobs/".data ("/jobs/".data ++ t) = some 0 := by
  have h0 := lastIndexChars_jobs_none t h
  have hp : ("jobs/".data.isPrefixOf t) = false := by
    cases hb : "jobs/".data.isPrefixOf t with
    | false => rfl
    | true =>
      exfalso
      obtain ⟨r, hr⟩ := List.isPrefixOf_iff_prefix.mp hb
      apply h
      rw [← hr]
      simp
  have hp1 : ("/jobs/".data.isPrefixOf ('/' :: t)) = false := by
    have : ("/jobs/".data.isPrefixOf ('/' :: t)) = "jobs/".data.isPrefixOf t := by
      simp [List.isPrefixOf]
    rw [this, hp]
  have e1 := lastIndexChars_cons_none _ '/' t h0 hp1
  have e2 := lastIndexChars_cons_none _ 's' _ e1 (by simp [List.isPrefixOf])
  have e3 := lastIndexChars_cons_none _ 'b' _ e2 (by simp [List.isPrefixOf])
  have e4 := lastIndexChars_cons_none _ 'o' _ e3 (by simp [List.isPrefixOf])
  have e5 := lastIndexChars_cons_none _ 'j' _ e4 (by simp [List.isPrefixOf])
  exact lastIndexChars_cons_here _ '/' _ e5 (by simp [List.isPrefixOf])


/-- The environment for the action create, when the job name is a parent, then
`/jobs/`, then a job id without a slash. -/
theorem jobEnv_create (arg : JobArgs) (parent job : String)
    (haction : arg.Action = ActionCreate) (hname : arg.JobName = parent ++ "/jobs/" ++ job)
    (hjob : '/' ∉ job.data) :
    jobEnv arg = some [⟨"ACTION", arg.Action⟩, ⟨"JOB_NAME", arg.JobName⟩,
      ⟨"JOB_PARENT", parent⟩, ⟨"PUBSUB_TOPIC_ID", arg.TopicID⟩, ⟨"SCHEDULE", arg.Schedule⟩,
      ⟨"DATA", arg.Data⟩] := by
  have hdata : arg.JobName.data = parent.data ++ ("/jobs/".data ++ job.data) := by
    rw [hname]; simp [String.data_append]
  have hidx : lastIndexChars "/jobs/".data arg.JobName.data = some (parent.data.length + 0) := by
    rw [hdata]
    exact lastIndexChars_append_left _ _ _ _ (lastIndexChars_jobs_here _ hjob)
  have hlast : LastIndex arg.JobName "/jobs/" = (parent.data.length : Int) := by
    unfold LastIndex
    rw [hidx]
    simp
  have htake : String.mk (arg.JobName.data.take parent.data.length) = parent := by
    rw [hdata, List.take_left]
  unfold jobEnv
  simp only [haction, if_true, hlast, Int.toNat_ofNat, htake]
  have hnn : ¬ ((parent.data.length : Int) < 0) := by omega
  simp [hnn]

/-- Arguments that pass `validateArgs` have an owner. -/
theorem validateArgs_owner (arg : JobArgs) (h : validateArgs arg = none) :
    ∃ owner, arg.Owner = some owner := by
  unfold validateArgs at h
  cases ho : arg.Owner with
  | some owner => exact ⟨owner, rfl⟩
  | none =>
    exfalso
    simp only [ho] at h
    split_ifs at h

/-- What `NewJobOps` returns for arguments that pass `validateArgs` and whose
environment can be built. -/
theorem NewJobOps_valid {τ : Type} (helpers : JobHelpers τ) (arg : JobArgs) (owner : Owner)
    (env : List EnvVar) (hvalid : validateArgs arg = none) (howner : arg.Owner = some owner)
    (henv : jobEnv arg = some env) :
    NewJobOps helpers arg = .job
      { Name := helpers.SchedulerJobName owner arg.Action
        Namespace := owner.Namespace
        Labels := helpers.SchedulerJobLabels owner arg.Action
        OwnerReferences := [NewControllerRef owner]
        BackoffLimit := some 3
        Parallelism := some 1
        Template := helpers.MakePodTemplate arg.Image arg.UID arg.Action arg.Secret env } := by
  unfold NewJobOps
  simp only [hvalid, henv, howner]

/-- C11, at its failing input: `validateArgs` accepts the job name
`xprojects/p/locations/l/jobs/j`, which does not start with `projects/` and so
does not have the documented format. -/
theorem validateArgs_accepts_unanchored_name :
    validateArgs badJobNameArgs = none ∧
    badJobNameArgs.JobName = "xprojects/p/locations/l/jobs/j" ∧
    "projects/".data.isPrefixOf badJobNameArgs.JobName.data = false := by
  decide

/-- C12: for every JobArgs that passes `validateArgs` with the action create
and the job name `projects/P/locations/L/jobs/J`, where J contains no slash
(and so also when P and L contain none), the job `NewJobOps` returns has its
pod template made from an environment in which `JOB_PARENT` is exactly
`projects/P/locations/L`. -/
theorem NewJobOps_job_parent {τ : Type} (helpers : JobHelpers τ) (arg : JobArgs)
    (P L J : String) (hvalid : validateArgs arg = none) (haction : arg.Action = ActionCreate)
    (hname : arg.JobName = "projects/" ++ P ++ "/locations/" ++ L ++ "/jobs/" ++ J)
    (hJ : '/' ∉ J.data) :
    ∃ (j : Job τ) (env : List EnvVar), NewJobOps helpers arg = .job j ∧
      j.Template = helpers.MakePodTemplate arg.Image arg.UID arg.Action arg.Secret env ∧
      (⟨"JOB_PARENT", "projects/" ++ P ++ "/locations/" ++ L⟩ : EnvVar) ∈ env ∧
      ∀ e ∈ env, e.Name = "JOB_PARENT" → e.Value = "projects/" ++ P ++ "/locations/" ++ L := by
  obtain ⟨owner, howner⟩ := validateArgs_owner arg hvalid
  have henv := jobEnv_create arg ("projects/" ++ P ++ "/locations/" ++ L) J haction hname hJ
  refine ⟨_, _, NewJobOps_valid helpers arg owner _ hvalid howner henv, rfl, by simp, ?_⟩
  intro e he hn
  simp only [List.mem_cons, List.mem_singleton, List.not_mem_nil, or_false] at he
  rcases he with rfl | rfl | rfl | rfl | rfl | rfl
  · simp at hn
  · simp at hn
  · rfl
  · simp at hn
  · simp at hn
  · simp at hn

/-- C12, at the creation of `projects/p/locations/l/jobs/j`. -/
theorem NewJobOps_job_parent_witness :
    validateArgs createJobArgs = none ∧ createJobArgs.Action = ActionCreate ∧
    ∃ (j : Job (List EnvVar)) (env : List EnvVar), NewJobOps sampleHelpers createJobArgs = .job j ∧
      j.Template = sampleHelpers.MakePodTemplate createJobArgs.Image createJobArgs.UID
        createJobArgs.Action createJobArgs.Secret env ∧
      (⟨"JOB_PARENT", "projects/" ++ "p" ++ "/locations/" ++ "l"⟩ : EnvVar) ∈ env ∧
      ∀ e ∈ env, e.Name = "JOB_PARENT" →
        e.Value = "projects/" ++ "p" ++ "/locations/" ++ "l" :=
  ⟨by decide, by decide,
    NewJobOps_job_parent sampleHelpers createJobArgs "p" "l" "j" (by decide) (by decide)
      (by decide) (by decide)⟩

/-- C14, at its failing input: `Run` with the action delete and a client, on a
job that exists at the provider, returns nil without a single call to the
provider: nothing is deleted. -/
theorem run_delete_calls_nothing :
    deleteJobOps.Action = ActionDelete ∧
    deleteJobOps.JobName ∈ providerWithJob.Jobs ∧
    deleteJobOps.Run = ⟨none, []⟩ ∧
    ProviderCall.deleteJob deleteJobOps.JobName ∉ deleteJobOps.Run.Calls := by
  decide

/-- C15, at its failing input: `Run` with the action exists, at a provider
that does not have the job, returns nil. -/
theorem run_exists_missing_job_returns_nil :
    existsJobOps.Action = ActionExists ∧
    existsJobOps.JobName ∉ providerWithoutJobs.Jobs ∧
    existsJobOps.Run.Err = none := by
  decide

/-- C16: for every JobOps with a client and the action delete, `Run` returns
nil when the job named JobName is not found at the provider (as it does when
the job is there: it makes no call). -/
theorem run_delete_missing_job (n : JobOps) (client : SchedulerClient)
    (hclient : n.client = some client) (haction : n.Action = ActionDelete)
    (_hmissing : n.JobName ∉ client.Jobs) :
    n.Run.Err = none ∧ n.Run.Calls = [] := by
  have h1 : ¬ (ActionDelete = ActionExists) := by decide
  have h2 : ¬ (ActionDelete = ActionCreate) := by decide
  unfold JobOps.Run
  simp [hclient, haction, h1, h2]

/-- C16, at the deletion of a job at a provider without jobs. -/
theorem run_delete_missing_job_witness :
    deleteMissingJobOps.Action = ActionDelete ∧
    deleteMissingJobOps.JobName ∉ providerWithoutJobs.Jobs ∧
    deleteMissingJobOps.Run.Err = none :=
  ⟨by decide, by decide,
    (run_delete_missing_job deleteMissingJobOps providerWithoutJobs rfl (by decide)
      (by decide)).1⟩

/-! ## Conditions -/

theorem mem_SetCondition (c x : Condition) (l : List Condition) :
    x ∈ SetCondition c l ↔ (x ∈ l ∧ x.ConditionType ≠ c.ConditionType) ∨ x = c := by
  unfold SetCondition
  rw [(List.perm_insertionSort conditionLe _).mem_iff]
  simp

theorem GetCondition_of_unique (t : String) (c : Condition) (l : List Condition)
    (hmem : c ∈ l) (htype : c.ConditionType = t)
    (huniq : ∀ x ∈ l, x.ConditionType = t → x = c) : GetCondition t l = some c := by
  unfold GetCondition
  cases h : l.find? (fun c => decide (c.ConditionType = t)) with
  | none =>
    have := List.find?_eq_none.mp h c hmem
    simp [htype] at this
  | some x =>
    have hx := List.mem_of_find?_eq_some h
    have hp := List.find?_some h
    simp only [decide_eq_true_eq] at hp
    rw [huniq x hx hp]

theorem GetCondition_SetCondition (c : Condition) (l : List Condition) :
    GetCondition c.ConditionType (SetCondition c l) = some c := by
  apply GetCondition_of_unique
  · rw [mem_SetCondition]; exact Or.inr rfl
  · rfl
  · intro x hx ht
    rcases (mem_SetCondition c x l).mp hx with ⟨_, hne⟩ | rfl
    · exact absurd ht hne
    · rfl

theorem GetCondition_SetCondition_SetCondition (c d : Condition) (l : List Condition)
    (hne : d.ConditionType ≠ c.ConditionType) :
    GetCondition c.ConditionType (SetCondition d (SetCondition c l)) = some c := by
  apply GetCondition_of_unique
  · rw [mem_SetCondition]
    exact Or.inl ⟨(mem_SetCondition c c l).mpr (Or.inr rfl), fun h => hne h.symm⟩
  · rfl
  · intro x hx ht
    rcases (mem_SetCondition d x _).mp hx with ⟨hx2, _⟩ | rfl
    · rcases (mem_SetCondition c x l).mp hx2 with ⟨_, hne2⟩ | rfl
      · exact absurd ht hne2
      · rfl
    · exact absurd ht hne

/-- After `MarkFalse` of PullSubscriptionReady the condition is False with the
reason and message given. -/
theorem happy_ne_pullSubscriptionReady : sourceCondSet.Happy ≠ PullSubscriptionReady := by
  decide

theorem GetCondition_MarkFalse (reason message : String) (l : List Condition) :
    GetCondition PullSubscriptionReady
        (MarkFalse sourceCondSet PullSubscriptionReady reason message l) =
      some ⟨PullSubscriptionReady, .ConditionFalse, reason, message⟩ := by
  have hdep : PullSubscriptionReady ∈ sourceCondSet.Dependents := by decide
  unfold MarkFalse
  simp only [hdep, if_true]
  exact GetCondition_SetCondition_SetCondition
    ⟨PullSubscriptionReady, .ConditionFalse, reason, message⟩ _ l
    happy_ne_pullSubscriptionReady

theorem GetCondition_MarkUnknown (reason message : String) (l : List Condition) :
    GetCondition PullSubscriptionReady
        (MarkUnknown sourceCondSet PullSubscriptionReady reason message l) =
      some ⟨PullSubscriptionReady, .ConditionUnknown, reason, message⟩ := by
  have hdep : PullSubscriptionReady ∈ sourceCondSet.Dependents := by decide
  have hget := GetCondition_SetCondition
    ⟨PullSubscriptionReady, .ConditionUnknown, reason, message⟩ l
  have hany : (sourceCondSet.Dependents.any fun d =>
      match GetCondition d (SetCondition
        ⟨PullSubscriptionReady, .ConditionUnknown, reason, message⟩ l) with
      | some c => decide (c.Status = .ConditionFalse)
      | none => false) = false := by
    simp only [sourceCondSet, List.any_cons, List.any_nil, Bool.or_false]
    rw [hget]
    simp
  unfold MarkUnknown
  simp only [hany, hdep, if_true, Bool.false_eq_true, if_false]
  exact GetCondition_SetCondition_SetCondition
    ⟨PullSubscriptionReady, .ConditionUnknown, reason, message⟩ _ l
    happy_ne_pullSubscriptionReady

theorem GetCondition_MarkTrue (l : List Condition) :
    GetCondition ConditionReady (MarkTrue sourceCondSet PullSubscriptionReady l) =
      some ⟨ConditionReady, .ConditionTrue, "", ""⟩ ∧
    GetCondition PullSubscriptionReady (MarkTrue sourceCondSet PullSubscriptionReady l) =
      some ⟨PullSubscriptionReady, .ConditionTrue, "", ""⟩ := by
  have hget := GetCondition_SetCondition ⟨PullSubscriptionReady, .ConditionTrue, "", ""⟩ l
  have hall : (sourceCondSet.Dependents.all fun d =>
      match GetCondition d (SetCondition ⟨PullSubscriptionReady, .ConditionTrue, "", ""⟩ l) with
      | some c => decide (c.Status = .ConditionTrue)
      | none => false) = true := by
    simp only [sourceCondSet, List.all_cons, List.all_nil, Bool.and_true]
    rw [hget]
    simp
  unfold MarkTrue
  simp only [hall, if_true]
  exact ⟨GetCondition_SetCondition ⟨ConditionReady, .ConditionTrue, "", ""⟩ _,
    GetCondition_SetCondition_SetCondition ⟨PullSubscriptionReady, .ConditionTrue, "", ""⟩ _ l
      happy_ne_pullSubscriptionReady⟩

/-! ## One pass of a reconciler -/

theorem updateStatus_status (fuel attempts conflicts : Nat) (listerCopy serverCopy : Resource)
    (desired : ResourceStatus) :
    ∀ u ∈ (updateStatus fuel attempts conflicts listerCopy serverCopy desired).1,
      u.Status = desired := by
  induction fuel generalizing attempts conflicts with
  | zero => simp [updateStatus]
  | succ fuel ih =>
    intro u hu
    rw [updateStatus] at hu
    simp only [] at hu
    generalize (if attempts = 0 then listerCopy else serverCopy) = existing at hu
    by_cases he : existing.Status = desired
    · simp [he] at hu
    · cases conflicts with
      | zero =>
        simp only [he, if_false, List.mem_singleton] at hu
        subst hu
        rfl
      | succ c =>
        simp only [he, if_false, List.mem_cons] at hu
        rcases hu with rfl | hu
        · rfl
        · exact ih _ _ u hu

theorem writeStatus_status (maxAttempts conflicts : Nat) (original serverCopy : Resource)
    (desired : ResourceStatus) :
    ∀ u ∈ (writeStatus maxAttempts conflicts original serverCopy desired).1,
      u.Status = desired := by
  unfold writeStatus
  split
  · simp
  · exact updateStatus_status _ _ _ _ _ _

theorem writeStatus_ne_nil (maxAttempts conflicts : Nat) (original serverCopy : Resource)
    (desired : ResourceStatus) (hfuel : 0 < maxAttempts) (hne : original.Status ≠ desired) :
    (writeStatus maxAttempts conflicts original serverCopy desired).1 ≠ [] := by
  obtain ⟨fuel, rfl⟩ : ∃ fuel, maxAttempts = fuel + 1 := ⟨maxAttempts - 1, by omega⟩
  unfold writeStatus
  simp only [hne, if_false]
  unfold updateStatus
  simp only [if_true, hne, if_false]
  cases conflicts <;> simp

theorem writeStatus_one_conflict (maxAttempts : Nat) (original serverCopy : Resource)
    (desired : ResourceStatus) (hfuel : 2 ≤ maxAttempts) (hne : original.Status ≠ desired)
    (hserver : serverCopy.Status = original.Status) :
    writeStatus maxAttempts 1 original serverCopy desired =
      ([{ original with Status := desired }, { serverCopy with Status := desired }], true) := by
  obtain ⟨fuel, rfl⟩ : ∃ fuel, maxAttempts = fuel + 2 := ⟨maxAttempts - 2, by omega⟩
  have hne2 : serverCopy.Status ≠ desired := by rw [hserver]; exact hne
  unfold writeStatus
  simp only [hne, if_false]
  unfold updateStatus
  simp only [if_true, hne, if_false]
  unfold updateStatus
  simp [hne2]

/-- Ensuring the finalizer changes nothing of an object but its finalizers. -/
theorem setFinalizer_object (finalizerName : String) (original : Resource) :
    (setFinalizer finalizerName original).1 =
      { original with Finalizers := (setFinalizer finalizerName original).1.Finalizers } := by
  unfold setFinalizer updateFinalizersFiltered
  by_cases h : finalizerName ∈ original.Finalizers <;> simp [h]

/-- The pass over an object that is there and is not being deleted. -/
theorem Reconcile_live (r : KindReconciler) (cluster : Cluster) (key ns name : String)
    (original : Resource) (hkey : SplitMetaNamespaceKey key = some (ns, name))
    (hobject : getResource cluster.Objects ns name = some original)
    (hlive : original.Deleted = false) :
    (Reconcile r cluster key).Effects.StatusUpdates =
      (writeStatus r.MaxUpdateAttempts cluster.UpdateConflicts original
        (setFinalizer r.FinalizerName original).1
        (r.ReconcileKind cluster (setFinalizer r.FinalizerName original).1).Object.Status).1 ∧
    (Reconcile r cluster key).Effects.Creates =
      (r.ReconcileKind cluster (setFinalizer r.FinalizerName original).1).Creates ∧
    (Reconcile r cluster key).Effects.Patches = (setFinalizer r.FinalizerName original).2.1 ∧
    ((writeStatus r.MaxUpdateAttempts cluster.UpdateConflicts original
        (setFinalizer r.FinalizerName original).1
        (r.ReconcileKind cluster (setFinalizer r.FinalizerName original).1).Object.Status).2
        = true →
      (Reconcile r cluster key).Err = none ∧
      (Reconcile r cluster key).Effects.Events =
        (setFinalizer r.FinalizerName original).2.2 ++
          (r.ReconcileKind cluster (setFinalizer r.FinalizerName original).1).Event.toList) := by
  unfold Reconcile
  simp only [hkey, hobject, hlive, if_true]
  split <;> simp_all

/-- The status of the PullSubscription a pass works with: the one of the
PullSubscription the lister has, the empty one when it has none. -/
theorem ensurePullSubscription_status (kind : SourceKind) (cluster : Cluster)
    (source : Resource) :
    (ensurePullSubscription kind cluster source).1.Status =
      match getResource cluster.PullSubscriptions source.Namespace source.Name with
      | some ps => ps.Status
      | none => ⟨0, [], none, "", ""⟩ := by
  unfold ensurePullSubscription
  cases getResource cluster.PullSubscriptions source.Namespace source.Name with
  | none => simp [MakePullSubscription]
  | some ps =>
    simp only []
    split <;> rfl

/-- The status a source gets when the Ready condition of its PullSubscription
is not True: the condition is taken over, the rest of the status is kept. -/
theorem sourceReconcileKind_not_ready (kind : SourceKind) (cluster : Cluster)
    (source : Resource) :
    (∀ pc, GetCondition ConditionReady
        (ensurePullSubscription kind cluster source).1.Status.Conditions = some pc →
      pc.Status ≠ .ConditionTrue →
      GetCondition PullSubscriptionReady
          (sourceReconcileKind kind cluster source).Object.Status.Conditions =
        some ⟨PullSubscriptionReady, pc.Status, pc.Reason, pc.Message⟩ ∧
      (sourceReconcileKind kind cluster source).Object.Status.SinkURI = source.Status.SinkURI ∧
      (sourceReconcileKind kind cluster source).Object.Status.SubscriptionID =
        source.Status.SubscriptionID) ∧
    (GetCondition ConditionReady
        (ensurePullSubscription kind cluster source).1.Status.Conditions = none →
      GetCondition PullSubscriptionReady
          (sourceReconcileKind kind cluster source).Object.Status.Conditions =
        some ⟨PullSubscriptionReady, .ConditionUnknown, "PullSubscriptionNotConfigured",
          "PullSubscription has not yet been reconciled"⟩ ∧
      (sourceReconcileKind kind cluster source).Object.Status.SinkURI = source.Status.SinkURI ∧
      (sourceReconcileKind kind cluster source).Object.Status.SubscriptionID =
        source.Status.SubscriptionID) := by
  constructor
  · intro pc hpc hnt
    unfold sourceReconcileKind propagatePullSubscriptionStatus
    simp only [hpc]
    obtain ⟨t, s, r, m⟩ := pc
    cases s with
    | ConditionTrue => exact absurd rfl hnt
    | ConditionFalse => exact ⟨GetCondition_MarkFalse _ _ _, by trivial, by trivial⟩
    | ConditionUnknown => exact ⟨GetCondition_MarkUnknown _ _ _, by trivial, by trivial⟩
  · intro hnone
    unfold sourceReconcileKind propagatePullSubscriptionStatus
    simp only [hnone]
    exact ⟨GetCondition_MarkUnknown _ _ _, by trivial, by trivial⟩

/-- The result of the pass over a source whose PullSubscription is ready. -/
theorem sourceReconcileKind_ready (kind : SourceKind) (cluster : Cluster)
    (source : Resource) (pc : Condition)
    (hpc : GetCondition ConditionReady
      (ensurePullSubscription kind cluster source).1.Status.Conditions = some pc)
    (htrue : pc.Status = .ConditionTrue) :
    (sourceReconcileKind kind cluster source).Object.Status =
      sourceReadyStatus source (ensurePullSubscription kind cluster source).1 ∧
    (sourceReconcileKind kind cluster source).Event =
      some ⟨EventTypeNormal, kind.Kind ++ "Reconciled",
        kind.Kind ++ " reconciled: " ++ quote (source.Namespace ++ "/" ++ source.Name)⟩ := by
  obtain ⟨t, s, r, m⟩ := pc
  simp only at htrue
  subst htrue
  unfold sourceReconcileKind propagatePullSubscriptionStatus
  simp only [hpc]
  exact ⟨by trivial, by trivial⟩

/-- C17: for every reconcile key that is malformed or that names an object that
does not exist, `Reconcile` succeeds as a no-op, whatever the kind: no status
update, nothing created, no finalizer patched, no event; and the key
`too/many/parts` is malformed. -/
theorem Reconcile_unknown_key_is_noop (r : KindReconciler) (cluster : Cluster) (key : String)
    (h : SplitMetaNamespaceKey key = none ∨
      ∃ ns name, SplitMetaNamespaceKey key = some (ns, name) ∧
        getResource cluster.Objects ns name = none) :
    Reconcile r cluster key = ⟨none, noEffects⟩ ∧
    (Reconcile r cluster key).Err = none ∧
    (Reconcile r cluster key).Effects.StatusUpdates = [] ∧
    (Reconcile r cluster key).Effects.Creates = [] ∧
    (Reconcile r cluster key).Effects.Patches = [] ∧
    (Reconcile r cluster key).Effects.Events = [] ∧
    SplitMetaNamespaceKey "too/many/parts" = none := by
  have hr : Reconcile r cluster key = ⟨none, noEffects⟩ := by
    unfold Reconcile
    rcases h with h | ⟨ns, name, hk, hg⟩
    · simp only [h]
    · simp only [hk, hg]
  rw [hr]
  exact ⟨rfl, rfl, rfl, rfl, rfl, rfl, by decide⟩

/-- C17, at the keys of the table tests: a malformed key, and a key that names
no object of the cluster. -/
theorem Reconcile_unknown_key_is_noop_witness :
    SplitMetaNamespaceKey "too/many/parts" = none ∧
    Reconcile (sourceReconciler cloudBuildSourceKind 5) clusterStatusFalse "too/many/parts" =
      ⟨none, noEffects⟩ ∧
    Reconcile (sourceReconciler cloudBuildSourceKind 5) clusterStatusFalse "foo/not-found" =
      ⟨none, noEffects⟩ :=
  ⟨by decide,
    (Reconcile_unknown_key_is_noop (sourceReconciler cloudBuildSourceKind 5) clusterStatusFalse
      "too/many/parts" (Or.inl (by decide))).1,
    (Reconcile_unknown_key_is_noop (sourceReconciler cloudBuildSourceKind 5) clusterStatusFalse
      "foo/not-found" (Or.inr ⟨"foo", "not-found", by decide, by decide⟩)).1⟩

/-- C18: for every source that is not being deleted, every status update of
one reconcile pass carries the status of the owned PullSubscription: when its
Ready condition is False or Unknown with reason r and message m, the source's
PullSubscriptionReady condition has that status, r and m; when the
PullSubscription has no Ready condition yet or was just created, the condition
is Unknown with reason `PullSubscriptionNotConfigured` and message
`PullSubscription has not yet been reconciled`; sink URI and subscription id
stay as they were (unset when they were unset). A status update is sent unless
the source had that condition already or no attempt is allowed. -/
theorem source_reflects_pullSubscription_status (kind : SourceKind) (maxAttempts : Nat)
    (cluster : Cluster) (key ns name : String) (source : Resource)
    (hkey : SplitMetaNamespaceKey key = some (ns, name))
    (hsource : getResource cluster.Objects ns name = some source)
    (hlive : source.Deleted = false) :
    (∀ ps pc, getResource cluster.PullSubscriptions source.Namespace source.Name = some ps →
      GetCondition ConditionReady ps.Status.Conditions = some pc →
      pc.Status ≠ .ConditionTrue →
      (∀ u ∈ (Reconcile (sourceReconciler kind maxAttempts) cluster key).Effects.StatusUpdates,
        GetCondition PullSubscriptionReady u.Status.Conditions =
          some ⟨PullSubscriptionReady, pc.Status, pc.Reason, pc.Message⟩ ∧
        u.Status.SinkURI = source.Status.SinkURI ∧
        u.Status.SubscriptionID = source.Status.SubscriptionID) ∧
      (0 < maxAttempts →
        GetCondition PullSubscriptionReady source.Status.Conditions ≠
          some ⟨PullSubscriptionReady, pc.Status, pc.Reason, pc.Message⟩ →
        (Reconcile (sourceReconciler kind maxAttempts) cluster key).Effects.StatusUpdates
          ≠ [])) ∧
    ((getResource cluster.PullSubscriptions source.Namespace source.Name = none ∨
        ∃ ps, getResource cluster.PullSubscriptions source.Namespace source.Name = some ps ∧
          GetCondition ConditionReady ps.Status.Conditions = none) →
      (∀ u ∈ (Reconcile (sourceReconciler kind maxAttempts) cluster key).Effects.StatusUpdates,
        GetCondition PullSubscriptionReady u.Status.Conditions =
          some ⟨PullSubscriptionReady, .ConditionUnknown, "PullSubscriptionNotConfigured",
            "PullSubscription has not yet been reconciled"⟩ ∧
        u.Status.SinkURI = source.Status.SinkURI ∧
        u.Status.SubscriptionID = source.Status.SubscriptionID) ∧
      (0 < maxAttempts →
        GetCondition PullSubscriptionReady source.Status.Conditions ≠
          some ⟨PullSubscriptionReady, .ConditionUnknown, "PullSubscriptionNotConfigured",
            "PullSubscription has not yet been reconciled"⟩ →
        (Reconcile (sourceReconciler kind maxAttempts) cluster key).Effects.StatusUpdates
          ≠ [])) := by
  obtain ⟨hupd, -, -, -⟩ := Reconcile_live (sourceReconciler kind maxAttempts) cluster key ns name
    source hkey hsource hlive
  have hobj := setFinalizer_object (sourceReconciler kind maxAttempts).FinalizerName source
  generalize (setFinalizer (sourceReconciler kind maxAttempts).FinalizerName source).1 = fin
    at hupd hobj
  have hns : fin.Namespace = source.Namespace := by rw [hobj]
  have hname : fin.Name = source.Name := by rw [hobj]
  have hst : fin.Status = source.Status := by rw [hobj]
  have hkind : (sourceReconciler kind maxAttempts).ReconcileKind = sourceReconcileKind kind := rfl
  have hmax : (sourceReconciler kind maxAttempts).MaxUpdateAttempts = maxAttempts := rfl
  rw [hkind, hmax] at hupd
  have hchild := ensurePullSubscription_status kind cluster fin
  rw [hns, hname] at hchild
  obtain ⟨hnr, hnone⟩ := sourceReconcileKind_not_ready kind cluster fin
  rw [hst] at hnr hnone
  constructor
  · intro ps pc hps hpc hnt
    rw [hps] at hchild
    simp only at hchild
    rw [hchild] at hnr
    obtain ⟨h1, h2, h3⟩ := hnr pc hpc hnt
    constructor
    · intro u hu
      rw [hupd] at hu
      rw [writeStatus_status _ _ _ _ _ u hu]
      exact ⟨h1, h2, h3⟩
    · intro hfuel hne
      rw [hupd]
      apply writeStatus_ne_nil _ _ _ _ _ hfuel
      intro heq
      apply hne
      rw [heq]
      exact h1
  · intro hcase
    have hcond : GetCondition ConditionReady
        (ensurePullSubscription kind cluster fin).1.Status.Conditions = none := by
      rcases hcase with hnoPs | ⟨ps, hps, hpc⟩
      · rw [hnoPs] at hchild
        simp only at hchild
        rw [hchild]
        rfl
      · rw [hps] at hchild
        simp only at hchild
        rw [hchild]
        exact hpc
    obtain ⟨h1, h2, h3⟩ := hnone hcond
    constructor
    · intro u hu
      rw [hupd] at hu
      rw [writeStatus_status _ _ _ _ _ u hu]
      exact ⟨h1, h2, h3⟩
    · intro hfuel hne
      rw [hupd]
      apply writeStatus_ne_nil _ _ _ _ _ hfuel
      intro heq
      apply hne
      rw [heq]
      exact h1

/-- C18, at the test `pullsubscription exists and the status is false`. -/
theorem source_reflects_pullSubscription_status_witness :
    SplitMetaNamespaceKey "testnamespace/my-test-build" =
      some ("testnamespace", "my-test-build") ∧
    getResource clusterStatusFalse.Objects "testnamespace" "my-test-build" =
      some testBuildSource ∧
    testBuildSource.Deleted = false ∧
    (∀ u ∈ (Reconcile (sourceReconciler cloudBuildSourceKind 5) clusterStatusFalse
        "testnamespace/my-test-build").Effects.StatusUpdates,
      GetCondition PullSubscriptionReady u.Status.Conditions =
        some ⟨PullSubscriptionReady, .ConditionFalse, "PullSubscriptionFalse",
          "status false test message"⟩ ∧
      u.Status.SinkURI = testBuildSource.Status.SinkURI ∧
      u.Status.SubscriptionID = testBuildSource.Status.SubscriptionID) ∧
    (Reconcile (sourceReconciler cloudBuildSourceKind 5) clusterStatusFalse
      "testnamespace/my-test-build").Effects.StatusUpdates ≠ [] :=
  ⟨by decide, by decide, by decide,
    ((source_reflects_pullSubscription_status cloudBuildSourceKind 5 clusterStatusFalse
      "testnamespace/my-test-build" "testnamespace" "my-test-build" testBuildSource
      (by decide) (by decide) (by decide)).1
      (testPullSubscription
        ⟨0, [⟨"Ready", .ConditionFalse, "PullSubscriptionFalse", "status false test message"⟩],
          none, "", ""⟩)
      ⟨"Ready", .ConditionFalse, "PullSubscriptionFalse", "status false test message"⟩
      (by decide) (by decide) (by decide)).1,
    by decide⟩

theorem sourceReadyStatus_congr (source fin ps child : Resource)
    (hstatus : fin.Status = source.Status) (hgen : fin.Generation = source.Generation)
    (hchild : child.Status = ps.Status) :
    sourceReadyStatus fin child = sourceReadyStatus source ps := by
  unfold sourceReadyStatus
  rw [hstatus, hgen, hchild]

/-- C19: if the first status update of a pass over a source whose
PullSubscription is ready is rejected with a conflict, and two attempts are
allowed, the write is retried against the object as the server has it (with
the finalizer the pass added); the status persisted is the one computed in
this pass (Ready True, sink URI and subscription id of the PullSubscription,
the generation observed), the pass returns no error, and its last event is the
success event of the kind. -/
theorem source_status_write_survives_conflict (kind : SourceKind) (maxAttempts : Nat)
    (cluster : Cluster) (key ns name : String) (source ps : Resource) (pc : Condition)
    (hkey : SplitMetaNamespaceKey key = some (ns, name))
    (hsource : getResource cluster.Objects ns name = some source)
    (hlive : source.Deleted = false)
    (hps : getResource cluster.PullSubscriptions source.Namespace source.Name = some ps)
    (hpc : GetCondition ConditionReady ps.Status.Conditions = some pc)
    (htrue : pc.Status = .ConditionTrue)
    (hconflict : cluster.UpdateConflicts = 1) (hattempts : 2 ≤ maxAttempts)
    (hchanged : source.Status ≠ sourceReadyStatus source ps) :
    (Reconcile (sourceReconciler kind maxAttempts) cluster key).Err = none ∧
    (Reconcile (sourceReconciler kind maxAttempts) cluster key).Effects.StatusUpdates =
      [{ source with Status := sourceReadyStatus source ps },
        { (setFinalizer kind.FinalizerName source).1 with
          Status := sourceReadyStatus source ps }] ∧
    kind.FinalizerName ∈ (setFinalizer kind.FinalizerName source).1.Finalizers ∧
    GetCondition ConditionReady (sourceReadyStatus source ps).Conditions =
      some ⟨ConditionReady, .ConditionTrue, "", ""⟩ ∧
    (sourceReadyStatus source ps).SinkURI = ps.Status.SinkURI ∧
    (sourceReadyStatus source ps).SubscriptionID = ps.Status.SubscriptionID ∧
    (sourceReadyStatus source ps).ObservedGeneration = source.Generation ∧
    (Reconcile (sourceReconciler kind maxAttempts) cluster key).Effects.Events.getLast? =
      some ⟨EventTypeNormal, kind.Kind ++ "Reconciled",
        kind.Kind ++ " reconciled: " ++ quote (source.Namespace ++ "/" ++ source.Name)⟩ := by
  obtain ⟨hupd, -, -, hok⟩ := Reconcile_live (sourceReconciler kind maxAttempts) cluster key ns
    name source hkey hsource hlive
  have hfinmem : kind.FinalizerName ∈ (setFinalizer kind.FinalizerName source).1.Finalizers := by
    unfold setFinalizer updateFinalizersFiltered
    by_cases h : kind.FinalizerName ∈ source.Finalizers <;> simp [h]
  have hfn : (sourceReconciler kind maxAttempts).FinalizerName = kind.FinalizerName := rfl
  have hkind : (sourceReconciler kind maxAttempts).ReconcileKind = sourceReconcileKind kind := rfl
  have hmax : (sourceReconciler kind maxAttempts).MaxUpdateAttempts = maxAttempts := rfl
  rw [hfn, hkind, hmax, hconflict] at hupd hok
  have hobj := setFinalizer_object kind.FinalizerName source
  generalize (setFinalizer kind.FinalizerName source).1 = fin at hupd hok hobj hfinmem ⊢
  have hns : fin.Namespace = source.Namespace := by rw [hobj]
  have hname : fin.Name = source.Name := by rw [hobj]
  have hst : fin.Status = source.Status := by rw [hobj]
  have hgen : fin.Generation = source.Generation := by rw [hobj]
  have hchild := ensurePullSubscription_status kind cluster fin
  rw [hns, hname, hps] at hchild
  simp only at hchild
  have hpc2 : GetCondition ConditionReady
      (ensurePullSubscription kind cluster fin).1.Status.Conditions = some pc := by
    rw [hchild]; exact hpc
  obtain ⟨hstatus, hevent⟩ := sourceReconcileKind_ready kind cluster fin pc hpc2 htrue
  rw [sourceReadyStatus_congr source fin ps _ hst hgen hchild] at hstatus
  rw [hstatus, writeStatus_one_conflict maxAttempts source fin _ hattempts hchanged hst]
    at hupd hok
  obtain ⟨herr, hevents⟩ := hok rfl
  refine ⟨herr, hupd, hfinmem, (GetCondition_MarkTrue _).1, rfl, rfl, rfl, ?_⟩
  rw [hevents, hevent, hns, hname]
  simp

/-- C19, at the test `pullsubscription exists and ready, with retry`. -/
theorem source_status_write_survives_conflict_witness :
    clusterReadyWithConflict.UpdateConflicts = 1 ∧
    (Reconcile (sourceReconciler cloudBuildSourceKind 5) clusterReadyWithConflict
      "testnamespace/my-test-build").Err = none ∧
    ((Reconcile (sourceReconciler cloudBuildSourceKind 5) clusterReadyWithConflict
      "testnamespace/my-test-build").Effects.StatusUpdates.map fun u => u.Finalizers) =
      [[], ["cloudbuildsources.events.cloud.google.com"]] ∧
    (Reconcile (sourceReconciler cloudBuildSourceKind 5) clusterReadyWithConflict
      "testnamespace/my-test-build").Effects.Events.getLast? =
      some ⟨EventTypeNormal, "CloudBuildSource" ++ "Reconciled",
        "CloudBuildSource" ++ " reconciled: " ++
          quote ("testnamespace" ++ "/" ++ "my-test-build")⟩ :=
  ⟨rfl,
    (source_status_write_survives_conflict cloudBuildSourceKind 5 clusterReadyWithConflict
      "testnamespace/my-test-build" "testnamespace" "my-test-build" testBuildSource
      (testPullSubscription ⟨0, [⟨"Ready", .ConditionTrue, "", ""⟩],
        some "http://sink.mynamespace.svc.cluster.local", "subID", ""⟩)
      ⟨"Ready", .ConditionTrue, "", ""⟩ (by decide) (by decide) (by decide) (by decide)
      (by decide) (by decide) rfl (by decide) (by decide)).1,
    by decide,
    (source_status_write_survives_conflict cloudBuildSourceKind 5 clusterReadyWithConflict
      "testnamespace/my-test-build" "testnamespace" "my-test-build" testBuildSource
      (testPullSubscription ⟨0, [⟨"Ready", .ConditionTrue, "", ""⟩],
        some "http://sink.mynamespace.svc.cluster.local", "subID", ""⟩)
      ⟨"Ready", .ConditionTrue, "", ""⟩ (by decide) (by decide) (by decide) (by decide)
      (by decide) (by decide) rfl (by decide) (by decide)).2.2.2.2.2.2.2⟩

/-- The pass over an object that is being deleted. -/
theorem Reconcile_deleted (r : KindReconciler) (cluster : Cluster) (key ns name : String)
    (original : Resource) (hkey : SplitMetaNamespaceKey key = some (ns, name))
    (hobject : getResource cluster.Objects ns name = some original)
    (hdeleted : original.Deleted = true) :
    Reconcile r cluster key =
      ⟨none,
        { StatusUpdates := []
          Creates := []
          Updates := []
          Patches := (clearFinalizer r.FinalizerName original (r.FinalizeKind original).Event).2.1
          Events := (clearFinalizer r.FinalizerName original (r.FinalizeKind original).Event).2.2
            ++ (r.FinalizeKind original).Event.toList
          ProviderDeletes := (r.FinalizeKind original).ProviderDeletes }⟩ := by
  unfold Reconcile
  simp only [hkey, hobject, hdeleted, Bool.true_eq_false, if_false]

/-- A failed cleanup leaves the finalizers alone. -/
theorem clearFinalizer_warning (finalizerName : String) (original : Resource)
    (reason message : String) :
    (clearFinalizer finalizerName original
      (some ⟨EventTypeWarning, reason, message⟩)).2 = ([], []) := by
  have hne : ¬ (EventTypeWarning = EventTypeNormal) := by decide
  unfold clearFinalizer updateFinalizersFiltered
  by_cases h : finalizerName ∈ original.Finalizers <;> simp [h, hne]

/-- A cleanup that went through removes the finalizer, by a patch when the
object holds it. -/
theorem clearFinalizer_none (finalizerName : String) (original : Resource) :
    (clearFinalizer finalizerName original none).2 =
      if finalizerName ∈ original.Finalizers then
        ([⟨original.Namespace, original.Name,
            original.Finalizers.filter fun f => f ≠ finalizerName⟩],
          [⟨EventTypeNormal, "FinalizerUpdate",
            "Updated " ++ quote original.Name ++ " finalizers"⟩])
      else ([], []) := by
  unfold clearFinalizer updateFinalizersFiltered
  by_cases h : finalizerName ∈ original.Finalizers <;> simp [h]

/-- C20: for every PullSubscription whose deletion timestamp is set: if the
provider's delete of the subscription fails with an error e, the pass keeps
the finalizer (no patch), records exactly one event, the Warning
`SubscriptionDeleteFailed` with message `Failed to delete Pub/Sub
subscription: ` followed by e, and writes no status update; if the delete
succeeds or the subscription is not found, the pass removes the finalizer (a
patch without it when the object holds it), records no Warning and writes no
status update. -/
theorem pullSubscription_deletion (finalizerName : String) (maxAttempts : Nat)
    (reconcileKind : Cluster → Resource → KindResult)
    (deleteSubscription : String → DeleteResult) (cluster : Cluster) (key ns name : String)
    (ps : Resource) (hkey : SplitMetaNamespaceKey key = some (ns, name))
    (hps : getResource cluster.Objects ns name = some ps) (hdeleted : ps.Deleted = true) :
    (∀ e, deleteSubscription ps.Status.SubscriptionID = .failed e →
      (Reconcile (pullSubscriptionReconciler finalizerName maxAttempts reconcileKind
        deleteSubscription) cluster key).Effects.Patches = [] ∧
      (Reconcile (pullSubscriptionReconciler finalizerName maxAttempts reconcileKind
        deleteSubscription) cluster key).Effects.Events =
        [⟨EventTypeWarning, "SubscriptionDeleteFailed",
          "Failed to delete Pub/Sub subscription: " ++ e⟩] ∧
      (Reconcile (pullSubscriptionReconciler finalizerName maxAttempts reconcileKind
        deleteSubscription) cluster key).Effects.StatusUpdates = []) ∧
    ((deleteSubscription ps.Status.SubscriptionID = .deleted ∨
        deleteSubscription ps.Status.SubscriptionID = .notFound) →
      (finalizerName ∈ ps.Finalizers →
        (Reconcile (pullSubscriptionReconciler finalizerName maxAttempts reconcileKind
          deleteSubscription) cluster key).Effects.Patches =
          [⟨ps.Namespace, ps.Name, ps.Finalizers.filter fun f => f ≠ finalizerName⟩]) ∧
      (∀ p ∈ (Reconcile (pullSubscriptionReconciler finalizerName maxAttempts reconcileKind
          deleteSubscription) cluster key).Effects.Patches, finalizerName ∉ p.Finalizers) ∧
      (∀ ev ∈ (Reconcile (pullSubscriptionReconciler finalizerName maxAttempts reconcileKind
          deleteSubscription) cluster key).Effects.Events, ev.EventType ≠ EventTypeWarning) ∧
      (Reconcile (pullSubscriptionReconciler finalizerName maxAttempts reconcileKind
        deleteSubscription) cluster key).Effects.StatusUpdates = []) := by
  have hrec := Reconcile_deleted (pullSubscriptionReconciler finalizerName maxAttempts
    reconcileKind deleteSubscription) cluster key ns name ps hkey hps hdeleted
  have hfk : (pullSubscriptionReconciler finalizerName maxAttempts reconcileKind
      deleteSubscription).FinalizeKind = pullSubscriptionFinalizeKind deleteSubscription := rfl
  have hfn : (pullSubscriptionReconciler finalizerName maxAttempts reconcileKind
      deleteSubscription).FinalizerName = finalizerName := rfl
  rw [hfk, hfn] at hrec
  rw [hrec]
  constructor
  · intro e he
    have hev : (pullSubscriptionFinalizeKind deleteSubscription ps).Event =
        some ⟨EventTypeWarning, "SubscriptionDeleteFailed",
          "Failed to delete Pub/Sub subscription: " ++ e⟩ := by
      unfold pullSubscriptionFinalizeKind
      rw [he]
    rw [hev]
    have hclear := clearFinalizer_warning finalizerName ps "SubscriptionDeleteFailed"
      ("Failed to delete Pub/Sub subscription: " ++ e)
    have h1 := congrArg Prod.fst hclear
    have h2 := congrArg Prod.snd hclear
    simp only at h1 h2
    simp [h1, h2]
  · intro hok
    have hev : (pullSubscriptionFinalizeKind deleteSubscription ps).Event = none := by
      unfold pullSubscriptionFinalizeKind
      rcases hok with h | h <;> rw [h]
    rw [hev]
    have hclear := clearFinalizer_none finalizerName ps
    have hwn : ¬ (EventTypeNormal = EventTypeWarning) := by decide
    by_cases hmem : finalizerName ∈ ps.Finalizers
    · simp only [hmem, if_true] at hclear
      have h1 := congrArg Prod.fst hclear
      have h2 := congrArg Prod.snd hclear
      simp only at h1 h2
      simp [h1, h2, hwn]
    · simp only [hmem, if_false] at hclear
      have h1 := congrArg Prod.fst hclear
      have h2 := congrArg Prod.snd hclear
      simp only at h1 h2
      simp [h1, h2, hmem]

/-- C20, at a PullSubscription that is being deleted and holds the finalizer,
with a provider whose delete fails. -/
theorem pullSubscription_deletion_witness :
    deletedPullSubscription.Deleted = true ∧
    failingDelete deletedPullSubscription.Status.SubscriptionID =
      .failed "subscription-delete-induced-error" ∧
    (Reconcile (pullSubscriptionReconciler "pullsubscriptions.internal.events.cloud.google.com"
      5 (fun _ ps => ⟨ps, [], [], none⟩) failingDelete) ⟨[deletedPullSubscription], [], 0⟩
      "testnamespace/source").Effects.Patches = [] ∧
    (Reconcile (pullSubscriptionReconciler "pullsubscriptions.internal.events.cloud.google.com"
      5 (fun _ ps => ⟨ps, [], [], none⟩) failingDelete) ⟨[deletedPullSubscription], [], 0⟩
      "testnamespace/source").Effects.Events =
      [⟨EventTypeWarning, "SubscriptionDeleteFailed",
        "Failed to delete Pub/Sub subscription: " ++ "subscription-delete-induced-error"⟩] ∧
    (Reconcile (pullSubscriptionReconciler "pullsubscriptions.internal.events.cloud.google.com"
      5 (fun _ ps => ⟨ps, [], [], none⟩) failingDelete) ⟨[deletedPullSubscription], [], 0⟩
      "testnamespace/source").Effects.StatusUpdates = [] :=
  ⟨rfl, rfl,
    (pullSubscription_deletion "pullsubscriptions.internal.events.cloud.google.com" 5
      (fun _ ps => ⟨ps, [], [], none⟩) failingDelete ⟨[deletedPullSubscription], [], 0⟩
      "testnamespace/source" "testnamespace" "source" deletedPullSubscription (by decide)
      (by decide) rfl).1 "subscription-delete-induced-error" rfl⟩

/-! ## Scheduler jobs: the checks of the arguments -/

/-- C23: `validateArgs` returns the error of the first check that fails, in the
order UID, Image, Action, JobName, format of JobName, secret, owner and, only
for the action create, TopicID, Schedule and Data; it returns nil exactly when
no check fails, and for any other action TopicID, Schedule and Data are not
looked at. -/
theorem validateArgs_first_failing_check (arg : JobArgs) :
    (arg.UID = "" → validateArgs arg = some "missing UID") ∧
    (arg.UID ≠ "" → arg.Image = "" → validateArgs arg = some "missing Image") ∧
    (arg.UID ≠ "" → arg.Image ≠ "" → arg.Action = "" →
      validateArgs arg = some "missing Action") ∧
    (arg.UID ≠ "" → arg.Image ≠ "" → arg.Action ≠ "" → arg.JobName = "" →
      validateArgs arg = some "missing JobName") ∧
    (arg.UID ≠ "" → arg.Image ≠ "" → arg.Action ≠ "" → arg.JobName ≠ "" →
      regexpMatch jobNameFormat arg.JobName = false →
      validateArgs arg = some "JobName format is wrong") ∧
    (arg.UID ≠ "" → arg.Image ≠ "" → arg.Action ≠ "" → arg.JobName ≠ "" →
      regexpMatch jobNameFormat arg.JobName = true →
      (arg.Secret.Name = "" ∨ arg.Secret.Key = "") →
      validateArgs arg = some "invalid secret missing name or key") ∧
    (arg.UID ≠ "" → arg.Image ≠ "" → arg.Action ≠ "" → arg.JobName ≠ "" →
      regexpMatch jobNameFormat arg.JobName = true →
      arg.Secret.Name ≠ "" → arg.Secret.Key ≠ "" → arg.Owner = none →
      validateArgs arg = some "missing owner") ∧
    (arg.UID ≠ "" → arg.Image ≠ "" → arg.Action ≠ "" → arg.JobName ≠ "" →
      regexpMatch jobNameFormat arg.JobName = true →
      arg.Secret.Name ≠ "" → arg.Secret.Key ≠ "" → arg.Owner ≠ none →
      (arg.Action = ActionCreate →
        (arg.TopicID = "" → validateArgs arg = some "missing TopicID") ∧
        (arg.TopicID ≠ "" → arg.Schedule = "" → validateArgs arg = some "missing Schedule") ∧
        (arg.TopicID ≠ "" → arg.Schedule ≠ "" → arg.Data = "" →
          validateArgs arg = some "missing Data") ∧
        (arg.TopicID ≠ "" → arg.Schedule ≠ "" → arg.Data ≠ "" → validateArgs arg = none)) ∧
      (arg.Action ≠ ActionCreate → validateArgs arg = none)) ∧
    (validateArgs arg = none ↔
      arg.UID ≠ "" ∧ arg.Image ≠ "" ∧ arg.Action ≠ "" ∧ arg.JobName ≠ "" ∧
        regexpMatch jobNameFormat arg.JobName = true ∧
        arg.Secret.Name ≠ "" ∧ arg.Secret.Key ≠ "" ∧ arg.Owner ≠ none ∧
        (arg.Action = ActionCreate →
          arg.TopicID ≠ "" ∧ arg.Schedule ≠ "" ∧ arg.Data ≠ "")) := by
  have hne : ActionCreate ≠ "" := by decide
  unfold validateArgs
  refine ⟨?_, ?_, ?_, ?_, ?_, ?_, ?_, ?_, ?_⟩
  · intro h; simp [h]
  · intro h1 h2; simp [h1, h2]
  · intro h1 h2 h3; simp [h1, h2, h3]
  · intro h1 h2 h3 h4; simp [h1, h2, h3, h4]
  · intro h1 h2 h3 h4 h5; simp [h1, h2, h3, h4, h5]
  · intro h1 h2 h3 h4 h5 h6
    rcases h6 with h6 | h6 <;> simp [h1, h2, h3, h4, h5, h6]
  · intro h1 h2 h3 h4 h5 h6 h7 h8; simp [h1, h2, h3, h4, h5, h6, h7, h8]
  · intro h1 h2 h3 h4 h5 h6 h7 h8
    constructor
    · intro hc
      refine ⟨?_, ?_, ?_, ?_⟩
      · intro h; simp [h1, h2, h3, h4, h5, h6, h7, h8, hc, hne, h]
      · intro g h; simp [h1, h2, h3, h4, h5, h6, h7, h8, hc, hne, g, h]
      · intro g g2 h; simp [h1, h2, h3, h4, h5, h6, h7, h8, hc, hne, g, g2, h]
      · intro g g2 g3; simp [h1, h2, h3, h4, h5, h6, h7, h8, hc, hne, g, g2, g3]
    · intro hc; simp [h1, h2, h3, h4, h5, h6, h7, h8, hc]
  · by_cases h1 : arg.UID = ""
    · simp [h1]
    by_cases h2 : arg.Image = ""
    · simp [h1, h2]
    by_cases h3 : arg.Action = ""
    · simp [h1, h2, h3]
    by_cases h4 : arg.JobName = ""
    · simp [h1, h2, h3, h4]
    by_cases h5 : regexpMatch jobNameFormat arg.JobName = true
    swap
    · simp [h1, h2, h3, h4, h5]
    by_cases h6 : arg.Secret.Name = ""
    · simp [h1, h2, h3, h4, h5, h6]
    by_cases h7 : arg.Secret.Key = ""
    · simp [h1, h2, h3, h4, h5, h6, h7]
    by_cases h8 : arg.Owner = none
    · simp [h1, h2, h3, h4, h5, h6, h7, h8]
    by_cases hc : arg.Action = ActionCreate
    swap
    · simp [h1, h2, h3, h4, h5, h6, h7, h8, hc]
    by_cases h9 : arg.TopicID = ""
    · simp [h1, h2, h3, h4, h5, h6, h7, h8, hc, hne, h9]
    by_cases h10 : arg.Schedule = ""
    · simp [h1, h2, h3, h4, h5, h6, h7, h8, hc, hne, h9, h10]
    by_cases h11 : arg.Data = "" <;>
      simp [h1, h2, h3, h4, h5, h6, h7, h8, hc, hne, h9, h10, h11]

/-! ## Scheduler jobs: the format match and the last `/jobs/` -/

/-- A prefix that is stripped is the start of the text. -/
theorem stripPrefix_some (l s rest : List Char) (h : stripPrefix l s = some rest) :
    s = l ++ rest := by
  induction l generalizing s with
  | nil => simpa [stripPrefix] using h
  | cons p ps ih =>
    cases s with
    | nil => simp [stripPrefix] at h
    | cons c cs =>
      simp only [stripPrefix] at h
      by_cases hpc : p = c
      · simp only [hpc, if_true] at h
        rw [hpc, ih cs h]
        rfl
      · simp [hpc] at h

/-- The start of a text is stripped from it. -/
theorem stripPrefix_append (l rest : List Char) : stripPrefix l (l ++ rest) = some rest := by
  induction l with
  | nil => cases rest <;> rfl
  | cons p ps ih =>
    show stripPrefix (p :: ps) (p :: (ps ++ rest)) = some rest
    simp [stripPrefix, ih]

/-- What `.*` takes has no newline, and the rest of the pattern matches after it. -/
theorem matchAnyStar_elim (k : List Char → Bool) (s : List Char)
    (h : matchAnyStar k s = true) :
    ∃ a rest, s = a ++ rest ∧ '\n' ∉ a ∧ k rest = true := by
  induction s with
  | nil => exact ⟨[], [], rfl, by simp, by simpa [matchAnyStar] using h⟩
  | cons c cs ih =>
    simp only [matchAnyStar, Bool.or_eq_true, Bool.and_eq_true, bne_iff_ne, ne_eq] at h
    rcases h with h | ⟨hc, h⟩
    · exact ⟨[], c :: cs, rfl, by simp, h⟩
    · obtain ⟨a, rest, hs, ha, hk⟩ := ih h
      refine ⟨c :: a, rest, by simp [hs], ?_, hk⟩
      simp only [List.mem_cons, not_or]
      exact ⟨fun he => hc he.symm, ha⟩

/-- A text without newline is taken by `.*`. -/
theorem matchAnyStar_intro (k : List Char → Bool) (a rest : List Char) (ha : '\n' ∉ a)
    (hk : k rest = true) : matchAnyStar k (a ++ rest) = true := by
  induction a with
  | nil =>
    cases rest with
    | nil => simpa [matchAnyStar] using hk
    | cons c cs => simp [matchAnyStar, hk]
  | cons c cs ih =>
    simp only [List.mem_cons, not_or] at ha
    show matchAnyStar k (c :: (cs ++ rest)) = true
    simp only [matchAnyStar, Bool.or_eq_true, Bool.and_eq_true, bne_iff_ne, ne_eq]
    exact Or.inr ⟨fun he => ha.1 he.symm, ih ha.2⟩

/-- A pattern that matches somewhere matches at the start of some rest of the text. -/
theorem matchAnywhere_elim (p : List PatternItem) (s : List Char)
    (h : matchAnywhere p s = true) :
    ∃ pre rest, s = pre ++ rest ∧ matchHere p rest = true := by
  induction s with
  | nil => exact ⟨[], [], rfl, by simpa [matchAnywhere] using h⟩
  | cons c cs ih =>
    simp only [matchAnywhere, Bool.or_eq_true] at h
    rcases h with h | h
    · exact ⟨[], c :: cs, rfl, h⟩
    · obtain ⟨pre, rest, hs, hm⟩ := ih h
      exact ⟨c :: pre, rest, by simp [hs], hm⟩

/-- A pattern that matches at the start of a rest of the text matches somewhere. -/
theorem matchAnywhere_intro (p : List PatternItem) (pre rest : List Char)
    (h : matchHere p rest = true) : matchAnywhere p (pre ++ rest) = true := by
  induction pre with
  | nil =>
    cases rest with
    | nil => simpa [matchAnywhere] using h
    | cons c cs => simp [matchAnywhere, h]
  | cons c cs ih =>
    show matchAnywhere p (c :: (cs ++ rest)) = true
    simp [matchAnywhere, ih]

/-- A text that matches `jobNameFormat` has `projects/`, later `/locations/` and
later `/jobs/`, with no newline between them. -/
theorem jobNameFormat_elim (s : List Char) (h : matchAnywhere jobNameFormat s = true) :
    ∃ pre a b c, s = pre ++ ("projects/".data ++ (a ++ ("/locations/".data ++
      (b ++ ("/jobs/".data ++ c))))) ∧ '\n' ∉ a ∧ '\n' ∉ b := by
  obtain ⟨pre, r0, hs, hm⟩ := matchAnywhere_elim _ _ h
  simp only [jobNameFormat, matchHere] at hm
  cases h1 : stripPrefix "projects/".data r0 with
  | none => simp [h1] at hm
  | some r1 =>
    simp only [h1] at hm
    obtain ⟨a, r2, hr1, ha, hm2⟩ := matchAnyStar_elim _ _ hm
    cases h2 : stripPrefix "/locations/".data r2 with
    | none => simp [h2] at hm2
    | some r3 =>
      simp only [h2] at hm2
      obtain ⟨b, r4, hr3, hb, hm4⟩ := matchAnyStar_elim _ _ hm2
      cases h3 : stripPrefix "/jobs/".data r4 with
      | none => simp [h3] at hm4
      | some c =>
        refine ⟨pre, a, b, c, ?_, ha, hb⟩
        rw [hs, stripPrefix_some _ _ _ h1, hr1, stripPrefix_some _ _ _ h2, hr3,
          stripPrefix_some _ _ _ h3]

/-- A text with `projects/`, later `/locations/` and no newline between them
matches `parentFormat`. -/
theorem parentFormat_intro (pre a rest : List Char) (ha : '\n' ∉ a) :
    matchAnywhere parentFormat
      (pre ++ ("projects/".data ++ (a ++ ("/locations/".data ++ rest)))) = true := by
  apply matchAnywhere_intro
  simp only [parentFormat, matchHere, stripPrefix_append]
  apply matchAnyStar_intro _ _ _ ha
  simp only [stripPrefix_append]
  have := matchAnyStar_intro (fun _ => true) [] rest (by simp) rfl
  simpa using this

/-- The last index is at or after every instance of the separator. -/
theorem lastIndexChars_occurrence (sep pre post : List Char) :
    ∃ i, lastIndexChars sep (pre ++ (sep ++ post)) = some i ∧ pre.length ≤ i := by
  induction pre with
  | nil =>
    cases hs : sep ++ post with
    | nil =>
      have hsep : sep = [] := (List.append_eq_nil.mp hs).1
      exact ⟨0, by simp [lastIndexChars, hsep], by simp⟩
    | cons c cs =>
      simp only [List.nil_append, List.length_nil, Nat.zero_le, and_true]
      cases hl : lastIndexChars sep cs with
      | some i => exact ⟨i + 1, by simp [lastIndexChars, hl]⟩
      | none =>
        have hp : sep.isPrefixOf (c :: cs) = true := by
          rw [← hs]; exact List.isPrefixOf_iff_prefix.mpr ⟨post, rfl⟩
        exact ⟨0, by simp [lastIndexChars, hl, hp]⟩
  | cons c cs ih =>
    obtain ⟨i, hi, hle⟩ := ih
    refine ⟨i + 1, ?_, by simp; omega⟩
    show lastIndexChars sep (c :: (cs ++ (sep ++ post))) = some (i + 1)
    simp [lastIndexChars, hi]

/-- The separator stands at the last index. -/
theorem lastIndexChars_some (sep s : List Char) (i : Nat) (h : lastIndexChars sep s = some i) :
    ∃ post, s = s.take i ++ (sep ++ post) := by
  induction s generalizing i with
  | nil =>
    simp only [lastIndexChars] at h
    by_cases hsep : sep = []
    · exact ⟨[], by simp [hsep]⟩
    · simp [hsep] at h
  | cons c cs ih =>
    simp only [lastIndexChars] at h
    cases hl : lastIndexChars sep cs with
    | some j =>
      simp only [hl, Option.some.injEq] at h
      obtain ⟨post, hpost⟩ := ih j hl
      refine ⟨post, ?_⟩
      rw [← h, List.take_succ_cons, List.cons_append, ← hpost]
    | none =>
      simp only [hl] at h
      by_cases hp : sep.isPrefixOf (c :: cs) = true
      · simp only [hp, if_true, Option.some.injEq] at h
        obtain ⟨post, hpost⟩ := List.isPrefixOf_iff_prefix.mp hp
        exact ⟨post, by rw [← h]; simp [hpost]⟩
      · simp [hp] at h

/-- A job name that matches `jobNameFormat` has a last `/jobs/`: the text before
it is followed by `/jobs/`, no instance of `/jobs/` starts later, and the text
before it matches `parentFormat`. -/
theorem jobNameFormat_lastIndex (s : List Char) (h : matchAnywhere jobNameFormat s = true) :
    ∃ i, lastIndexChars "/jobs/".data s = some i ∧
      (∃ post, s = s.take i ++ ("/jobs/".data ++ post)) ∧
      (∀ pre post, s = pre ++ ("/jobs/".data ++ post) → pre.length ≤ i) ∧
      matchAnywhere parentFormat (s.take i) = true := by
  obtain ⟨pre, a, b, c, hs, ha, _⟩ := jobNameFormat_elim s h
  have hs2 : s = (pre ++ ("projects/".data ++ (a ++ ("/locations/".data ++ b)))) ++
      ("/jobs/".data ++ c) := by
    rw [hs]; simp only [List.append_assoc]
  obtain ⟨i, hi, hle⟩ := lastIndexChars_occurrence "/jobs/".data
    (pre ++ ("projects/".data ++ (a ++ ("/locations/".data ++ b)))) c
  rw [← hs2] at hi
  refine ⟨i, hi, lastIndexChars_some _ _ _ hi, ?_, ?_⟩
  · intro pre2 post2 hs3
    obtain ⟨j, hj, hle2⟩ := lastIndexChars_occurrence "/jobs/".data pre2 post2
    rw [← hs3, hi] at hj
    simp only [Option.some.injEq] at hj
    omega
  · have htake : s.take i = (pre ++ ("projects/".data ++ (a ++ ("/locations/".data ++ b)))) ++
        ("/jobs/".data ++ c).take
          (i - (pre ++ ("projects/".data ++ (a ++ ("/locations/".data ++ b)))).length) := by
      conv_lhs => rw [hs2]
      rw [List.take_append_eq_append_take, List.take_of_length_le hle]
    rw [htake]
    have := parentFormat_intro pre a
      (b ++ ("/jobs/".data ++ c).take
          (i - (pre ++ ("projects/".data ++ (a ++ ("/locations/".data ++ b)))).length)) ha
    simpa only [List.append_assoc] using this

/-- The environment of a job that is to be created, when its name has a
`/jobs/`. -/
theorem jobEnv_create_lastIndex (arg : JobArgs) (i : Nat) (haction : arg.Action = ActionCreate)
    (hidx : lastIndexChars "/jobs/".data arg.JobName.data = some i) :
    LastIndex arg.JobName "/jobs/" = (i : Int) ∧
    jobEnv arg = some [⟨"ACTION", arg.Action⟩, ⟨"JOB_NAME", arg.JobName⟩,
      ⟨"JOB_PARENT", String.mk (arg.JobName.data.take i)⟩,
      ⟨"PUBSUB_TOPIC_ID", arg.TopicID⟩, ⟨"SCHEDULE", arg.Schedule⟩, ⟨"DATA", arg.Data⟩] := by
  have hlast : LastIndex arg.JobName "/jobs/" = (i : Int) := by
    unfold LastIndex
    rw [hidx]
  refine ⟨hlast, ?_⟩
  unfold jobEnv
  simp only [haction, if_true, hlast, Int.toNat_ofNat]
  have hnn : ¬ ((i : Int) < 0) := by omega
  simp [hnn]

/-- The environment of a job that is not to be created. -/
theorem jobEnv_other (arg : JobArgs) (haction : arg.Action ≠ ActionCreate) :
    jobEnv arg = some [⟨"ACTION", arg.Action⟩, ⟨"JOB_NAME", arg.JobName⟩] := by
  unfold jobEnv
  simp [haction]

/-- Arguments that pass `validateArgs` have a job name that matches the format. -/
theorem validateArgs_format (arg : JobArgs) (h : validateArgs arg = none) :
    matchAnywhere jobNameFormat arg.JobName.data = true := by
  cases hm : regexpMatch jobNameFormat arg.JobName with
  | true => exact hm
  | false =>
    exfalso
    unfold validateArgs at h
    by_cases h1 : arg.UID = ""
    · simp [h1] at h
    by_cases h2 : arg.Image = ""
    · simp [h1, h2] at h
    by_cases h3 : arg.Action = ""
    · simp [h1, h2, h3] at h
    by_cases h4 : arg.JobName = ""
    · simp [h1, h2, h3, h4] at h
    simp [h1, h2, h3, h4, hm] at h

/-- The environment can be built for all arguments that pass `validateArgs`. -/
theorem jobEnv_of_valid (arg : JobArgs) (h : validateArgs arg = none) :
    ∃ env, jobEnv arg = some env := by
  by_cases hc : arg.Action = ActionCreate
  · obtain ⟨i, hi, _⟩ := jobNameFormat_lastIndex _ (validateArgs_format arg h)
    exact ⟨_, (jobEnv_create_lastIndex arg i hc hi).2⟩
  · exact ⟨_, jobEnv_other arg hc⟩

/-! ## Scheduler jobs: what `NewJobOps` returns -/

/-- C24: `NewJobOps` never slices out of range: for arguments that pass
`validateArgs` with the action create, `strings.LastIndex(JobName, "/jobs/")`
is not negative and `/jobs/` fits in the name after it; and for all arguments
`NewJobOps` returns the error `err` exactly when `validateArgs` returns `err`,
a job exactly when `validateArgs` returns nil, and never panics. -/
theorem NewJobOps_never_out_of_range {τ : Type} (helpers : JobHelpers τ) (arg : JobArgs) :
    (validateArgs arg = none → arg.Action = ActionCreate →
      0 ≤ LastIndex arg.JobName "/jobs/" ∧
      (LastIndex arg.JobName "/jobs/").toNat + "/jobs/".length ≤ arg.JobName.length) ∧
    (∀ err, NewJobOps helpers arg = .error err ↔ validateArgs arg = some err) ∧
    ((∃ j, NewJobOps helpers arg = .job j) ↔ validateArgs arg = none) ∧
    NewJobOps helpers arg ≠ .panics := by
  have hindex : validateArgs arg = none → arg.Action = ActionCreate →
      0 ≤ LastIndex arg.JobName "/jobs/" ∧
      (LastIndex arg.JobName "/jobs/").toNat + "/jobs/".length ≤ arg.JobName.length := by
    intro hvalid haction
    obtain ⟨i, hi, ⟨post, hpost⟩, _, _⟩ :=
      jobNameFormat_lastIndex _ (validateArgs_format arg hvalid)
    rw [(jobEnv_create_lastIndex arg i haction hi).1]
    refine ⟨by omega, ?_⟩
    have hlen := congrArg List.length hpost
    have hsix : "/jobs/".data.length = 6 := rfl
    simp only [List.length_append, List.length_take, hsix] at hlen
    show (i : Int).toNat + "/jobs/".data.length ≤ arg.JobName.data.length
    simp only [Int.toNat_ofNat, hsix]
    omega
  cases hv : validateArgs arg with
  | some e =>
    have hres : NewJobOps helpers arg = .error e := by
      unfold NewJobOps
      simp only [hv]
    refine ⟨(fun h => Option.noConfusion h), ?_, ?_, ?_⟩
    · intro err
      rw [hres]
      constructor
      · intro h; injection h with h; rw [h]
      · intro h; injection h with h; rw [h]
    · rw [hres]
      constructor
      · rintro ⟨j, hj⟩; cases hj
      · intro h; cases h
    · rw [hres]; intro h; cases h
  | none =>
    obtain ⟨owner, howner⟩ := validateArgs_owner arg hv
    obtain ⟨env, henv⟩ := jobEnv_of_valid arg hv
    have hres := NewJobOps_valid helpers arg owner env hv howner henv
    refine ⟨fun _ => hindex hv, ?_, ?_, ?_⟩
    · intro err
      rw [hres]
      constructor
      · intro h; cases h
      · intro h; cases h
    · rw [hres]
      exact ⟨fun _ => rfl, fun _ => ⟨_, rfl⟩⟩
    · rw [hres]; intro h; cases h

/-- C25: for arguments that pass `validateArgs` with the action create, the
value `p` of `JOB_PARENT` in the environment that `NewJobOps` hands to the pod
template is the longest prefix of JobName that is followed by `/jobs/`:
JobName is `p ++ "/jobs/" ++ s` for some `s`, no instance of `/jobs/` starts
later, and `p` matches `projects/.*/locations/.*`. -/
theorem NewJobOps_parent_longest_prefix {τ : Type} (helpers : JobHelpers τ) (arg : JobArgs)
    (hvalid : validateArgs arg = none) (haction : arg.Action = ActionCreate) :
    ∃ (p : String) (j : Job τ), NewJobOps helpers arg = .job j ∧
      j.Template = helpers.MakePodTemplate arg.Image arg.UID arg.Action arg.Secret
        [⟨"ACTION", arg.Action⟩, ⟨"JOB_NAME", arg.JobName⟩, ⟨"JOB_PARENT", p⟩,
          ⟨"PUBSUB_TOPIC_ID", arg.TopicID⟩, ⟨"SCHEDULE", arg.Schedule⟩, ⟨"DATA", arg.Data⟩] ∧
      (∃ s : String, arg.JobName = p ++ "/jobs/" ++ s) ∧
      (∀ q s : String, arg.JobName = q ++ "/jobs/" ++ s → q.length ≤ p.length) ∧
      regexpMatch parentFormat p = true := by
  obtain ⟨owner, howner⟩ := validateArgs_owner arg hvalid
  obtain ⟨i, hi, ⟨post, hpost⟩, hlast, hmatch⟩ :=
    jobNameFormat_lastIndex _ (validateArgs_format arg hvalid)
  have henv := (jobEnv_create_lastIndex arg i haction hi).2
  have hlen : (arg.JobName.data.take i).length = i := by
    have hl := congrArg List.length hpost
    have hsix : "/jobs/".data.length = 6 := rfl
    simp only [List.length_append, List.length_take, hsix] at hl
    simp only [List.length_take]
    omega
  refine ⟨String.mk (arg.JobName.data.take i), _,
    NewJobOps_valid helpers arg owner _ hvalid howner henv, rfl, ⟨String.mk post, ?_⟩, ?_, hmatch⟩
  · apply String.ext
    simp only [String.data_append]
    rw [List.append_assoc]
    exact hpost
  · intro q s hq
    have hd : arg.JobName.data = q.data ++ ("/jobs/".data ++ s.data) := by
      rw [hq]; simp [String.data_append]
    have := hlast q.data s.data hd
    show q.data.length ≤ (arg.JobName.data.take i).length
    omega

/-- C25, at the creation of `projects/p/locations/l/jobs/a/jobs/b`. -/
theorem NewJobOps_parent_longest_prefix_witness :
    validateArgs nestedJobArgs = none ∧ nestedJobArgs.Action = ActionCreate ∧
    ∃ (p : String) (j : Job (List EnvVar)), NewJobOps sampleHelpers nestedJobArgs = .job j ∧
      j.Template = sampleHelpers.MakePodTemplate nestedJobArgs.Image nestedJobArgs.UID
        nestedJobArgs.Action nestedJobArgs.Secret
        [⟨"ACTION", nestedJobArgs.Action⟩, ⟨"JOB_NAME", nestedJobArgs.JobName⟩,
          ⟨"JOB_PARENT", p⟩, ⟨"PUBSUB_TOPIC_ID", nestedJobArgs.TopicID⟩,
          ⟨"SCHEDULE", nestedJobArgs.Schedule⟩, ⟨"DATA", nestedJobArgs.Data⟩] ∧
      (∃ s : String, nestedJobArgs.JobName = p ++ "/jobs/" ++ s) ∧
      (∀ q s : String, nestedJobArgs.JobName = q ++ "/jobs/" ++ s → q.length ≤ p.length) ∧
      regexpMatch parentFormat p = true :=
  ⟨by decide, by decide,
    NewJobOps_parent_longest_prefix sampleHelpers nestedJobArgs (by decide) (by decide)⟩

/-- C26: for arguments that pass `validateArgs`, `NewJobOps` returns a job with
BackoffLimit 3 and Parallelism 1 whose pod template is made from the
environment `ACTION` = Action, `JOB_NAME` = JobName, followed, exactly when the
action is create, by `JOB_PARENT`, `PUBSUB_TOPIC_ID` = TopicID, `SCHEDULE` =
Schedule and `DATA` = Data, in this order; for any other action the
environment has the two entries `ACTION` and `JOB_NAME` only. -/
theorem NewJobOps_environment {τ : Type} (helpers : JobHelpers τ) (arg : JobArgs)
    (hvalid : validateArgs arg = none) :
    ∃ (j : Job τ) (env : List EnvVar), NewJobOps helpers arg = .job j ∧
      jobEnv arg = some env ∧
      j.Template = helpers.MakePodTemplate arg.Image arg.UID arg.Action arg.Secret env ∧
      j.BackoffLimit = some 3 ∧ j.Parallelism = some 1 ∧
      (arg.Action = ActionCreate →
        env = [⟨"ACTION", arg.Action⟩, ⟨"JOB_NAME", arg.JobName⟩,
          ⟨"JOB_PARENT",
            String.mk (arg.JobName.data.take (LastIndex arg.JobName "/jobs/").toNat)⟩,
          ⟨"PUBSUB_TOPIC_ID", arg.TopicID⟩, ⟨"SCHEDULE", arg.Schedule⟩,
          ⟨"DATA", arg.Data⟩]) ∧
      (arg.Action ≠ ActionCreate →
        env = [⟨"ACTION", arg.Action⟩, ⟨"JOB_NAME", arg.JobName⟩]) := by
  obtain ⟨owner, howner⟩ := validateArgs_owner arg hvalid
  by_cases hc : arg.Action = ActionCreate
  · obtain ⟨i, hi, _⟩ := jobNameFormat_lastIndex _ (validateArgs_format arg hvalid)
    obtain ⟨hlast, henv⟩ := jobEnv_create_lastIndex arg i hc hi
    refine ⟨_, _, NewJobOps_valid helpers arg owner _ hvalid howner henv, henv, rfl, rfl, rfl,
      ?_, fun h => absurd hc h⟩
    intro _
    rw [hlast, Int.toNat_ofNat]
  · have henv := jobEnv_other arg hc
    exact ⟨_, _, NewJobOps_valid helpers arg owner _ hvalid howner henv, henv, rfl, rfl, rfl,
      fun h => absurd h hc, fun _ => rfl⟩

/-- C26, at the deletion of `projects/p/locations/l/jobs/j`. -/
theorem NewJobOps_environment_witness :
    validateArgs deleteJobArgs = none ∧
    ∃ (j : Job (List EnvVar)) (env : List EnvVar),
      NewJobOps sampleHelpers deleteJobArgs = .job j ∧
      jobEnv deleteJobArgs = some env ∧
      j.Template = sampleHelpers.MakePodTemplate deleteJobArgs.Image deleteJobArgs.UID
        deleteJobArgs.Action deleteJobArgs.Secret env ∧
      j.BackoffLimit = some 3 ∧ j.Parallelism = some 1 ∧
      (deleteJobArgs.Action = ActionCreate →
        env = [⟨"ACTION", deleteJobArgs.Action⟩, ⟨"JOB_NAME", deleteJobArgs.JobName⟩,
          ⟨"JOB_PARENT", String.mk (deleteJobArgs.JobName.data.take
            (LastIndex deleteJobArgs.JobName "/jobs/").toNat)⟩,
          ⟨"PUBSUB_TOPIC_ID", deleteJobArgs.TopicID⟩, ⟨"SCHEDULE", deleteJobArgs.Schedule⟩,
          ⟨"DATA", deleteJobArgs.Data⟩]) ∧
      (deleteJobArgs.Action ≠ ActionCreate →
        env = [⟨"ACTION", deleteJobArgs.Action⟩, ⟨"JOB_NAME", deleteJobArgs.JobName⟩]) :=
  ⟨by decide, NewJobOps_environment sampleHelpers deleteJobArgs (by decide)⟩

/-! ## Scheduler jobs: the errors of `Run` -/

/-- C27: `Run` returns an error exactly when the client is nil (the error
`pub/sub client is nil`, whatever the action and without a call of the
provider), when the action is create and `CreateJob` of the provider returns an
error (that error, unchanged), or when the action is none of exists, create and
delete (the error `unknown action value` followed by the action); in every
other case it returns nil. -/
theorem run_error_cases (n : JobOps) :
    (n.client = none → n.Run = ⟨some "pub/sub client is nil", []⟩) ∧
    (∀ client, n.client = some client → n.Action = ActionCreate →
      n.Run.Err = client.CreateJob
        { Parent := n.Parent, Name := n.JobName,
          TopicName := "projects/" ++ n.Project ++ "/topics/" ++ n.Topic,
          Data := n.Data, Schedule := n.Schedule }) ∧
    (∀ client, n.client = some client → n.Action ≠ ActionExists →
      n.Action ≠ ActionCreate → n.Action ≠ ActionDelete →
      n.Run = ⟨some ("unknown action value " ++ n.Action), []⟩) ∧
    (∀ client, n.client = some client → (n.Action = ActionExists ∨ n.Action = ActionDelete) →
      n.Run = ⟨none, []⟩) ∧
    (n.Run.Err ≠ none ↔
      n.client = none ∨
      (∃ client, n.client = some client ∧ n.Action = ActionCreate ∧
        client.CreateJob
          { Parent := n.Parent, Name := n.JobName,
            TopicName := "projects/" ++ n.Project ++ "/topics/" ++ n.Topic,
            Data := n.Data, Schedule := n.Schedule } ≠ none) ∨
      (n.Action ≠ ActionExists ∧ n.Action ≠ ActionCreate ∧ n.Action ≠ ActionDelete)) := by
  have hce : ActionCreate ≠ ActionExists := by decide
  have hde : ActionDelete ≠ ActionExists := by decide
  have hdc : ActionDelete ≠ ActionCreate := by decide
  have hcreate : ∀ client, n.client = some client → n.Action = ActionCreate →
      n.Run.Err = client.CreateJob
        { Parent := n.Parent, Name := n.JobName,
          TopicName := "projects/" ++ n.Project ++ "/topics/" ++ n.Topic,
          Data := n.Data, Schedule := n.Schedule } := by
    intro client hcl ha
    unfold JobOps.Run
    simp only [hcl, ha, hce, if_false, if_true]
    cases hr : client.CreateJob
        { Parent := n.Parent, Name := n.JobName,
          TopicName := "projects/" ++ n.Project ++ "/topics/" ++ n.Topic,
          Data := n.Data, Schedule := n.Schedule } <;> rfl
  have hunknown : ∀ client, n.client = some client → n.Action ≠ ActionExists →
      n.Action ≠ ActionCreate → n.Action ≠ ActionDelete →
      n.Run = ⟨some ("unknown action value " ++ n.Action), []⟩ := by
    intro client hcl h1 h2 h3
    unfold JobOps.Run
    simp only [hcl, h1, h2, h3, if_false]
  have hquiet : ∀ client, n.client = some client →
      (n.Action = ActionExists ∨ n.Action = ActionDelete) → n.Run = ⟨none, []⟩ := by
    intro client hcl ha
    unfold JobOps.Run
    rcases ha with ha | ha
    · simp only [hcl, ha, if_true]
    · simp only [hcl, ha, hde, hdc, if_false, if_true]
  have hnil : n.client = none → n.Run = ⟨some "pub/sub client is nil", []⟩ := by
    intro hcl
    unfold JobOps.Run
    simp only [hcl]
  refine ⟨hnil, hcreate, hunknown, hquiet, ?_⟩
  cases hcl : n.client with
  | none =>
    rw [hnil hcl]
    simp
  | some client =>
    by_cases h1 : n.Action = ActionExists
    · rw [hquiet client hcl (Or.inl h1)]
      simp [h1, hce.symm]
    by_cases h2 : n.Action = ActionCreate
    · rw [hcreate client hcl h2]
      simp [h2, hce]
    by_cases h3 : n.Action = ActionDelete
    · rw [hquiet client hcl (Or.inr h3)]
      simp [h3, hde, hdc]
    · rw [hunknown client hcl h1 h2 h3]
      simp [h1, h2, h3]

/-! ## Validation: the errors of a sink that is set -/

mutual
/-- The leaves of `e.ViaField(prefix...)` are the leaves of `e` with the prefix
before each path. -/
theorem normalized_ViaFieldStruct (pfx : List String) :
    ∀ e : FieldError, normalized (e.ViaFieldStruct pfx) = e.normalizedStruct.map (viaFieldEntry pfx)
  | .mk m p d es => by
    rw [FieldError.ViaFieldStruct, normalized_ViaFieldErrors pfx es]
    by_cases hm : m = "" <;>
      simp [normalized, FieldError.normalizedStruct, normalizedErrors, viaFieldEntry, hm]
/-- The leaves of what the loop of `ViaField` returns. -/
theorem normalized_ViaFieldErrors (pfx : List String) :
    ∀ (es : List FieldError) (acc : Option FieldError),
      normalized (ViaFieldErrors pfx es acc) =
        normalized acc ++ (normalizedErrors es).map (viaFieldEntry pfx)
  | [], acc => by simp [ViaFieldErrors, normalizedErrors]
  | e :: es, acc => by
    rw [ViaFieldErrors, normalized_ViaFieldErrors pfx es, normalized_Also]
    simp [normalizedErrors, normalized_ViaFieldStruct pfx e]
end

/-- The leaves of `fe.ViaField(prefix...)`. -/
theorem normalized_ViaField (fe : Option FieldError) (pfx : List String) :
    normalized (ViaField fe pfx) = (normalized fe).map (viaFieldEntry pfx) := by
  cases fe with
  | none => rfl
  | some e => exact normalized_ViaFieldStruct pfx e

/-- The loop of `flatten` keeps the first piece at the head of the path, maybe
with an index glued to it. -/
theorem flattenPieces_head (ps : List (List Char)) :
    ∀ (h : List Char) (t : List (List Char)),
      ∃ h2 t2, flattenPieces (h :: t) ps = h2 :: t2 ∧ h <+: h2 := by
  induction ps with
  | nil => intro h t; exact ⟨h, t, rfl, List.prefix_refl h⟩
  | cons p ps ih =>
    intro h t
    rw [flattenPieces]
    by_cases hp : p = []
    · simp only [hp, if_true]; exact ih h t
    · simp only [hp, if_false]
      by_cases hi : (0 < (h :: t).length && isIndex p) = true
      · simp only [hi, if_true]
        cases t with
        | nil =>
          obtain ⟨h2, t2, heq, hpre⟩ := ih (h ++ p) []
          refine ⟨h2, t2, ?_, (List.prefix_append h p).trans hpre⟩
          simpa using heq
        | cons t1 ts =>
          obtain ⟨h2, t2, heq, hpre⟩ :=
            ih h ((t1 :: ts).dropLast ++ [(h :: t1 :: ts).getLast?.getD [] ++ p])
          exact ⟨h2, t2, by simpa using heq, hpre⟩
      · simp only [hi]
        obtain ⟨h2, t2, heq, hpre⟩ := ih h (t ++ [p])
        exact ⟨h2, t2, by simpa using heq, hpre⟩

/-- A path that `ViaField("sink")` has built starts with `sink`. -/
theorem flatten_sink_prefix (oldPath : String) :
    "sink".data <+: (flatten (["sink"] ++ [oldPath])).data := by
  have h0 : flattenPieces [] (splitDot "sink".data) = ["sink".data] := by decide
  obtain ⟨h2, t2, heq, hpre⟩ := flattenPieces_head (splitDot oldPath.data) "sink".data []
  have hflat : flattenParts [] (["sink"] ++ [oldPath]) = h2 :: t2 := by
    show flattenParts [] ["sink", oldPath] = h2 :: t2
    simp only [flattenParts, h0, heq]
  show "sink".data <+: (String.mk (joinDot (flattenParts [] (["sink"] ++ [oldPath])))).data
  rw [hflat]
  cases t2 with
  | nil => simpa [joinDot] using hpre
  | cons q rest =>
    simp only [joinDot]
    exact hpre.trans (List.prefix_append _ _)

/-- The check of a sink that is set never reports the path `sink` itself. -/
theorem sinkErrs_not_sink (sink : Destination) (hsink : sink ≠ ⟨none, none⟩) :
    ∀ e ∈ normalized (sinkErrs Destination.Validate sink), "sink" ∉ e.Paths := by
  generalize hv : sinkErrs Destination.Validate sink = v
  rcases sink with ⟨_ | ⟨k, ns, n, av⟩, _ | ⟨sc, h, p⟩⟩
  · exact absurd rfl hsink
  · by_cases h1 : sc = "" <;> by_cases h2 : h = "" <;>
      simp [sinkErrs, Destination.Validate, ValidateDestination, URL.IsAbs, h1, h2] at hv <;>
      subst hv <;> decide
  · by_cases h1 : n = "" <;> by_cases h2 : av = "" <;> by_cases h3 : k = "" <;>
      simp [sinkErrs, Destination.Validate, ValidateDestination, KReference.Validate,
        h1, h2, h3] at hv <;>
      subst hv <;> decide
  · by_cases h1 : sc = "" <;>
      simp [sinkErrs, Destination.Validate, ValidateDestination, URL.IsAbs, h1] at hv <;>
      subst hv <;> decide

/-- The leaves of the check of a sink that is set and fails its own validation. -/
theorem sinkErrs_failed (sinkValidate : Destination → Option FieldError) (sink : Destination)
    (e : FieldError) (hsink : sink ≠ ⟨none, none⟩) (hfail : sinkValidate sink = some e) :
    normalized (sinkErrs sinkValidate sink) = e.normalizedStruct.map (viaFieldEntry ["sink"]) := by
  unfold sinkErrs
  simp only [hsink, if_false, hfail]
  have hnone : normalized (none : Option FieldError) = [] := rfl
  have hsome : normalized (some e) = e.normalizedStruct := rfl
  rw [normalized_Also]
  simp [normalized_ViaField, hnone, hsome]

/-- The leaves of the validation of a reference that lacks its kind only. -/
theorem destination_validate_missing_kind (ref : KReference) (hk : ref.Kind = "")
    (hn : ref.Name ≠ "") (ha : ref.APIVersion ≠ "") :
    normalized (ViaField (Destination.Validate ⟨some ref, none⟩) ["sink"]) =
      [⟨"missing field(s)", ["sink.ref.kind"], ""⟩] := by
  generalize hv : ViaField (Destination.Validate ⟨some ref, none⟩) ["sink"] = v
  simp [Destination.Validate, ValidateDestination, KReference.Validate, hk, hn, ha] at hv
  subst hv
  decide

/-- C28: for every build spec whose sink is set but fails the validation of
the destination with the error `e`, the leaves `Validate` reports are the
leaves of `e`, each path with the prefix `sink` (so each path starts with
`sink`), followed by the leaves of the credential check; none of the leaves of
the sink has the path `sink` itself, so `sink` is not reported as missing; and
a reference that lacks only its kind is reported as the missing field
`sink.ref.kind`. -/
theorem build_validate_sink_error_prefixed (current : CloudBuildSourceSpec) (e : FieldError)
    (hsink : current.Sink ≠ ⟨none, none⟩) (hfail : current.Sink.Validate = some e) :
    normalized current.Validate =
      e.normalizedStruct.map (viaFieldEntry ["sink"]) ++
        normalized (ValidateCredential current.Secret current.ServiceAccountName) ∧
    (∀ leaf ∈ e.normalizedStruct.map (viaFieldEntry ["sink"]), ∀ p ∈ leaf.Paths,
      "sink".data <+: p.data ∧ p ≠ "sink") ∧
    (∀ ref : KReference, current.Sink = ⟨some ref, none⟩ → ref.Kind = "" → ref.Name ≠ "" →
      ref.APIVersion ≠ "" →
      e.normalizedStruct.map (viaFieldEntry ["sink"]) =
        [⟨"missing field(s)", ["sink.ref.kind"], ""⟩]) := by
  have hleaves := sinkErrs_failed Destination.Validate current.Sink e hsink hfail
  refine ⟨?_, ?_, ?_⟩
  · rw [CloudBuildSourceSpec.Validate, build_validate_normalized, hleaves]
  · intro leaf hleaf p hp
    constructor
    · simp only [List.mem_map] at hleaf
      obtain ⟨l0, _, rfl⟩ := hleaf
      simp only [viaFieldEntry, List.mem_map] at hp
      obtain ⟨old, _, rfl⟩ := hp
      exact flatten_sink_prefix old
    · intro hps
      rw [← hleaves] at hleaf
      exact sinkErrs_not_sink current.Sink hsink leaf hleaf (hps ▸ hp)
  · intro ref href hk hn ha
    have h := destination_validate_missing_kind ref hk hn ha
    rw [← href, hfail, normalized_ViaField] at h
    exact h

/-- C28, at a sink that is a reference with name and apiVersion and no kind. -/
theorem build_validate_sink_error_prefixed_witness :
    missingKindBuildSpec.Sink ≠ ⟨none, none⟩ ∧
    missingKindBuildSpec.Sink.Validate =
      some (.mk "" [] "" [.mk "missing field(s)" ["ref.kind"] "" []]) ∧
    normalized missingKindBuildSpec.Validate =
      [⟨"missing field(s)", ["sink.ref.kind"], ""⟩] :=
  ⟨by decide, rfl, by
    have h := build_validate_sink_error_prefixed missingKindBuildSpec
      (.mk "" [] "" [.mk "missing field(s)" ["ref.kind"] "" []]) (by decide) rfl
    rw [h.1]
    decide⟩

/-! ## One pass over a PullSubscription -/

/-- After `MarkUnknown` of a condition that is not the happy one, the condition
is Unknown with the reason and message given. -/
theorem GetCondition_MarkUnknown_of_ne (cs : ConditionSet) (t reason message : String)
    (l : List Condition) (hne : cs.Happy ≠ t) :
    GetCondition t (MarkUnknown cs t reason message l) =
      some ⟨t, .ConditionUnknown, reason, message⟩ := by
  have h1 := GetCondition_SetCondition ⟨t, .ConditionUnknown, reason, message⟩ l
  have h2 : ∀ s r m, GetCondition t (SetCondition ⟨cs.Happy, s, r, m⟩
      (SetCondition ⟨t, .ConditionUnknown, reason, message⟩ l)) =
      some ⟨t, .ConditionUnknown, reason, message⟩ := fun s r m =>
    GetCondition_SetCondition_SetCondition ⟨t, .ConditionUnknown, reason, message⟩
      ⟨cs.Happy, s, r, m⟩ l hne
  unfold MarkUnknown
  simp only []
  split
  · split
    · exact h1
    · exact h2 _ _ _
  · split
    · exact h2 _ _ _
    · exact h1

/-- A status write goes through when fewer updates meet a conflict than
attempts are allowed. -/
theorem updateStatus_succeeds (fuel attempts conflicts : Nat) (listerCopy serverCopy : Resource)
    (desired : ResourceStatus) (h : conflicts < fuel) :
    (updateStatus fuel attempts conflicts listerCopy serverCopy desired).2 = true := by
  induction fuel generalizing attempts conflicts with
  | zero => omega
  | succ fuel ih =>
    rw [updateStatus]
    simp only []
    generalize (if attempts = 0 then listerCopy else serverCopy) = existing
    by_cases he : existing.Status = desired
    · simp [he]
    · cases conflicts with
      | zero => simp [he]
      | succ c =>
        simp only [he, if_false]
        exact ih _ _ (by omega)

theorem writeStatus_succeeds (maxAttempts conflicts : Nat) (original serverCopy : Resource)
    (desired : ResourceStatus) (h : conflicts < maxAttempts) :
    (writeStatus maxAttempts conflicts original serverCopy desired).2 = true := by
  unfold writeStatus
  split
  · rfl
  · exact updateStatus_succeeds _ _ _ _ _ _ h

/-- Every pass over a PullSubscription observes the generation. -/
theorem pullSubscriptionPass_generation (env : PullSubscriptionEnv) (ps : Resource) :
    (pullSubscriptionPass env ps).Result.Object.Status.ObservedGeneration = ps.Generation := by
  unfold pullSubscriptionPass
  simp only []
  split
  · rfl
  · split <;> rfl

/-- Every pass over a source observes the generation. -/
theorem sourceReconcileKind_generation (kind : SourceKind) (cluster : Cluster)
    (source : Resource) :
    (sourceReconcileKind kind cluster source).Object.Status.ObservedGeneration =
      source.Generation := by
  have hprop : ∀ (ps : Resource) (status : ResourceStatus),
      (propagatePullSubscriptionStatus ps status).1.ObservedGeneration =
        status.ObservedGeneration := by
    intro ps status
    unfold propagatePullSubscriptionStatus
    split
    · rfl
    · split <;> rfl
  unfold sourceReconcileKind
  simp only []
  split
  · simp only [hprop]
  · simp only [hprop]

/-- The pass over a PullSubscription whose sink cannot be resolved. -/
theorem pullSubscriptionPass_unresolved (env : PullSubscriptionEnv) (ps : Resource)
    (err : String) (hsink : env.ResolveSink ps.Sink = .failed err) :
    GetCondition SinkResolved (pullSubscriptionPass env ps).Result.Object.Status.Conditions =
      some ⟨SinkResolved, .ConditionUnknown, "InvalidSink", err⟩ ∧
    (pullSubscriptionPass env ps).Result.Creates = [] ∧
    (pullSubscriptionPass env ps).Result.Updates = [] ∧
    (pullSubscriptionPass env ps).ProviderCalls = [] ∧
    (pullSubscriptionPass env ps).DataPlaneCreates = [] ∧
    (pullSubscriptionPass env ps).Result.Event =
      some ⟨EventTypeWarning, "InvalidSink", "InvalidSink: " ++ err⟩ := by
  have hne : pullSubscriptionCondSet.Happy ≠ SinkResolved := by decide
  unfold pullSubscriptionPass
  simp only [hsink]
  exact ⟨GetCondition_MarkUnknown_of_ne _ _ _ _ _ hne, by trivial, by trivial, by trivial,
    by trivial, by trivial⟩

/-- C22: for every PullSubscription that is not being deleted and whose sink
the resolver cannot resolve, failing with the error `err`, the pass sets the
condition SinkResolved to Unknown (not False) in every status it writes, and
writes one unless the condition was there already; it creates and updates
nothing on the cluster, makes no call to the provider and creates neither a
scaled object nor a receive adapter; and, the status write going through, it
returns no error and its last event is the Warning `InvalidSink` whose message
ends with `err`. -/
theorem pullSubscription_unresolved_sink (env : PullSubscriptionEnv) (finalizerName : String)
    (maxAttempts : Nat) (deleteSubscription : String → DeleteResult) (cluster : Cluster)
    (key ns name : String) (ps : Resource) (err : String)
    (hkey : SplitMetaNamespaceKey key = some (ns, name))
    (hobject : getResource cluster.Objects ns name = some ps)
    (hlive : ps.Deleted = false)
    (hsink : env.ResolveSink ps.Sink = .failed err)
    (hconflicts : cluster.UpdateConflicts < maxAttempts) :
    (∀ u ∈ (Reconcile (pullSubscriptionReconciler finalizerName maxAttempts
          (pullSubscriptionReconcileKind env) deleteSubscription) cluster key).Effects.StatusUpdates,
      GetCondition SinkResolved u.Status.Conditions =
        some ⟨SinkResolved, .ConditionUnknown, "InvalidSink", err⟩) ∧
    (GetCondition SinkResolved ps.Status.Conditions ≠
        some ⟨SinkResolved, .ConditionUnknown, "InvalidSink", err⟩ →
      (Reconcile (pullSubscriptionReconciler finalizerName maxAttempts
        (pullSubscriptionReconcileKind env) deleteSubscription) cluster key).Effects.StatusUpdates
        ≠ []) ∧
    (Reconcile (pullSubscriptionReconciler finalizerName maxAttempts
      (pullSubscriptionReconcileKind env) deleteSubscription) cluster key).Effects.Creates = [] ∧
    (pullSubscriptionPass env (setFinalizer finalizerName ps).1).Result.Updates = [] ∧
    (pullSubscriptionPass env (setFinalizer finalizerName ps).1).ProviderCalls = [] ∧
    (pullSubscriptionPass env (setFinalizer finalizerName ps).1).DataPlaneCreates = [] ∧
    (Reconcile (pullSubscriptionReconciler finalizerName maxAttempts
      (pullSubscriptionReconcileKind env) deleteSubscription) cluster key).Err = none ∧
    (Reconcile (pullSubscriptionReconciler finalizerName maxAttempts
      (pullSubscriptionReconcileKind env) deleteSubscription) cluster key).Effects.Events =
      (setFinalizer finalizerName ps).2.2 ++
        [⟨EventTypeWarning, "InvalidSink", "InvalidSink: " ++ err⟩] := by
  obtain ⟨hupd, hcreates, -, hevents⟩ := Reconcile_live
    (pullSubscriptionReconciler finalizerName maxAttempts (pullSubscriptionReconcileKind env)
      deleteSubscription) cluster key ns name ps hkey hobject hlive
  have hfin : (pullSubscriptionReconciler finalizerName maxAttempts
      (pullSubscriptionReconcileKind env) deleteSubscription).FinalizerName = finalizerName := rfl
  have hmax : (pullSubscriptionReconciler finalizerName maxAttempts
      (pullSubscriptionReconcileKind env) deleteSubscription).MaxUpdateAttempts = maxAttempts := rfl
  have hkind : (pullSubscriptionReconciler finalizerName maxAttempts
      (pullSubscriptionReconcileKind env) deleteSubscription).ReconcileKind =
      pullSubscriptionReconcileKind env := rfl
  simp only [hfin, hmax, hkind, pullSubscriptionReconcileKind] at hupd hcreates hevents
  have hobj := setFinalizer_object finalizerName ps
  have hsink2 : env.ResolveSink (setFinalizer finalizerName ps).1.Sink = .failed err := by
    rw [hobj]; exact hsink
  obtain ⟨hcond, hc, hu, hp, hd, he⟩ :=
    pullSubscriptionPass_unresolved env (setFinalizer finalizerName ps).1 err hsink2
  obtain ⟨herr, hev⟩ := hevents (writeStatus_succeeds _ _ _ _ _ hconflicts)
  refine ⟨?_, ?_, ?_, hu, hp, hd, herr, ?_⟩
  · intro u hu
    rw [hupd] at hu
    rw [writeStatus_status _ _ _ _ _ u hu]
    exact hcond
  · intro hne
    rw [hupd]
    apply writeStatus_ne_nil _ _ _ _ _ (by omega)
    intro heq
    apply hne
    rw [heq]
    exact hcond
  · rw [hcreates, hc]
  · rw [hev, he]
    rfl

/-- C22, at the test `cannot get sink`. -/
theorem pullSubscription_unresolved_sink_witness :
    SplitMetaNamespaceKey "testnamespace/source" = some ("testnamespace", "source") ∧
    getResource clusterPullSubscription.Objects "testnamespace" "source" =
      some testSourcePullSubscription ∧
    testSourcePullSubscription.Deleted = false ∧
    sinkNotFoundEnv.ResolveSink testSourcePullSubscription.Sink = .failed sinkNotFoundError ∧
    clusterPullSubscription.UpdateConflicts < 5 ∧
    (Reconcile (pullSubscriptionReconciler pullSubscriptionFinalizerName 5
        (pullSubscriptionReconcileKind sinkNotFoundEnv) failingDelete) clusterPullSubscription
        "testnamespace/source").Effects.StatusUpdates ≠ [] ∧
    (Reconcile (pullSubscriptionReconciler pullSubscriptionFinalizerName 5
        (pullSubscriptionReconcileKind sinkNotFoundEnv) failingDelete) clusterPullSubscription
        "testnamespace/source").Effects.Events =
      [⟨EventTypeNormal, "FinalizerUpdate", "Updated \"source\" finalizers"⟩,
        ⟨EventTypeWarning, "InvalidSink", "InvalidSink: " ++ sinkNotFoundError⟩] :=
  ⟨by decide, by decide, by decide, rfl, by decide,
    (pullSubscription_unresolved_sink sinkNotFoundEnv pullSubscriptionFinalizerName 5
      failingDelete clusterPullSubscription "testnamespace/source" "testnamespace" "source"
      testSourcePullSubscription sinkNotFoundError (by decide) (by decide) (by decide) rfl
      (by decide)).2.1 (by decide),
    (pullSubscription_unresolved_sink sinkNotFoundEnv pullSubscriptionFinalizerName 5
      failingDelete clusterPullSubscription "testnamespace/source" "testnamespace" "source"
      testSourcePullSubscription sinkNotFoundError (by decide) (by decide) (by decide) rfl
      (by decide)).2.2.2.2.2.2.2⟩

/-- C21, refuted: in the test `cannot get sink` the PullSubscription has
generation 1 and has observed generation 0; the pass ends with the Warning
`InvalidSink`, and the one status it writes has observed generation 1. -/
theorem failed_pass_observedGeneration_counterexample :
    testSourcePullSubscription.Generation = 1 ∧
    testSourcePullSubscription.Status.ObservedGeneration = 0 ∧
    ((Reconcile (pullSubscriptionReconciler pullSubscriptionFinalizerName 5
        (pullSubscriptionReconcileKind sinkNotFoundEnv) failingDelete) clusterPullSubscription
        "testnamespace/source").Effects.Events.map fun e => (e.EventType, e.Reason)) =
      [("Normal", "FinalizerUpdate"), ("Warning", "InvalidSink")] ∧
    ((Reconcile (pullSubscriptionReconciler pullSubscriptionFinalizerName 5
        (pullSubscriptionReconcileKind sinkNotFoundEnv) failingDelete) clusterPullSubscription
        "testnamespace/source").Effects.StatusUpdates.map fun u =>
          u.Status.ObservedGeneration) = [1] := by
  decide

/-- C21, amended: every pass over an object that is not being deleted sets
the observed generation to the generation of the object, whether or not the
pass succeeds: every status a pass over a PullSubscription or over a source
writes has the observed generation equal to the generation, and a status is
written whenever the generation had not been observed and an attempt is
allowed. -/
theorem pass_observes_generation (cluster : Cluster) (key ns name : String)
    (original : Resource)
    (hkey : SplitMetaNamespaceKey key = some (ns, name))
    (hobject : getResource cluster.Objects ns name = some original)
    (hlive : original.Deleted = false) :
    (∀ (env : PullSubscriptionEnv) (finalizerName : String) (maxAttempts : Nat)
        (deleteSubscription : String → DeleteResult),
      (∀ u ∈ (Reconcile (pullSubscriptionReconciler finalizerName maxAttempts
            (pullSubscriptionReconcileKind env) deleteSubscription) cluster
            key).Effects.StatusUpdates,
        u.Status.ObservedGeneration = original.Generation) ∧
      (0 < maxAttempts → original.Status.ObservedGeneration ≠ original.Generation →
        (Reconcile (pullSubscriptionReconciler finalizerName maxAttempts
          (pullSubscriptionReconcileKind env) deleteSubscription) cluster
          key).Effects.StatusUpdates ≠ [])) ∧
    (∀ (kind : SourceKind) (maxAttempts : Nat),
      (∀ u ∈ (Reconcile (sourceReconciler kind maxAttempts) cluster key).Effects.StatusUpdates,
        u.Status.ObservedGeneration = original.Generation) ∧
      (0 < maxAttempts → original.Status.ObservedGeneration ≠ original.Generation →
        (Reconcile (sourceReconciler kind maxAttempts) cluster key).Effects.StatusUpdates
          ≠ [])) := by
  have hall : ∀ r : KindReconciler,
      (∀ c o, (r.ReconcileKind c o).Object.Status.ObservedGeneration = o.Generation) →
      (∀ u ∈ (Reconcile r cluster key).Effects.StatusUpdates,
        u.Status.ObservedGeneration = original.Generation) ∧
      (0 < r.MaxUpdateAttempts → original.Status.ObservedGeneration ≠ original.Generation →
        (Reconcile r cluster key).Effects.StatusUpdates ≠ []) := by
    intro r hr
    obtain ⟨hupd, -, -, -⟩ := Reconcile_live r cluster key ns name original hkey hobject hlive
    have hobj := setFinalizer_object r.FinalizerName original
    have hgen : (setFinalizer r.FinalizerName original).1.Generation = original.Generation := by
      rw [hobj]
    have hdesired := hr cluster (setFinalizer r.FinalizerName original).1
    rw [hgen] at hdesired
    constructor
    · intro u hu
      rw [hupd] at hu
      rw [writeStatus_status _ _ _ _ _ u hu]
      exact hdesired
    · intro hfuel hne
      rw [hupd]
      apply writeStatus_ne_nil _ _ _ _ _ hfuel
      intro heq
      apply hne
      rw [heq]
      exact hdesired
  constructor
  · intro env finalizerName maxAttempts deleteSubscription
    exact hall _ (fun _ o => pullSubscriptionPass_generation env o)
  · intro kind maxAttempts
    exact hall _ (fun c o => sourceReconcileKind_generation kind c o)

/-- C21, amended, at the test `create client fails`. -/
theorem pass_observes_generation_witness :
    SplitMetaNamespaceKey "testnamespace/source" = some ("testnamespace", "source") ∧
    getResource clusterPullSubscription.Objects "testnamespace" "source" =
      some testSourcePullSubscription ∧
    testSourcePullSubscription.Deleted = false ∧
    ((Reconcile (pullSubscriptionReconciler pullSubscriptionFinalizerName 5
        (pullSubscriptionReconcileKind createClientFailsEnv) failingDelete)
        clusterPullSubscription "testnamespace/source").Effects.Events.map fun e =>
          (e.EventType, e.Reason)) =
      [("Normal", "FinalizerUpdate"), ("Warning", "SubscriptionReconcileFailed")] ∧
    (∀ u ∈ (Reconcile (pullSubscriptionReconciler pullSubscriptionFinalizerName 5
        (pullSubscriptionReconcileKind createClientFailsEnv) failingDelete)
        clusterPullSubscription "testnamespace/source").Effects.StatusUpdates,
      u.Status.ObservedGeneration = testSourcePullSubscription.Generation) ∧
    (Reconcile (pullSubscriptionReconciler pullSubscriptionFinalizerName 5
        (pullSubscriptionReconcileKind createClientFailsEnv) failingDelete)
        clusterPullSubscription "testnamespace/source").Effects.StatusUpdates ≠ [] :=
  ⟨by decide, by decide, by decide, by decide,
    ((pass_observes_generation clusterPullSubscription "testnamespace/source" "testnamespace"
      "source" testSourcePullSubscription (by decide) (by decide) (by decide)).1
      createClientFailsEnv pullSubscriptionFinalizerName 5 failingDelete).1,
    ((pass_observes_generation clusterPullSubscription "testnamespace/source" "testnamespace"
      "source" testSourcePullSubscription (by decide) (by decide) (by decide)).1
      createClientFailsEnv pullSubscriptionFinalizerName 5 failingDelete).2 (by decide)
      (by decide)⟩

/-! ## Scheduler jobs: what the job depends on -/

/-- C13: the result of `NewJobOps` is fixed by its JobArgs and by what the
helpers return for the arguments it passes them: two calls whose helpers
agree there return equal results, and an error does not depend on the helpers
at all. The job returned is named `SchedulerJobName(Owner, Action)`, is in the
namespace of the owner and has exactly one owner reference, to the owner, with
its API version, kind, name and UID, marked controller and blocking deletion.
So name, namespace and owner reference are the same for two calls with the
same owner and action, whatever the other arguments, whenever the calls are
made (the clock and the random source may differ) and whatever the other
helpers return, as long as `SchedulerJobName` itself gives the same name for
the same owner and action. A job is returned for all arguments that pass
`validateArgs`. -/
theorem NewJobOps_deterministic {τ : Type} :
    (∀ (helpers : JobHelpers τ) (arg : JobArgs) (j : Job τ),
      NewJobOps helpers arg = .job j →
      ∃ owner, arg.Owner = some owner ∧
        j.Name = helpers.SchedulerJobName owner arg.Action ∧
        j.Namespace = owner.Namespace ∧
        j.OwnerReferences =
          [{ APIVersion := owner.APIVersion, Kind := owner.Kind, Name := owner.Name,
             UID := owner.UID, Controller := some true, BlockOwnerDeletion := some true }]) ∧
    (∀ (helpersAt : Ambient → JobHelpers τ) (w1 w2 : Ambient) (a b : JobArgs) (ja jb : Job τ),
      (∀ owner action, (helpersAt w1).SchedulerJobName owner action =
        (helpersAt w2).SchedulerJobName owner action) →
      a.Owner = b.Owner → a.Action = b.Action →
      NewJobOps (helpersAt w1) a = .job ja → NewJobOps (helpersAt w2) b = .job jb →
      ja.Name = jb.Name ∧ ja.Namespace = jb.Namespace ∧
        ja.OwnerReferences = jb.OwnerReferences) ∧
    (∀ (h1 h2 : JobHelpers τ) (arg : JobArgs),
      (∀ owner env, arg.Owner = some owner → jobEnv arg = some env →
        h1.SchedulerJobName owner arg.Action = h2.SchedulerJobName owner arg.Action ∧
        h1.SchedulerJobLabels owner arg.Action = h2.SchedulerJobLabels owner arg.Action ∧
        h1.MakePodTemplate arg.Image arg.UID arg.Action arg.Secret env =
          h2.MakePodTemplate arg.Image arg.UID arg.Action arg.Secret env) →
      NewJobOps h1 arg = NewJobOps h2 arg) ∧
    (∀ (h1 h2 : JobHelpers τ) (arg : JobArgs) (err : String),
      NewJobOps h1 arg = .error err → NewJobOps h2 arg = .error err) ∧
    (∀ (helpers : JobHelpers τ) (arg : JobArgs), validateArgs arg = none →
      ∃ j, NewJobOps helpers arg = .job j) := by
  have herror : ∀ (helpers : JobHelpers τ) (arg : JobArgs) (e : String),
      validateArgs arg = some e → NewJobOps helpers arg = .error e := by
    intro helpers arg e hv
    unfold NewJobOps
    simp only [hv]
  have hjob : ∀ (helpers : JobHelpers τ) (arg : JobArgs), validateArgs arg = none →
      ∃ owner env, arg.Owner = some owner ∧ jobEnv arg = some env ∧
        NewJobOps helpers arg = .job
          { Name := helpers.SchedulerJobName owner arg.Action
            Namespace := owner.Namespace
            Labels := helpers.SchedulerJobLabels owner arg.Action
            OwnerReferences := [NewControllerRef owner]
            BackoffLimit := some 3
            Parallelism := some 1
            Template := helpers.MakePodTemplate arg.Image arg.UID arg.Action arg.Secret env } := by
    intro helpers arg hv
    obtain ⟨owner, howner⟩ := validateArgs_owner arg hv
    obtain ⟨env, henv⟩ := jobEnv_of_valid arg hv
    exact ⟨owner, env, howner, henv, NewJobOps_valid helpers arg owner env hv howner henv⟩
  have hshape : ∀ (helpers : JobHelpers τ) (arg : JobArgs) (j : Job τ),
      NewJobOps helpers arg = .job j →
      ∃ owner, arg.Owner = some owner ∧
        j.Name = helpers.SchedulerJobName owner arg.Action ∧
        j.Namespace = owner.Namespace ∧
        j.OwnerReferences =
          [{ APIVersion := owner.APIVersion, Kind := owner.Kind, Name := owner.Name,
             UID := owner.UID, Controller := some true, BlockOwnerDeletion := some true }] := by
    intro helpers arg j h
    cases hv : validateArgs arg with
    | some e =>
      rw [herror helpers arg e hv] at h
      cases h
    | none =>
      obtain ⟨owner, env, howner, -, hres⟩ := hjob helpers arg hv
      rw [hres] at h
      injection h with h
      subst h
      exact ⟨owner, howner, rfl, rfl, rfl⟩
  refine ⟨hshape, ?_, ?_, ?_, ?_⟩
  · intro helpersAt w1 w2 a b ja jb hname howner haction ha hb
    obtain ⟨oa, hoa, h1, h2, h3⟩ := hshape _ a ja ha
    obtain ⟨ob, hob, h4, h5, h6⟩ := hshape _ b jb hb
    have : oa = ob := by
      rw [hoa, hob] at howner
      exact Option.some.inj howner
    subst this
    rw [h1, h2, h3, h4, h5, h6, haction, hname]
    exact ⟨rfl, rfl, rfl⟩
  · intro h1 h2 arg hagree
    cases hv : validateArgs arg with
    | some e => rw [herror h1 arg e hv, herror h2 arg e hv]
    | none =>
      obtain ⟨owner, env, howner, henv, hres1⟩ := hjob h1 arg hv
      obtain ⟨owner2, env2, howner2, henv2, hres2⟩ := hjob h2 arg hv
      have ho : owner2 = owner := by
        rw [howner] at howner2
        exact (Option.some.inj howner2).symm
      have he : env2 = env := by
        rw [henv] at henv2
        exact (Option.some.inj henv2).symm
      subst ho he
      obtain ⟨e1, e2, e3⟩ := hagree owner2 env2 howner henv
      rw [hres1, hres2, e1, e2, e3]
  · intro h1 h2 arg err h
    cases hv : validateArgs arg with
    | some e =>
      rw [herror h1 arg e hv] at h
      rw [herror h2 arg e hv]
      exact h
    | none =>
      obtain ⟨owner, env, -, -, hres⟩ := hjob h1 arg hv
      rw [hres] at h
      cases h
  · intro helpers arg hv
    obtain ⟨owner, env, -, -, hres⟩ := hjob helpers arg hv
    exact ⟨_, hres⟩

end KnativeGcp
